import Mathlib

/-!
# Capture-and-encode pipeline of the recorder

A shallow embedding of `src/recorder/EncoderSettings.{hpp,cpp}`,
`src/recorder/FrameGrabber.{hpp,cpp}` and `src/recorder/VideoRecorder.{hpp,cpp}`.

Conventions of the embedding:

* `u32` / `u64` values are natural numbers; every arithmetic operation that can
  wrap in the source is written with an explicit `% 2^32` / `% 2^64`.
* The two `i64` timestamp counters are integers without bound: their overflow is
  undefined in the source.  The `int` chunk size of the audio drain is reduced
  with `toInt32`.
* A loop that the source may never leave takes a number of iterations allowed
  and returns `none` when that number does not suffice.
* `Result<void>` is `Except String Unit`; the string is the error message.
* A pointer to a library object is an `Option`: `none` is `nullptr`.
* Calls into the encoder library and into OpenGL are external.  Their outcomes
  are supplied by explicit outcome records, and every such call is appended to
  an observation log kept next to the program state.
-/

namespace vc

/-! ## EncoderSettings.hpp -/

/-- Video codec options (`enum class VideoCodec`). -/
inductive VideoCodec where
  | H264 | H265 | VP9 | AV1 | ProRes | FFV1
  deriving DecidableEq, Repr

/-- Audio codec options (`enum class AudioCodec`). -/
inductive AudioCodec where
  | AAC | Opus | FLAC | MP3 | PCM
  deriving DecidableEq, Repr

/-- Container format (`enum class Container`). -/
inductive Container where
  | MP4 | MKV | WebM | MOV | AVI
  deriving DecidableEq, Repr

/-- Encoder speed preset (`enum class EncoderPreset`). -/
inductive EncoderPreset where
  | Ultrafast | Superfast | Veryfast | Faster | Fast | Medium | Slow | Slower | Veryslow | Placebo
  deriving DecidableEq, Repr

/-- Pixel format (`enum class PixelFormat`). -/
inductive PixelFormat where
  | YUV420P | YUV422P | YUV444P | RGB24
  deriving DecidableEq, Repr

/-- The `struct VideoSettings`, with the defaults of the header. -/
structure VideoSettings where
  codec : VideoCodec := VideoCodec.H264
  width : Nat := 1920
  height : Nat := 1080
  fps : Nat := 60
  crf : Nat := 18
  bitrate : Nat := 0
  preset : EncoderPreset := EncoderPreset.Medium
  pixelFormat : PixelFormat := PixelFormat.YUV420P
  gopSize : Nat := 0
  bFrames : Nat := 3
  twoPass : Bool := false
  extraOptions : String := ""
  deriving DecidableEq, Repr

/-- The `struct AudioSettings`, with the defaults of the header. -/
structure AudioSettings where
  codec : AudioCodec := AudioCodec.AAC
  sampleRate : Nat := 48000
  channels : Nat := 2
  bitrate : Nat := 320
  deriving DecidableEq, Repr

/-- The `struct EncoderSettings`; `outputPath` is the path as a string. -/
structure EncoderSettings where
  video : VideoSettings := {}
  audio : AudioSettings := {}
  container : Container := Container.MP4
  outputPath : String := ""
  title : String := ""
  artist : String := ""
  comment : String := "Recorded with VibeChad - I use Arch btw"
  deriving DecidableEq, Repr

/-- The `VideoSettings::codecName`: the encoder name handed to the library. -/
def VideoSettings.codecName (v : VideoSettings) : String :=
  match v.codec with
  | VideoCodec.H264 => "libx264"
  | VideoCodec.H265 => "libx265"
  | VideoCodec.VP9 => "libvpx-vp9"
  | VideoCodec.AV1 => "libaom-av1"
  | VideoCodec.ProRes => "prores_ks"
  | VideoCodec.FFV1 => "ffv1"

/-- The `AudioSettings::codecName`. -/
def AudioSettings.codecName (a : AudioSettings) : String :=
  match a.codec with
  | AudioCodec.AAC => "aac"
  | AudioCodec.Opus => "libopus"
  | AudioCodec.FLAC => "flac"
  | AudioCodec.MP3 => "libmp3lame"
  | AudioCodec.PCM => "pcm_s16le"

/-- The `EncoderSettings::validate` (EncoderSettings.cpp, lines 67-99): the checks
are made in the order of the source and the first one that fails decides the
message. -/
def EncoderSettings.validate (s : EncoderSettings) : Except String Unit :=
  if s.container = Container.WebM ∧ (s.video.codec ≠ VideoCodec.VP9 ∧ s.video.codec ≠ VideoCodec.AV1) then
    Except.error "WebM requires VP9 or AV1 video codec"
  else if s.container = Container.WebM ∧ s.audio.codec ≠ AudioCodec.Opus then
    Except.error "WebM requires Opus audio codec"
  else if (s.container = Container.MP4 ∨ s.container = Container.MOV) ∧
      (s.video.codec = VideoCodec.VP9 ∨ s.video.codec = VideoCodec.FFV1) then
    Except.error "MP4/MOV doesn't support VP9 or FFV1"
  else if s.video.width = 0 ∨ s.video.height = 0 then
    Except.error "Invalid video dimensions"
  else if s.video.width % 2 ≠ 0 ∨ s.video.height % 2 ≠ 0 then
    Except.error "Video dimensions must be even numbers"
  else if s.video.crf > 51 then
    Except.error "CRF must be between 0 and 51"
  else
    Except.ok ()

/-! ## FrameGrabber.hpp / FrameGrabber.cpp -/

/-- The `struct GrabbedFrame`: pixel bytes, dimensions, timestamp (microseconds)
and sequence number. -/
structure GrabbedFrame where
  data : List Nat := []
  width : Nat := 0
  height : Nat := 0
  timestamp : Int := 0
  frameNumber : Nat := 0
  deriving DecidableEq, Repr

/-- What `grab` reads of a `RenderTarget`: its dimensions and the bytes that
`readPixels` delivers (RGBA, row after row, bottom row first). -/
structure RenderTarget where
  width : Nat
  height : Nat
  pixels : List Nat
  deriving DecidableEq, Repr

/-- The `static constexpr usize MAX_QUEUE_SIZE = 30`. -/
def MAX_QUEUE_SIZE : Nat := 30

/-- The state of a `FrameGrabber`.  `frameQueue` is the `std::queue`, front first. -/
structure FrameGrabber where
  width : Nat := 1920
  height : Nat := 1080
  flipVertical : Bool := true
  frameQueue : List GrabbedFrame := []
  running : Bool := false
  frameNumber : Nat := 0
  droppedFrames : Nat := 0
  deriving DecidableEq, Repr

/-- A `memcpy` of `src` into the buffer at byte offset `off`; the buffer keeps its
length (the copy is inside the buffer in every defined execution). -/
def writeAt (data : List Nat) (off : Nat) (src : List Nat) : List Nat :=
  (data.take off ++ src ++ data.drop (off + src.length)).take data.length

/-- One iteration of the loop of `flipImage`: rows `y` and `height - 1 - y` are
exchanged through `temp`.  The offsets are `u32` products. -/
def flipStep (width height : Nat) (data : List Nat) (y : Nat) : List Nat :=
  let rowSize := (width * 4) % 2 ^ 32
  let top := (y * rowSize) % 2 ^ 32
  let bottom := ((height - 1 - y) * rowSize) % 2 ^ 32
  let temp := (data.drop top).take rowSize
  let data1 := writeAt data top ((data.drop bottom).take rowSize)
  writeAt data1 bottom temp

/-- The `FrameGrabber::flipImage`: `for (u32 y = 0; y < height / 2; ++y)`. -/
def flipImage (data : List Nat) (width height : Nat) : List Nat :=
  (List.range (height / 2)).foldl (flipStep width height) data

/-- The `RenderTarget::readPixels` into a buffer: the pixel bytes overwrite the
buffer from its start. -/
def RenderTarget.readPixels (t : RenderTarget) (buf : List Nat) : List Nat :=
  writeAt buf 0 (t.pixels.take buf.length)

/-- The frame that `grab` builds (FrameGrabber.cpp, lines 24-37) when the sequence
counter holds `frameNumber`: the buffer is resized to `width * height * 4`
(a `u32` product), filled by `readPixels` and flipped when `flipVertical` is set. -/
def captureFrame (flipVertical : Bool) (frameNumber : Nat) (target : RenderTarget)
    (timestamp : Int) : GrabbedFrame :=
  let size := (target.width * target.height * 4) % 2 ^ 32
  let raw := target.readPixels (List.replicate size 0)
  { data := if flipVertical then flipImage raw target.width target.height else raw
    width := target.width
    height := target.height
    timestamp := timestamp
    frameNumber := frameNumber }

/-- The push of `grab` under the queue lock (lines 40-49): when the queue already
holds `MAX_QUEUE_SIZE` frames the front one is popped and the `u32` drop counter
is incremented, then the new frame is pushed at the back. -/
def FrameGrabber.enqueue (g : FrameGrabber) (frame : GrabbedFrame) : FrameGrabber :=
  if g.frameQueue.length ≥ MAX_QUEUE_SIZE then
    { g with frameQueue := g.frameQueue.drop 1 ++ [frame]
             droppedFrames := (g.droppedFrames + 1) % 2 ^ 32 }
  else
    { g with frameQueue := g.frameQueue ++ [frame] }

/-- The `FrameGrabber::grab` (lines 21-52). -/
def FrameGrabber.grab (g : FrameGrabber) (target : RenderTarget) (timestamp : Int) :
    FrameGrabber :=
  if !g.running then g
  else
    let frame := captureFrame g.flipVertical g.frameNumber target timestamp
    let g1 := { g with frameNumber := (g.frameNumber + 1) % 2 ^ 32 }
    g1.enqueue frame

/-- The `FrameGrabber::setSize`. -/
def FrameGrabber.setSize (g : FrameGrabber) (width height : Nat) : FrameGrabber :=
  { g with width := width, height := height }

/-- The `FrameGrabber::resetStats`. -/
def FrameGrabber.resetStats (g : FrameGrabber) : FrameGrabber :=
  { g with droppedFrames := 0, frameNumber := 0 }

/-- The `FrameGrabber::start`. -/
def FrameGrabber.start (g : FrameGrabber) : FrameGrabber :=
  { g with running := true }.resetStats

/-- The `FrameGrabber::stop`. -/
def FrameGrabber.stop (g : FrameGrabber) : FrameGrabber :=
  { g with running := false }

/-- Consecutive grabs with no dequeue in between, one per element of `inputs`. -/
def FrameGrabber.grabAll (g : FrameGrabber) : List (RenderTarget × Int) → FrameGrabber
  | [] => g
  | (target, timestamp) :: rest => (g.grab target timestamp).grabAll rest

/-- The frames that consecutive grabs build, in grab order, when the sequence
counter starts at `frameNumber`. -/
def framesFrom (flipVertical : Bool) (frameNumber : Nat) :
    List (RenderTarget × Int) → List GrabbedFrame
  | [] => []
  | (target, timestamp) :: rest =>
    captureFrame flipVertical frameNumber target timestamp ::
      framesFrom flipVertical ((frameNumber + 1) % 2 ^ 32) rest

/-! ## VideoRecorder.hpp: state of the recorder -/

/-- The `enum class RecordingState`. -/
inductive RecordingState where
  | Stopped | Starting | Recording | Stopping | Error
  deriving DecidableEq, Repr

/-- The `struct RecordingStats`; a default value is `RecordingStats{}`.  The
frame rates are kept as exact rationals. -/
structure RecordingStats where
  elapsed : Int := 0
  framesWritten : Nat := 0
  framesDropped : Nat := 0
  bytesWritten : Nat := 0
  avgFps : Rat := 0
  encodingFps : Rat := 0
  currentFile : String := ""
  deriving DecidableEq, Repr

/-- The part of an `AVFormatContext` that the recorder reads: the two flags of
`oformat->flags` it tests and whether `pb` is set. -/
structure FormatCtx where
  noFile : Bool := false
  globalHeader : Bool := false
  pbOpen : Bool := false
  deriving DecidableEq, Repr

/-- The part of an `AVCodecContext` that the recorder configures or reads. -/
structure CodecCtx where
  width : Nat := 0
  height : Nat := 0
  timeBaseDen : Nat := 0
  gopSize : Nat := 0
  maxBFrames : Nat := 0
  sampleRate : Nat := 0
  bitRate : Nat := 0
  channels : Nat := 0
  frameSize : Int := 0
  globalHeader : Bool := false
  deriving DecidableEq, Repr

/-- An `AVStream`: its time base is `1 / timeBaseDen`. -/
structure AVStream where
  timeBaseDen : Nat := 0
  deriving DecidableEq, Repr

/-- An `AVFrame` as the recorder uses it: the presentation timestamp it stamps,
the dimensions or sample count it sets, and whether a buffer was obtained. -/
structure AVFrame where
  pts : Int := 0
  width : Nat := 0
  height : Nat := 0
  nbSamples : Int := 0
  hasBuffer : Bool := false
  deriving DecidableEq, Repr

/-- A call that leaves the recorder: into the encoder library, the file system or
the thread library, or a halt signal raised for the encode thread (the store
`shouldStop_ = true` and the `notify_all` of `frameGrabber_.stop()`).  The flag
`video` tells the video codec from the audio one. -/
inductive Effect where
  | ensureDir (outputPath : String)
  | allocOutputContext (outputPath : String)
  | findEncoder (name : String)
  | newStream (video : Bool)
  | allocCodecContext (video : Bool)
  | openCodec (video : Bool)
  | parametersFromContext (video : Bool)
  | frameAlloc (video : Bool)
  | frameGetBuffer (video : Bool)
  | swsGetContext
  | swrAlloc
  | swrInit
  | avioOpen (outputPath : String)
  | writeHeader
  | packetAlloc
  | threadStart
  | haltSignal
  | grabberStop
  | threadJoin
  | swsScale
  | swrConvert (samples : List Nat)
  | sendFrame (video : Bool) (endOfStream : Bool)
  | receivePacket (video : Bool)
  | writeFrame (video : Bool)
  | writeTrailer
  | packetFree
  | frameFree (video : Bool)
  | swsFree
  | swrFree
  | codecFree (video : Bool)
  | avioClose
  | formatFree
  deriving DecidableEq, Repr

/-- The state of a `VideoRecorder`: the data members of the class, followed by two
observation traces, the values passed to `stateChanged` (oldest first) and the
external calls made (oldest first).  The default value is the state after the
constructor. -/
structure VideoRecorder where
  state : RecordingState := RecordingState.Stopped
  settings : EncoderSettings := {}
  stats : RecordingStats := {}
  threadJoinable : Bool := false
  shouldStop : Bool := false
  frameGrabber : FrameGrabber := {}
  audioBuffer : List Nat := []
  audioSampleRate : Nat := 48000
  audioChannels : Nat := 2
  formatCtx : Option FormatCtx := none
  videoCodecCtx : Option CodecCtx := none
  audioCodecCtx : Option CodecCtx := none
  videoStream : Option AVStream := none
  audioStream : Option AVStream := none
  swsCtx : Option Unit := none
  swrCtx : Option Unit := none
  videoFrame : Option AVFrame := none
  audioFrame : Option AVFrame := none
  packet : Option Unit := none
  videoFrameCount : Int := 0
  audioFrameCount : Int := 0
  startTime : Int := 0
  emitted : List RecordingState := []
  log : List Effect := []
  deriving DecidableEq, Repr

/-- The `isRecording()` of the header. -/
def VideoRecorder.isRecording (r : VideoRecorder) : Bool :=
  r.state == RecordingState.Recording

/-- The pair `state_ = st; stateChanged.emitSignal(state_);`. -/
def VideoRecorder.setState (r : VideoRecorder) (st : RecordingState) : VideoRecorder :=
  { r with state := st, emitted := r.emitted ++ [st] }

/-- Record one external call. -/
def VideoRecorder.call (r : VideoRecorder) (e : Effect) : VideoRecorder :=
  { r with log := r.log ++ [e] }

/-! ## Outcomes of the external calls -/

/-- The library constant `AVERROR(EAGAIN)`. -/
def AVERROR_EAGAIN : Int := -11

/-- The library constant `AVERROR_EOF`. -/
def AVERROR_EOF : Int := -541478725

/-- The outcome of every fallible call made by `initFFmpeg`, `initVideoStream` and
`initAudioStream`, in the order of the calls; `strerror` is `av_strerror` and
`now` is the reading of the steady clock taken by `start`. -/
structure InitOutcomes where
  allocOutputRet : Int := 0
  allocOutputCtx : Option FormatCtx := some {}
  videoCodecFound : Bool := true
  videoStreamCreated : Bool := true
  videoCtxAllocated : Bool := true
  videoOpenRet : Int := 0
  videoParamsRet : Int := 0
  videoFrameAllocated : Bool := true
  videoFrameBufferRet : Int := 0
  swsCreated : Bool := true
  audioCodecFound : Bool := true
  audioStreamCreated : Bool := true
  audioCtxAllocated : Bool := true
  audioOpenRet : Int := 0
  audioFrameSize : Int := 1024
  audioParamsRet : Int := 0
  audioFrameAllocated : Bool := true
  audioFrameBufferRet : Int := 0
  swrAllocRet : Int := 0
  swrAllocated : Bool := true
  swrInitRet : Int := 0
  avioOpenRet : Int := 0
  writeHeaderRet : Int := 0
  packetAllocated : Bool := true
  strerror : Int → String := fun _ => ""
  now : Int := 0

/-- One answer of `avcodec_receive_packet` together with what follows it: the
return value, the size of the packet received, the return value of
`av_interleaved_write_frame` for that packet, and the value of `packet->size`
once that call has returned.  The library takes ownership of the packet it
writes and hands it back blank, so that last value is 0 unless the library
departs from its documentation. -/
structure PacketOutcome where
  recvRet : Int := 0
  size : Int := 0
  writeRet : Int := 0
  sizeAfterWrite : Int := 0
  deriving DecidableEq, Repr

/-- The outcome of one send-and-drain round on a codec: the return value of
`avcodec_send_frame` and the successive answers of `avcodec_receive_packet`.
When the list is used up the codec answers `AVERROR(EAGAIN)` to a drain in normal
operation and `AVERROR_EOF` to a drain after the end-of-stream frame. -/
structure EncodeOutcomes where
  sendRet : Int := 0
  packets : List PacketOutcome := []
  deriving DecidableEq, Repr

/-- The outcomes of the two drains of `flushEncoders` and the return value of
`av_write_trailer`. -/
structure FlushOutcomes where
  video : EncodeOutcomes := {}
  audio : EncodeOutcomes := {}
  trailerRet : Int := 0
  deriving DecidableEq, Repr

/-! ## VideoRecorder.cpp: set-up and tear-down of the encoder library -/

/-- The result of a fallible member function together with the recorder after it. -/
abbrev Outcome := Except String Unit × VideoRecorder

/-- Sequencing with early return: the rest `f` runs only when `x` succeeded,
otherwise the error of `x` is returned with the recorder as `x` left it. -/
def andThen (x : Outcome) (f : VideoRecorder → Outcome) : Outcome :=
  match x.1 with
  | Except.error e => (Except.error e, x.2)
  | Except.ok _ => f x.2

/-- One external call `e` followed by its check: `upd` stores what the call
returned, and when the call `failed` the function returns the error `msg`. -/
def VideoRecorder.libCall (r : VideoRecorder) (e : Effect) (upd : VideoRecorder → VideoRecorder)
    (failed : Bool) (msg : String) : Outcome :=
  (if failed then Except.error msg else Except.ok (), upd (r.call e))

/-- The test `formatCtx_->oformat->flags & AVFMT_GLOBALHEADER`; it is only made
while `formatCtx_` is set. -/
def VideoRecorder.globalHeaderFlag (r : VideoRecorder) : Bool :=
  match r.formatCtx with
  | some f => f.globalHeader
  | none => false

/-- The video codec context as `initVideoStream` configures it (lines 317-328). -/
def VideoRecorder.videoCtxConfig (r : VideoRecorder) : CodecCtx :=
  { width := r.settings.video.width
    height := r.settings.video.height
    timeBaseDen := r.settings.video.fps
    gopSize :=
      if r.settings.video.gopSize > 0 then r.settings.video.gopSize
      else (r.settings.video.fps * 2) % 2 ^ 32
    maxBFrames := r.settings.video.bFrames
    globalHeader := r.globalHeaderFlag }

/-- The audio codec context as `initAudioStream` configures it (lines 411-423). -/
def VideoRecorder.audioCtxConfig (r : VideoRecorder) : CodecCtx :=
  { sampleRate := r.settings.audio.sampleRate
    bitRate := (r.settings.audio.bitrate * 1000) % 2 ^ 32
    channels := r.settings.audio.channels
    timeBaseDen := r.settings.audio.sampleRate
    globalHeader := r.globalHeaderFlag }

/-- The `VideoRecorder::initVideoStream` (lines 297-388): find the encoder, create
the stream, allocate, configure and open the codec context, copy its parameters
to the stream, allocate the frame and its buffer, create the scaler.  Each step
returns its error at once when it fails. -/
def VideoRecorder.initVideoStream (r : VideoRecorder) (o : InitOutcomes) : Outcome :=
  andThen (r.libCall (Effect.findEncoder r.settings.video.codecName) id
    (!o.videoCodecFound) ("Video codec not found: " ++ r.settings.video.codecName)) fun r =>
  andThen (r.libCall (Effect.newStream true)
    (fun r => { r with videoStream := if o.videoStreamCreated then some {} else none })
    (!o.videoStreamCreated) "Failed to create video stream") fun r =>
  andThen (r.libCall (Effect.allocCodecContext true)
    (fun r => { r with videoCodecCtx := if o.videoCtxAllocated then some r.videoCtxConfig else none })
    (!o.videoCtxAllocated) "Failed to allocate video codec context") fun r =>
  andThen (r.libCall (Effect.openCodec true) id
    (decide (o.videoOpenRet < 0)) ("Failed to open video codec: " ++ o.strerror o.videoOpenRet)) fun r =>
  andThen (r.libCall (Effect.parametersFromContext true)
    (fun r => if o.videoParamsRet < 0 then r
      else { r with videoStream := some { timeBaseDen := r.videoCtxConfig.timeBaseDen } })
    (decide (o.videoParamsRet < 0)) "Failed to copy video codec params") fun r =>
  andThen (r.libCall (Effect.frameAlloc true)
    (fun r =>
      { r with
        videoFrame :=
          if o.videoFrameAllocated then
            some { width := r.videoCtxConfig.width, height := r.videoCtxConfig.height }
          else none })
    (!o.videoFrameAllocated) "Failed to allocate video frame") fun r =>
  andThen (r.libCall (Effect.frameGetBuffer true)
    (fun r =>
      { r with
        videoFrame :=
          r.videoFrame.map fun f => { f with hasBuffer := decide (0 ≤ o.videoFrameBufferRet) } })
    (decide (o.videoFrameBufferRet < 0)) "Failed to allocate video frame buffer") fun r =>
  r.libCall Effect.swsGetContext
    (fun r => { r with swsCtx := if o.swsCreated then some () else none })
    (!o.swsCreated) "Failed to create swscale context"

/-- The `VideoRecorder::initAudioStream` (lines 390-477).  A missing audio codec is
not a failure: the audio stream is skipped.  The frame buffer is requested only
when the codec reports a positive frame size. -/
def VideoRecorder.initAudioStream (r : VideoRecorder) (o : InitOutcomes) : Outcome :=
  if !o.audioCodecFound then
    (Except.ok (), r.call (Effect.findEncoder r.settings.audio.codecName))
  else
  andThen (r.libCall (Effect.findEncoder r.settings.audio.codecName) id false "") fun r =>
  andThen (r.libCall (Effect.newStream false)
    (fun r => { r with audioStream := if o.audioStreamCreated then some {} else none })
    (!o.audioStreamCreated) "Failed to create audio stream") fun r =>
  andThen (r.libCall (Effect.allocCodecContext false)
    (fun r => { r with audioCodecCtx := if o.audioCtxAllocated then some r.audioCtxConfig else none })
    (!o.audioCtxAllocated) "Failed to allocate audio codec context") fun r =>
  andThen (r.libCall (Effect.openCodec false)
    (fun r => if o.audioOpenRet < 0 then r
      else { r with audioCodecCtx := some { r.audioCtxConfig with frameSize := o.audioFrameSize } })
    (decide (o.audioOpenRet < 0)) ("Failed to open audio codec: " ++ o.strerror o.audioOpenRet)) fun r =>
  andThen (r.libCall (Effect.parametersFromContext false)
    (fun r => if o.audioParamsRet < 0 then r
      else { r with audioStream := some { timeBaseDen := r.audioCtxConfig.timeBaseDen } })
    (decide (o.audioParamsRet < 0)) "Failed to copy audio codec params") fun r =>
  andThen (r.libCall (Effect.frameAlloc false)
    (fun r =>
      { r with
        audioFrame :=
          if o.audioFrameAllocated then some { nbSamples := o.audioFrameSize } else none })
    (!o.audioFrameAllocated) "Failed to allocate audio frame") fun r =>
  andThen (if o.audioFrameSize > 0 then
      r.libCall (Effect.frameGetBuffer false)
        (fun r =>
          { r with
            audioFrame :=
              r.audioFrame.map fun f =>
                { f with hasBuffer := decide (0 ≤ o.audioFrameBufferRet) } })
        (decide (o.audioFrameBufferRet < 0)) "Failed to allocate audio frame buffer"
    else (Except.ok (), r)) fun r =>
  andThen (r.libCall Effect.swrAlloc
    (fun r => { r with swrCtx := if o.swrAllocated then some () else none })
    (decide (o.swrAllocRet < 0) || !o.swrAllocated) "Failed to create swresample context") fun r =>
  r.libCall Effect.swrInit id
    (decide (o.swrInitRet < 0)) ("Failed to init swresample: " ++ o.strerror o.swrInitRet)

/-- The opening of the output file in `initFFmpeg` (lines 271-276), skipped when the
format needs no file. -/
def VideoRecorder.openOutput (r : VideoRecorder) (o : InitOutcomes) : Outcome :=
  match r.formatCtx with
  | some fmt =>
    if fmt.noFile then (Except.ok (), r)
    else
      r.libCall (Effect.avioOpen r.settings.outputPath)
        (fun r => { r with formatCtx := some { fmt with pbOpen := decide (0 ≤ o.avioOpenRet) } })
        (decide (o.avioOpenRet < 0)) ("Failed to open output file: " ++ o.strerror o.avioOpenRet)
  | none => (Except.ok (), r)

/-- The part of `initFFmpeg` after the output context exists (lines 260-294):
video stream, audio stream, output file, header, packet. -/
def VideoRecorder.initStreams (r : VideoRecorder) (o : InitOutcomes) : Outcome :=
  andThen (r.initVideoStream o) fun r =>
  andThen (r.initAudioStream o) fun r =>
  andThen (r.openOutput o) fun r =>
  andThen (r.libCall Effect.writeHeader id
    (decide (o.writeHeaderRet < 0)) ("Failed to write header: " ++ o.strerror o.writeHeaderRet)) fun r =>
  r.libCall Effect.packetAlloc
    (fun r => { r with packet := if o.packetAllocated then some () else none })
    (!o.packetAllocated) "Failed to allocate packet"

/-- The `VideoRecorder::initFFmpeg` (lines 250-295): the output context is created
(a negative return value or a null context is a failure), then the streams and
the output are set up. -/
def VideoRecorder.initFFmpeg (r : VideoRecorder) (o : InitOutcomes) : Outcome :=
  andThen (r.libCall (Effect.allocOutputContext r.settings.outputPath)
    (fun r => { r with formatCtx := o.allocOutputCtx })
    (decide (o.allocOutputRet < 0) || o.allocOutputCtx.isNone)
    ("Failed to create output context: " ++ o.strerror o.allocOutputRet)) fun r =>
  r.initStreams o

/-- The calls that `cleanupFFmpeg` makes, in its order (lines 482-523): a handle is
freed only when it is set, and the output is closed only when it was opened and
the format uses a file. -/
def VideoRecorder.cleanupCalls (r : VideoRecorder) : List Effect :=
  (if r.packet.isSome then [Effect.packetFree] else []) ++
  (if r.videoFrame.isSome then [Effect.frameFree true] else []) ++
  (if r.audioFrame.isSome then [Effect.frameFree false] else []) ++
  (if r.swsCtx.isSome then [Effect.swsFree] else []) ++
  (if r.swrCtx.isSome then [Effect.swrFree] else []) ++
  (if r.videoCodecCtx.isSome then [Effect.codecFree true] else []) ++
  (if r.audioCodecCtx.isSome then [Effect.codecFree false] else []) ++
  (match r.formatCtx with
    | some fmt => (if fmt.pbOpen && !fmt.noFile then [Effect.avioClose] else []) ++ [Effect.formatFree]
    | none => [])

/-- The `VideoRecorder::cleanupFFmpeg` (lines 479-529): every handle that is set
is freed and nulled, the two stream pointers are nulled and the two timestamp
counters are reset. -/
def VideoRecorder.cleanupFFmpeg (r : VideoRecorder) : VideoRecorder :=
  { r with
    log := r.log ++ r.cleanupCalls
    packet := none
    videoFrame := none
    audioFrame := none
    swsCtx := none
    swrCtx := none
    videoCodecCtx := none
    audioCodecCtx := none
    formatCtx := none
    videoStream := none
    audioStream := none
    videoFrameCount := 0
    audioFrameCount := 0 }

/-! ## VideoRecorder.cpp: encoding and flushing -/

/-- The `VideoRecorder::writePacket` (lines 581-597) for the packet just received:
the interleaved write is attempted, and when it succeeds the `u64` byte counter
grows by the `int` that `packet->size` holds after the write (line 595 reads it
once `av_interleaved_write_frame` has returned). -/
def VideoRecorder.writePacket (r : VideoRecorder) (video : Bool) (p : PacketOutcome) :
    Bool × VideoRecorder :=
  let r := r.call (Effect.writeFrame video)
  if p.writeRet < 0 then (false, r)
  else
    (true, { r with stats := { r.stats with
      bytesWritten := (((r.stats.bytesWritten : Int) + p.sizeAfterWrite) % 2 ^ 64).toNat } })

/-- The drain loop of `encodeVideoFrame` / `encodeAudioFrame` (lines 538-551 and
563-576): packets are received until the codec answers `AVERROR(EAGAIN)` or
`AVERROR_EOF`; an error of the codec or of the write ends the loop with `false`. -/
def VideoRecorder.drainPackets (r : VideoRecorder) (video : Bool) :
    List PacketOutcome → Bool × VideoRecorder
  | [] => (true, r.call (Effect.receivePacket video))
  | p :: rest =>
    let r := r.call (Effect.receivePacket video)
    if p.recvRet = AVERROR_EAGAIN ∨ p.recvRet = AVERROR_EOF then (true, r)
    else if p.recvRet < 0 then (false, r)
    else
      match r.writePacket video p with
      | (false, r) => (false, r)
      | (true, r) => r.drainPackets video rest

/-- The `VideoRecorder::encodeVideoFrame` (lines 531-554). -/
def VideoRecorder.encodeVideoFrame (r : VideoRecorder) (o : EncodeOutcomes) :
    Bool × VideoRecorder :=
  let r := r.call (Effect.sendFrame true false)
  if o.sendRet < 0 then (false, r) else r.drainPackets true o.packets

/-- The `VideoRecorder::encodeAudioFrame` (lines 556-579). -/
def VideoRecorder.encodeAudioFrame (r : VideoRecorder) (o : EncodeOutcomes) :
    Bool × VideoRecorder :=
  let r := r.call (Effect.sendFrame false false)
  if o.sendRet < 0 then (false, r) else r.drainPackets false o.packets

/-- The drain loop of `flushEncoders`: `while ((ret = avcodec_receive_packet(..)) >= 0)`
writes every packet received and ignores the result of the write. -/
def VideoRecorder.flushDrain (r : VideoRecorder) (video : Bool) :
    List PacketOutcome → VideoRecorder
  | [] => r.call (Effect.receivePacket video)
  | p :: rest =>
    let r := r.call (Effect.receivePacket video)
    if 0 ≤ p.recvRet then (r.writePacket video p).2.flushDrain video rest else r

/-- Whether the context of the video codec (`video = true`) or of the audio codec
is set. -/
def VideoRecorder.hasCodec (r : VideoRecorder) (video : Bool) : Bool :=
  if video then r.videoCodecCtx.isSome else r.audioCodecCtx.isSome

/-- One of the two blocks of `flushEncoders`: when the codec context is set, the
end-of-stream frame is sent and the codec is drained. -/
def VideoRecorder.flushCodec (r : VideoRecorder) (video : Bool) (ps : List PacketOutcome) :
    VideoRecorder :=
  if r.hasCodec video then (r.call (Effect.sendFrame video true)).flushDrain video ps else r

/-- The `VideoRecorder::flushEncoders` (lines 599-619): the video codec first, then
the audio codec. -/
def VideoRecorder.flushEncoders (r : VideoRecorder) (o : FlushOutcomes) : VideoRecorder :=
  (r.flushCodec true o.video.packets).flushCodec false o.audio.packets

/-- Lines 199-207 of `processVideoFrame`: the pixels are converted into the
reusable frame, which is stamped with the running frame count; the count is then
incremented. -/
def VideoRecorder.stampVideoFrame (r : VideoRecorder) (vf : AVFrame) : VideoRecorder :=
  { r.call Effect.swsScale with
    videoFrame := some { vf with pts := r.videoFrameCount }
    videoFrameCount := r.videoFrameCount + 1 }

/-- Line 211 of `processVideoFrame`: `++stats_.framesWritten` on a `u64`. -/
def VideoRecorder.countFrame (r : VideoRecorder) : VideoRecorder :=
  { r with stats := { r.stats with framesWritten := (r.stats.framesWritten + 1) % 2 ^ 64 } }

/-- The `VideoRecorder::processVideoFrame` (lines 194-213): nothing is done unless
the video codec context and the reusable frame are set; otherwise the frame is
converted, stamped and encoded, and a successful encode increments
`framesWritten`. -/
def VideoRecorder.processVideoFrame (r : VideoRecorder) (_frame : GrabbedFrame)
    (o : EncodeOutcomes) : VideoRecorder :=
  match r.videoCodecCtx, r.videoFrame with
  | some _, some vf =>
    if ((r.stampVideoFrame vf).encodeVideoFrame o).1 then
      ((r.stampVideoFrame vf).encodeVideoFrame o).2.countFrame
    else ((r.stampVideoFrame vf).encodeVideoFrame o).2
  | _, _ => r

/-! ## VideoRecorder.cpp: the public operations -/

/-- The `VideoRecorder::submitVideoFrame` (lines 131-144): `data` is the buffer of
the caller, of which `width * height * 4` bytes (a `u32` product) are copied. -/
def VideoRecorder.submitVideoFrame (r : VideoRecorder) (data : List Nat) (width height : Nat)
    (timestamp : Int) (o : EncodeOutcomes) : VideoRecorder :=
  if r.state ≠ RecordingState.Recording then r
  else
    let frame : GrabbedFrame :=
      { width := width, height := height, timestamp := timestamp
        data := data.take ((width * height * 4) % 2 ^ 32) }
    r.processVideoFrame frame o

/-- The `VideoRecorder::submitAudioSamples` (lines 146-156): `samples * channels`
floats (a `u32` product) of the buffer of the caller are appended. -/
def VideoRecorder.submitAudioSamples (r : VideoRecorder) (data : List Nat)
    (samples channels sampleRate : Nat) : VideoRecorder :=
  if r.state ≠ RecordingState.Recording then r
  else if r.audioStream.isNone then r
  else
    { r with audioSampleRate := sampleRate
             audioChannels := channels
             audioBuffer := r.audioBuffer ++ data.take ((samples * channels) % 2 ^ 32) }

/-- Lines 49-56 of `start`: the settings are stored, the output directory is
ensured, and the state becomes `Starting`. -/
def VideoRecorder.beginStart (r : VideoRecorder) (settings : EncoderSettings) : VideoRecorder :=
  (({ r with settings := settings }).call (Effect.ensureDir settings.outputPath)).setState
    RecordingState.Starting

/-- Lines 65-80 of `start`, after a successful `initFFmpeg`: the statistics are
reset, the frame grabber and the encode thread are started, and the state becomes
`Recording`. -/
def VideoRecorder.finishStart (r : VideoRecorder) (now : Int) : VideoRecorder :=
  let r := { r with stats := { currentFile := r.settings.outputPath } }
  let r := { r with
    shouldStop := false
    frameGrabber := (r.frameGrabber.setSize r.settings.video.width r.settings.video.height).start }
  let r := { r with startTime := now }
  let r := { r.call Effect.threadStart with threadJoinable := true }
  r.setState RecordingState.Recording

/-- The `VideoRecorder::start(const EncoderSettings&)` (lines 39-84). -/
def VideoRecorder.start (r : VideoRecorder) (settings : EncoderSettings) (o : InitOutcomes) :
    Outcome :=
  if r.state ≠ RecordingState.Stopped then
    (Except.error "Recording already in progress", r)
  else
    match settings.validate with
    | Except.error e => (Except.error e, r)
    | Except.ok _ =>
      match ((r.beginStart settings).initFFmpeg o).1 with
      | Except.error e =>
        (Except.error e,
          ((r.beginStart settings).initFFmpeg o).2.cleanupFFmpeg.setState RecordingState.Error)
      | Except.ok _ => (Except.ok (), ((r.beginStart settings).initFFmpeg o).2.finishStart o.now)

/-- Lines 100-107 of `stop`: the halt signal for the encode thread, the stop of the
frame grabber, and the join of the thread when it is joinable.  What the encode
thread still does before it exits belongs to the thread, not to `stop`. -/
def VideoRecorder.haltAndJoin (r : VideoRecorder) : VideoRecorder :=
  let r := { r with shouldStop := true }.call Effect.haltSignal
  let r := { r with frameGrabber := r.frameGrabber.stop }.call Effect.grabberStop
  if r.threadJoinable then { r.call Effect.threadJoin with threadJoinable := false } else r

/-- Lines 114-117 of `stop`: the trailer is written when the format context is set;
the return value `_ret` of `av_write_trailer` is discarded. -/
def VideoRecorder.writeTrailer (r : VideoRecorder) (_ret : Int) : VideoRecorder :=
  if r.formatCtx.isSome then r.call Effect.writeTrailer else r

/-- The `VideoRecorder::stop` (lines 92-129). -/
def VideoRecorder.stop (r : VideoRecorder) (o : FlushOutcomes) : Outcome :=
  if r.state ≠ RecordingState.Recording then (Except.ok (), r)
  else
    (Except.ok (),
      (((((r.setState RecordingState.Stopping).haltAndJoin).flushEncoders o).writeTrailer
        o.trailerRet).cleanupFFmpeg).setState RecordingState.Stopped)

/-- Whether the output context is obtained and the output file, when the format
needs one, is opened. -/
def InitOutcomes.outputOk (o : InitOutcomes) : Bool :=
  match o.allocOutputCtx with
  | some fmt => decide (0 ≤ o.allocOutputRet) && (fmt.noFile || decide (0 ≤ o.avioOpenRet))
  | none => false

/-- Whether every step of `initVideoStream` succeeds. -/
def InitOutcomes.videoOk (o : InitOutcomes) : Bool :=
  o.videoCodecFound && o.videoStreamCreated && o.videoCtxAllocated &&
    decide (0 ≤ o.videoOpenRet) && decide (0 ≤ o.videoParamsRet) && o.videoFrameAllocated &&
    decide (0 ≤ o.videoFrameBufferRet) && o.swsCreated

/-- Whether `initAudioStream` succeeds: the codec is missing, or every step succeeds. -/
def InitOutcomes.audioOk (o : InitOutcomes) : Bool :=
  !o.audioCodecFound ||
    (o.audioStreamCreated && o.audioCtxAllocated && decide (0 ≤ o.audioOpenRet) &&
      decide (0 ≤ o.audioParamsRet) && o.audioFrameAllocated &&
      (decide (o.audioFrameSize ≤ 0) || decide (0 ≤ o.audioFrameBufferRet)) &&
      decide (0 ≤ o.swrAllocRet) && o.swrAllocated && decide (0 ≤ o.swrInitRet))

/-- Every step of the initialisation succeeds. -/
def InitOutcomes.succeeds (o : InitOutcomes) : Bool :=
  o.outputOk && o.videoOk && o.audioOk && decide (0 ≤ o.writeHeaderRet) && o.packetAllocated

/-- One call of the public interface, with the outcomes of its external calls. -/
inductive Op where
  | start (settings : EncoderSettings) (o : InitOutcomes)
  | stop (o : FlushOutcomes)
  | submitVideoFrame (data : List Nat) (width height : Nat) (timestamp : Int) (o : EncodeOutcomes)
  | submitAudioSamples (data : List Nat) (samples channels sampleRate : Nat)

/-- The recorder after one call. -/
def VideoRecorder.step (r : VideoRecorder) : Op → VideoRecorder
  | Op.start settings o => (r.start settings o).2
  | Op.stop o => (r.stop o).2
  | Op.submitVideoFrame data width height timestamp o =>
    r.submitVideoFrame data width height timestamp o
  | Op.submitAudioSamples data samples channels sampleRate =>
    r.submitAudioSamples data samples channels sampleRate

/-- The recorder after a sequence of calls. -/
def VideoRecorder.run (r : VideoRecorder) (ops : List Op) : VideoRecorder :=
  ops.foldl VideoRecorder.step r

/-- The changes of state the data model allows. -/
def allowedTransition : RecordingState → RecordingState → Prop
  | RecordingState.Stopped, RecordingState.Starting => True
  | RecordingState.Starting, RecordingState.Recording => True
  | RecordingState.Starting, RecordingState.Error => True
  | RecordingState.Recording, RecordingState.Error => True
  | RecordingState.Recording, RecordingState.Stopping => True
  | RecordingState.Stopping, RecordingState.Stopped => True
  | _, _ => False

/-- Whether a call belongs to the flush of one codec: the end-of-stream frame, a
drain of a packet, or the write of a drained packet. -/
def Effect.isFlush (video : Bool) : Effect → Bool
  | Effect.sendFrame v eos => v == video && eos
  | Effect.receivePacket v => v == video
  | Effect.writeFrame v => v == video
  | _ => false

/-- Whether a call releases an encoder or muxer handle or closes the output. -/
def Effect.isRelease : Effect → Bool
  | Effect.packetFree => true
  | Effect.frameFree _ => true
  | Effect.swsFree => true
  | Effect.swrFree => true
  | Effect.codecFree _ => true
  | Effect.avioClose => true
  | Effect.formatFree => true
  | _ => false

/-- Every encoder and muxer handle is null and both timestamp counters are 0. -/
def VideoRecorder.released (r : VideoRecorder) : Prop :=
  r.formatCtx = none ∧ r.videoCodecCtx = none ∧ r.audioCodecCtx = none ∧
    r.videoFrame = none ∧ r.audioFrame = none ∧ r.packet = none ∧
    r.swsCtx = none ∧ r.swrCtx = none ∧ r.videoStream = none ∧ r.audioStream = none ∧
    r.videoFrameCount = 0 ∧ r.audioFrameCount = 0

/-- The recorder `r2` has the state, the emitted events, the settings and the
statistics of `r1`. -/
def VideoRecorder.sameCore (r1 r2 : VideoRecorder) : Prop :=
  r2.state = r1.state ∧ r2.emitted = r1.emitted ∧ r2.settings = r1.settings ∧ r2.stats = r1.stats

/-! ## FrameGrabber.cpp: the consumer side of the frame pool -/

/-- The `FrameGrabber::getNextFrame` (lines 83-98), taken at the moment its wait
ends.  `wait_for` returns the value of its predicate, "the queue is not empty or
the grabber is not running"; it is false exactly when the timeout has elapsed on
an empty queue of a running grabber, and the function then returns `false`.
Otherwise it returns `false` on an empty queue, and else moves the front frame
out and returns `true`.  The result `some f` is the return value `true` with `f`
stored in the out-parameter, `none` is the return value `false`. -/
def FrameGrabber.getNextFrame (g : FrameGrabber) : Option GrabbedFrame × FrameGrabber :=
  if !(!g.frameQueue.isEmpty || !g.running) then (none, g)
  else
    match g.frameQueue with
    | [] => (none, g)
    | f :: q => (some f, { g with frameQueue := q })

/-- One call on the frame pool: a grab by the producer or a dequeue by the consumer. -/
inductive PoolOp where
  | grab (target : RenderTarget) (timestamp : Int)
  | getNextFrame
  deriving DecidableEq, Repr

/-- A sequence of calls on the frame pool.  The result lists the frames that the
grabs put into the queue, in grab order, the frames that the dequeues delivered,
in delivery order, and the grabber at the end. -/
def FrameGrabber.runPool (g : FrameGrabber) :
    List PoolOp → List GrabbedFrame × List GrabbedFrame × FrameGrabber
  | [] => ([], [], g)
  | PoolOp.grab target timestamp :: ops =>
    let rest := (g.grab target timestamp).runPool ops
    ((if g.running then [captureFrame g.flipVertical g.frameNumber target timestamp] else []) ++
      rest.1, rest.2.1, rest.2.2)
  | PoolOp.getNextFrame :: ops =>
    let rest := g.getNextFrame.2.runPool ops
    (rest.1, g.getNextFrame.1.toList ++ rest.2.1, rest.2.2)

/-! ## FrameGrabber.cpp: AsyncFrameGrabber -/

/-- The `struct PBOSlot`. -/
structure PBOSlot where
  pbo : Nat := 0
  inUse : Bool := false
  ready : Bool := false
  timestamp : Int := 0
  frameNumber : Nat := 0
  deriving DecidableEq, Repr

/-- The state of an `AsyncFrameGrabber`. -/
structure AsyncFrameGrabber where
  pboSlots : List PBOSlot := []
  currentSlot : Nat := 0
  width : Nat := 0
  height : Nat := 0
  frameNumber : Nat := 0
  initialized : Bool := false
  deriving DecidableEq, Repr

/-- The `AsyncFrameGrabber::startRead` (lines 192-220).  The result is `none` when
`pboSlots_[currentSlot_]` is outside the vector, which the source leaves undefined.
The OpenGL calls that start the transfer change no member. -/
def AsyncFrameGrabber.startRead (a : AsyncFrameGrabber) (_target : RenderTarget)
    (timestamp : Int) : Option AsyncFrameGrabber :=
  if !a.initialized then some a
  else
    match a.pboSlots[a.currentSlot]? with
    | none => none
    | some slot =>
      if slot.inUse && !slot.ready then some a
      else
        some { a with
          pboSlots := a.pboSlots.set a.currentSlot
            { slot with inUse := true, ready := false, timestamp := timestamp
                        frameNumber := a.frameNumber }
          frameNumber := (a.frameNumber + 1) % 2 ^ 32
          currentSlot := ((a.currentSlot + 1) % 2 ^ 32) % a.pboSlots.length }

/-! ## VideoRecorder.cpp: sequences of video frames -/

/-- One frame handed to `processVideoFrame`, with the outcome of its encoding. -/
structure VideoInput where
  frame : GrabbedFrame := {}
  outcome : EncodeOutcomes := {}
  deriving DecidableEq, Repr

/-- Successive calls of `processVideoFrame`, one per element of `inputs`. -/
def VideoRecorder.processAll (r : VideoRecorder) (inputs : List VideoInput) : VideoRecorder :=
  inputs.foldl (fun r i => r.processVideoFrame i.frame i.outcome) r

/-- One call of `submitVideoFrame`: its arguments and the outcome of the encoding. -/
structure VideoSubmission where
  data : List Nat := []
  width : Nat := 0
  height : Nat := 0
  timestamp : Int := 0
  outcome : EncodeOutcomes := {}
  deriving DecidableEq, Repr

/-- Successive calls of `submitVideoFrame`, one per element of `subs`. -/
def VideoRecorder.submitAll (r : VideoRecorder) (subs : List VideoSubmission) : VideoRecorder :=
  subs.foldl (fun r s => r.submitVideoFrame s.data s.width s.height s.timestamp s.outcome) r

/-- A drained packet that does not end the encode with a failure: the codec reports
that it needs more input or is at its end, or it delivers a packet whose write
succeeds. -/
def PacketOutcome.succeeds (p : PacketOutcome) : Prop :=
  p.recvRet = AVERROR_EAGAIN ∨ p.recvRet = AVERROR_EOF ∨ (0 ≤ p.recvRet ∧ 0 ≤ p.writeRet)

/-- Every step of one encode succeeds: the send, every drain and every write. -/
def EncodeOutcomes.succeeds (o : EncodeOutcomes) : Prop :=
  0 ≤ o.sendRet ∧ ∀ p ∈ o.packets, p.succeeds

/-! ## VideoRecorder.cpp: the audio drain -/

/-- A value converted to `int` (32 bits, two's complement).  The conversion of a
`u32` is modular; a signed product that leaves the range is undefined in the
source, and the model follows the two's complement result. -/
def toInt32 (x : Int) : Int := (x + 2 ^ 31) % 2 ^ 32 - 2 ^ 31

/-- The value `static_cast<usize>(frameSize * channels)` of `processAudioBuffer`,
with `int channels = audioChannels_`: the number of floats of one chunk as the
loop condition sees it. -/
def audioChunkSize (frameSize : Int) (audioChannels : Nat) : Nat :=
  ((toInt32 (frameSize * toInt32 audioChannels)) % 2 ^ 64).toNat

/-- The outcome of one iteration of the audio drain: the return value of
`swr_convert` and the outcome of the encoding that follows a successful
conversion. -/
structure AudioChunkOutcome where
  swrRet : Int := 0
  encode : EncodeOutcomes := {}
  deriving DecidableEq, Repr

/-- Lines 225-237 of `processAudioBuffer`: the first `n` floats are copied out of
the accumulator, erased from it, and handed to `swr_convert`. -/
def VideoRecorder.takeChunk (r : VideoRecorder) (n : Nat) : VideoRecorder :=
  { r.call (Effect.swrConvert (r.audioBuffer.take n)) with audioBuffer := r.audioBuffer.drop n }

/-- Lines 243-244 of `processAudioBuffer`: the reusable audio frame is stamped with
the running sample count, which then advances by the frame size. -/
def VideoRecorder.stampAudioFrame (r : VideoRecorder) (frameSize : Int) : VideoRecorder :=
  { r with
    audioFrame := r.audioFrame.map fun f => { f with pts := r.audioFrameCount }
    audioFrameCount := r.audioFrameCount + frameSize }

/-- One iteration of the loop of `processAudioBuffer` (lines 224-246): a chunk is
taken and converted; when the conversion fails the iteration ends there
(`continue`), otherwise the frame is stamped and encoded, the result of the
encoding being ignored. -/
def VideoRecorder.drainChunk (r : VideoRecorder) (frameSize : Int) (n : Nat)
    (o : AudioChunkOutcome) : VideoRecorder :=
  if o.swrRet < 0 then r.takeChunk n
  else (((r.takeChunk n).stampAudioFrame frameSize).encodeAudioFrame o.encode).2

/-- The loop `while (audioBuffer_.size() >= n)` of `processAudioBuffer`, run for at
most `fuel` iterations: `none` means that the loop has not ended within `fuel`
iterations.  The iterations take their outcomes from `outs` in turn; when `outs`
is used up, conversion and encoding succeed. -/
def VideoRecorder.drainAudio (frameSize : Int) (n : Nat) :
    Nat → List AudioChunkOutcome → VideoRecorder → Option VideoRecorder
  | 0, _, r => if r.audioBuffer.length < n then some r else none
  | fuel + 1, outs, r =>
    if r.audioBuffer.length < n then some r
    else drainAudio frameSize n fuel outs.tail (r.drainChunk frameSize n (outs.headD {}))

/-- The `VideoRecorder::processAudioBuffer` (lines 215-248): nothing is done when
the audio codec context or the audio frame is null or the accumulator is empty;
otherwise chunks of `frameSize * channels` floats are drained. -/
def VideoRecorder.processAudioBuffer (r : VideoRecorder) (fuel : Nat)
    (outs : List AudioChunkOutcome) : Option VideoRecorder :=
  match r.audioCodecCtx, r.audioFrame with
  | some ctx, some _ =>
    if r.audioBuffer.isEmpty then some r
    else r.drainAudio ctx.frameSize (audioChunkSize ctx.frameSize r.audioChannels) fuel outs
  | _, _ => some r

/-- One call on the audio path: a submission by the producer or a drain by the
encode thread, with the outcomes of its iterations. -/
inductive AudioOp where
  | submit (data : List Nat) (samples channels sampleRate : Nat)
  | drain (outs : List AudioChunkOutcome)
  deriving DecidableEq, Repr

/-- A sequence of calls on the audio path.  A drain is given as many iterations as
the accumulator holds floats: an iteration removes a whole chunk, so this is
enough for the loop to end unless the chunk size is 0, and with a chunk size of 0
the loop does not end whatever the number of iterations.  The result is `none`
when a drain does not end. -/
def VideoRecorder.runAudio (r : VideoRecorder) : List AudioOp → Option VideoRecorder
  | [] => some r
  | AudioOp.submit data samples channels sampleRate :: ops =>
    (r.submitAudioSamples data samples channels sampleRate).runAudio ops
  | AudioOp.drain outs :: ops =>
    match r.processAudioBuffer r.audioBuffer.length outs with
    | some r1 => r1.runAudio ops
    | none => none

/-- The chunks handed to `swr_convert`, oldest first, as the log records them. -/
def swrChunks : List Effect → List (List Nat)
  | [] => []
  | Effect.swrConvert samples :: rest => samples :: swrChunks rest
  | _ :: rest => swrChunks rest

/-- The number of audio frames sent to the audio encoder in normal operation, as
the log records them. -/
def audioFramesSent (log : List Effect) : Nat :=
  log.count (Effect.sendFrame false false)

/-- No conversion fails in a call on the audio path. -/
def AudioOp.noConvertFailure : AudioOp → Prop
  | AudioOp.submit _ _ _ _ => True
  | AudioOp.drain outs => ∀ o ∈ outs, 0 ≤ o.swrRet

/-- A submission that names `c` channels; a drain names none. -/
def AudioOp.usesChannels (c : Nat) : AudioOp → Prop
  | AudioOp.submit _ _ channels _ => channels = c
  | AudioOp.drain _ => True

/-- The floats that a call on the audio path appends to the accumulator of a
recorder that is recording and has an audio stream: the first `samples * channels`
(a `u32` product) floats of a submission; a drain appends none. -/
def AudioOp.appended : AudioOp → List Nat
  | AudioOp.submit data samples channels _ => data.take ((samples * channels) % 2 ^ 32)
  | AudioOp.drain _ => []

/-- The number of conversions that succeed among the first `k` iterations of a
drain that takes its outcomes from `outs` (an iteration past the end of `outs`
succeeds). -/
def convertedCount : Nat → List AudioChunkOutcome → Nat
  | 0, _ => 0
  | k + 1, outs => (if (outs.headD {}).swrRet < 0 then 0 else 1) + convertedCount k outs.tail

/-! ## EncoderSettings.cpp: the quality presets -/

/-- The `EncoderSettings::youtube1080p60` (lines 144-157). -/
def EncoderSettings.youtube1080p60 : EncoderSettings :=
  { video := { codec := VideoCodec.H264, width := 1920, height := 1080, fps := 60, crf := 18
               preset := EncoderPreset.Slow, bFrames := 2 }
    audio := { codec := AudioCodec.AAC, bitrate := 320 }
    container := Container.MP4 }

/-- The `EncoderSettings::youtube4k60` (lines 159-171). -/
def EncoderSettings.youtube4k60 : EncoderSettings :=
  { video := { codec := VideoCodec.H264, width := 3840, height := 2160, fps := 60, crf := 18
               preset := EncoderPreset.Medium }
    audio := { codec := AudioCodec.AAC, bitrate := 384 }
    container := Container.MP4 }

/-- The `EncoderSettings::twitter720p` (lines 173-185). -/
def EncoderSettings.twitter720p : EncoderSettings :=
  { video := { codec := VideoCodec.H264, width := 1280, height := 720, fps := 30, crf := 23
               preset := EncoderPreset.Fast }
    audio := { codec := AudioCodec.AAC, bitrate := 192 }
    container := Container.MP4 }

/-- The `EncoderSettings::discord8mb` (lines 187-200). -/
def EncoderSettings.discord8mb : EncoderSettings :=
  { video := { codec := VideoCodec.H264, width := 1280, height := 720, fps := 30, crf := 28
               preset := EncoderPreset.Veryfast }
    audio := { codec := AudioCodec.AAC, bitrate := 128 }
    container := Container.MP4 }

/-- The `EncoderSettings::lossless` (lines 202-212). -/
def EncoderSettings.lossless : EncoderSettings :=
  { video := { codec := VideoCodec.FFV1, width := 1920, height := 1080, fps := 60
               pixelFormat := PixelFormat.RGB24 }
    audio := { codec := AudioCodec.FLAC }
    container := Container.MKV }

/-- The `EncoderSettings::editing` (lines 214-225). -/
def EncoderSettings.editing : EncoderSettings :=
  { video := { codec := VideoCodec.ProRes, width := 1920, height := 1080, fps := 60
               pixelFormat := PixelFormat.YUV422P }
    audio := { codec := AudioCodec.PCM }
    container := Container.MOV }

/-- The `struct QualityPreset`. -/
structure QualityPreset where
  name : String
  description : String
  settings : EncoderSettings
  deriving DecidableEq, Repr

/-- The `getQualityPresets` (lines 227-236). -/
def getQualityPresets : List QualityPreset :=
  [ { name := "YouTube 1080p60", description := "High quality for YouTube uploads"
      settings := EncoderSettings.youtube1080p60 },
    { name := "YouTube 4K60", description := "Maximum quality for 4K displays"
      settings := EncoderSettings.youtube4k60 },
    { name := "Twitter/X 720p", description := "Optimized for Twitter video"
      settings := EncoderSettings.twitter720p },
    { name := "Discord 8MB", description := "Compressed for Discord free tier"
      settings := EncoderSettings.discord8mb },
    { name := "Lossless", description := "No quality loss, huge files"
      settings := EncoderSettings.lossless },
    { name := "Editing (ProRes)", description := "For video editing software"
      settings := EncoderSettings.editing } ]

/-! ## FrameGrabber.cpp: the remaining operations of the frame pool -/

/-- The `FrameGrabber::grabScreen` (lines 54-81): the frame is built and queued as
in `grab`, with the given dimensions and with the bytes `screen` that
`glReadPixels` delivers from the current framebuffer in the place of a render
target. -/
def FrameGrabber.grabScreen (g : FrameGrabber) (width height : Nat) (timestamp : Int)
    (screen : List Nat) : FrameGrabber :=
  if !g.running then g
  else
    let frame := captureFrame g.flipVertical g.frameNumber ⟨width, height, screen⟩ timestamp
    let g1 := { g with frameNumber := (g.frameNumber + 1) % 2 ^ 32 }
    g1.enqueue frame

/-- The `FrameGrabber::clear` (lines 125-130): the queue is popped until empty. -/
def FrameGrabber.clear (g : FrameGrabber) : FrameGrabber :=
  { g with frameQueue := [] }

/-- One call of the public interface of a `FrameGrabber`. -/
inductive GrabberOp where
  | start
  | stop
  | grab (target : RenderTarget) (timestamp : Int)
  | grabScreen (width height : Nat) (timestamp : Int) (screen : List Nat)
  | getNextFrame
  | clear
  | resetStats
  deriving DecidableEq, Repr

/-- The grabber after one call, with the frame delivered when the call is a
`getNextFrame` that returns true. -/
def FrameGrabber.stepOp (g : FrameGrabber) : GrabberOp → Option GrabbedFrame × FrameGrabber
  | GrabberOp.start => (none, g.start)
  | GrabberOp.stop => (none, g.stop)
  | GrabberOp.grab target timestamp => (none, g.grab target timestamp)
  | GrabberOp.grabScreen width height timestamp screen =>
    (none, g.grabScreen width height timestamp screen)
  | GrabberOp.getNextFrame => g.getNextFrame
  | GrabberOp.clear => (none, g.clear)
  | GrabberOp.resetStats => (none, g.resetStats)

/-- The calls that reset the sequence counter: `start` and `resetStats`. -/
def GrabberOp.resets : GrabberOp → Bool
  | GrabberOp.start => true
  | GrabberOp.resetStats => true
  | _ => false

/-- One call on a grabber observed together with the frames that `getNextFrame` has
delivered since the sequence counter was last reset. -/
def FrameGrabber.stepTrace (s : List GrabbedFrame × FrameGrabber) (op : GrabberOp) :
    List GrabbedFrame × FrameGrabber :=
  ((if op.resets then [] else s.1) ++ (s.2.stepOp op).1.toList, (s.2.stepOp op).2)

/-- A sequence of calls: the frames delivered since the last reset of the sequence
counter, oldest first, and the grabber at the end. -/
def FrameGrabber.runOps (g : FrameGrabber) (ops : List GrabberOp) :
    List GrabbedFrame × FrameGrabber :=
  ops.foldl FrameGrabber.stepTrace ([], g)

/-- The calls under which the numbering of the queued frames stays increasing: the
sequence counter is reset only while the queue is empty, and a capture is made
only while the `u32` counter is below its last value. -/
def GrabberOp.admissibleAt (g : FrameGrabber) : GrabberOp → Prop
  | GrabberOp.start => g.frameQueue = []
  | GrabberOp.resetStats => g.frameQueue = []
  | GrabberOp.grab _ _ => g.frameNumber + 1 < 2 ^ 32
  | GrabberOp.grabScreen _ _ _ _ => g.frameNumber + 1 < 2 ^ 32
  | _ => True

/-- Every call of a sequence is admissible in the state in which it is made. -/
def FrameGrabber.admissible : FrameGrabber → List GrabberOp → Prop
  | _, [] => True
  | g, op :: ops => op.admissibleAt g ∧ FrameGrabber.admissible (g.stepOp op).2 ops

/-- The sequence numbers of a list of frames increase strictly. -/
def increasingNumbers (frames : List GrabbedFrame) : Prop :=
  List.Pairwise (fun a b => a < b) (frames.map fun f => f.frameNumber)

/-- The frames delivered since the last reset of the sequence counter, followed by
the frames queued, are numbered increasingly and below the sequence counter. -/
def FrameGrabber.numbered (s : List GrabbedFrame × FrameGrabber) : Prop :=
  increasingNumbers (s.1 ++ s.2.frameQueue) ∧
    ∀ f ∈ s.1 ++ s.2.frameQueue, f.frameNumber < s.2.frameNumber

/-- Row `y` of an image buffer whose rows hold `rowSize` bytes. -/
def imageRow (rowSize : Nat) (data : List Nat) (y : Nat) : List Nat :=
  (data.drop (y * rowSize)).take rowSize

/-! ## FrameGrabber.cpp: the remaining operations of AsyncFrameGrabber -/

/-- The `AsyncFrameGrabber::shutdown` (lines 179-190): the buffers are deleted and
the slots cleared; the cursor and the frame counter are left as they are. -/
def AsyncFrameGrabber.shutdown (a : AsyncFrameGrabber) : AsyncFrameGrabber :=
  if !a.initialized then a else { a with pboSlots := [], initialized := false }

/-- The `std::vector::resize`: the first `n` slots are kept and default slots are
appended up to `n`. -/
def resizeSlots (slots : List PBOSlot) (n : Nat) : List PBOSlot :=
  slots.take n ++ List.replicate (n - slots.length) ({} : PBOSlot)

/-- The `AsyncFrameGrabber::init` (lines 154-177), which always returns success:
after `shutdown` the dimensions are stored, the vector is resized to `pboCount`
slots, each slot gets a buffer name (`names` are the names that `glGenBuffers`
delivers) and is marked free, and the grabber is initialised.  The cursor and
the frame counter are not assigned. -/
def AsyncFrameGrabber.init (a : AsyncFrameGrabber) (width height pboCount : Nat)
    (names : List Nat) : AsyncFrameGrabber :=
  { a.shutdown with
    width := width
    height := height
    pboSlots := List.zipWith (fun i (s : PBOSlot) =>
        { s with pbo := names.getD i 0, inUse := false, ready := false })
      (List.range pboCount) (resizeSlots a.shutdown.pboSlots pboCount)
    initialized := true }

/-- The `AsyncFrameGrabber::resize` (lines 267-275), which always returns success:
nothing is done when the dimensions are the current ones; otherwise the grabber
is shut down and initialised again with the slot count it had (a `u32`). -/
def AsyncFrameGrabber.resize (a : AsyncFrameGrabber) (width height : Nat) (names : List Nat) :
    AsyncFrameGrabber :=
  if width = a.width ∧ height = a.height then a
  else a.shutdown.init width height (a.pboSlots.length % 2 ^ 32) names

/-- Lines 233-255 of `getCompletedFrame`: the frame built from a slot whose buffer
was mapped to `bytes`.  The buffer of `width * height * 4` bytes (a `u32`
product) is copied and its rows are exchanged by the loop of `flipImage`, which
lines 247-255 repeat. -/
def completeSlot (width height : Nat) (slot : PBOSlot) (bytes : List Nat) : GrabbedFrame :=
  { width := width
    height := height
    timestamp := slot.timestamp
    frameNumber := slot.frameNumber
    data := flipImage
      (writeAt (List.replicate ((width * height * 4) % 2 ^ 32) 0) 0
        (bytes.take ((width * height * 4) % 2 ^ 32))) width height }

/-- The loop of `getCompletedFrame` (lines 226-262) over the slots in the order of
the vector: the first slot that is in use and not ready and whose buffer can be
mapped delivers its frame and is marked free and ready.  `maps` holds the results
of `glMapBuffer` for the slots polled, in turn: the bytes mapped, or `none` for a
null pointer; a poll past the end of `maps` gets a null pointer. -/
def pollSlots (width height : Nat) :
    List PBOSlot → List (Option (List Nat)) → Option GrabbedFrame × List PBOSlot
  | [], _ => (none, [])
  | slot :: rest, maps =>
    if slot.inUse && !slot.ready then
      match maps with
      | some bytes :: _ =>
        (some (completeSlot width height slot bytes),
          { slot with inUse := false, ready := true } :: rest)
      | _ =>
        ((pollSlots width height rest maps.tail).1,
          slot :: (pollSlots width height rest maps.tail).2)
    else ((pollSlots width height rest maps).1, slot :: (pollSlots width height rest maps).2)

/-- The `AsyncFrameGrabber::getCompletedFrame` (lines 222-265); `some f` is the
return value `true` with `f` stored in the out-parameter. -/
def AsyncFrameGrabber.getCompletedFrame (a : AsyncFrameGrabber)
    (maps : List (Option (List Nat))) : Option GrabbedFrame × AsyncFrameGrabber :=
  if !a.initialized then (none, a)
  else
    ((pollSlots a.width a.height a.pboSlots maps).1,
      { a with pboSlots := (pollSlots a.width a.height a.pboSlots maps).2 })

/-- One call of the public interface of an `AsyncFrameGrabber`. -/
inductive AsyncOp where
  | init (width height pboCount : Nat) (names : List Nat)
  | startRead (target : RenderTarget) (timestamp : Int)
  | getCompletedFrame (maps : List (Option (List Nat)))
  | resize (width height : Nat) (names : List Nat)
  | shutdown
  deriving DecidableEq, Repr

/-- A sequence of calls on an `AsyncFrameGrabber`: the frames delivered, oldest
first, and the grabber at the end; `none` when a `startRead` indexes outside the
vector of slots. -/
def AsyncFrameGrabber.runAsync (a : AsyncFrameGrabber) :
    List AsyncOp → Option (List GrabbedFrame × AsyncFrameGrabber)
  | [] => some ([], a)
  | AsyncOp.init width height pboCount names :: ops =>
    (a.init width height pboCount names).runAsync ops
  | AsyncOp.startRead target timestamp :: ops =>
    match a.startRead target timestamp with
    | some a1 => a1.runAsync ops
    | none => none
  | AsyncOp.getCompletedFrame maps :: ops =>
    match (a.getCompletedFrame maps).2.runAsync ops with
    | some (frames, a1) => some ((a.getCompletedFrame maps).1.toList ++ frames, a1)
    | none => none
  | AsyncOp.resize width height names :: ops => (a.resize width height names).runAsync ops
  | AsyncOp.shutdown :: ops => a.shutdown.runAsync ops

/-! ## VideoRecorder.cpp: failures of one encoding, and the drain given the null frame -/

/-- The codec answers the drain of this packet with an error other than "no packet
now" and "end of stream". -/
def PacketOutcome.recvFails (p : PacketOutcome) : Prop :=
  p.recvRet < 0 ∧ p.recvRet ≠ AVERROR_EAGAIN ∧ p.recvRet ≠ AVERROR_EOF

/-- The packet is received and its write fails. -/
def PacketOutcome.writeFails (p : PacketOutcome) : Prop :=
  0 ≤ p.recvRet ∧ p.writeRet < 0

/-- An encoding in which the send fails, or in which, after packets that are
received and written, the drain or the write of a packet fails. -/
def EncodeOutcomes.fails (o : EncodeOutcomes) : Prop :=
  o.sendRet < 0 ∨
    ∃ pre p post, o.packets = pre ++ p :: post ∧
      (∀ q ∈ pre, 0 ≤ q.recvRet ∧ 0 ≤ q.writeRet) ∧ (p.recvFails ∨ p.writeFails)

/-- The normal encode-and-drain routine, `encodeVideoFrame` (lines 531-554) or
`encodeAudioFrame` (lines 556-579), called with the null frame: the end-of-stream
frame is sent, and the drain of normal operation follows when the send
succeeds. -/
def VideoRecorder.encodeEndOfStream (r : VideoRecorder) (video : Bool) (o : EncodeOutcomes) :
    Bool × VideoRecorder :=
  let r := r.call (Effect.sendFrame video true)
  if o.sendRet < 0 then (false, r) else r.drainPackets video o.packets

/-- The number of writes of packets of one codec that a log records. -/
def packetWrites (video : Bool) (log : List Effect) : Nat :=
  log.count (Effect.writeFrame video)

/-! ## VideoRecorder.cpp: the calls made while the encode thread runs -/

/-- The two calls that bound the life of the encode thread: its start at the end of
`start` and its join in `stop`. -/
def Effect.isThreadMark : Effect → Bool
  | Effect.threadStart => true
  | Effect.threadJoin => true
  | _ => false

/-- One call read off a log of calls of the public interface.  The state is
whether the encode thread is running, together with the calls made so far while
it was running: `threadStart` starts the thread, `threadJoin` ends it, and any
other call is recorded when the thread is running. -/
def threadTraceStep (s : Bool × List Effect) (e : Effect) : Bool × List Effect :=
  match e with
  | Effect.threadStart => (true, s.2)
  | Effect.threadJoin => (false, s.2)
  | _ => (s.1, if s.1 then s.2 ++ [e] else s.2)

/-- Whether the encode thread is running after the calls of `log`, and the calls of
`log` that were made while it was running, oldest first. -/
def threadTrace (log : List Effect) : Bool × List Effect :=
  log.foldl threadTraceStep (false, [])

/-- The calls of `log` made while the encode thread was running, when it is not
running at the end of `log`. -/
def idleCalls (log : List Effect) : Option (List Effect) :=
  if (threadTrace log).1 then none else some (threadTrace log).2

/-- The calls of `processVideoFrame` on the encoder and the muxer: the conversion
into the reusable video frame, the send of a video frame, the drain of a video
packet into the shared packet and the write of that packet through the format
context. -/
def Effect.isVideoEncode : Effect → Bool
  | Effect.swsScale => true
  | Effect.sendFrame true false => true
  | Effect.receivePacket true => true
  | Effect.writeFrame true => true
  | _ => false

/-- The two calls by which `stop` asks the encode thread to end: the halt signal
and the stop of the frame grabber. -/
def Effect.isHaltRequest : Effect → Bool
  | Effect.haltSignal => true
  | Effect.grabberStop => true
  | _ => false

/-- What holds of a recorder between two calls of the public interface: the encode
thread runs exactly when it is joinable, which is exactly in state Recording, and
every call made so far while it was running is a call of `processVideoFrame` or
one of the two requests by which `stop` ends the thread. -/
def VideoRecorder.threadInv (r : VideoRecorder) : Prop :=
  (threadTrace r.log).1 = r.threadJoinable ∧
    (r.threadJoinable = true ↔ r.state = RecordingState.Recording) ∧
    ∀ e ∈ (threadTrace r.log).2, e.isVideoEncode = true ∨ e.isHaltRequest = true

@[simp] theorem call_log (r : VideoRecorder) (e : Effect) : (r.call e).log = r.log ++ [e] := rfl
@[simp] theorem call_state (r : VideoRecorder) (e : Effect) : (r.call e).state = r.state := rfl
@[simp] theorem call_emitted (r : VideoRecorder) (e : Effect) : (r.call e).emitted = r.emitted := rfl
@[simp] theorem call_settings (r : VideoRecorder) (e : Effect) : (r.call e).settings = r.settings := rfl
@[simp] theorem call_stats (r : VideoRecorder) (e : Effect) : (r.call e).stats = r.stats := rfl
@[simp] theorem call_formatCtx (r : VideoRecorder) (e : Effect) :
    (r.call e).formatCtx = r.formatCtx := rfl
@[simp] theorem call_videoCodecCtx (r : VideoRecorder) (e : Effect) :
    (r.call e).videoCodecCtx = r.videoCodecCtx := rfl
@[simp] theorem call_audioCodecCtx (r : VideoRecorder) (e : Effect) :
    (r.call e).audioCodecCtx = r.audioCodecCtx := rfl
@[simp] theorem call_threadJoinable (r : VideoRecorder) (e : Effect) :
    (r.call e).threadJoinable = r.threadJoinable := rfl

/-! ## Frame pool: drop-oldest backpressure -/

theorem framesFrom_length (flip : Bool) (inputs : List (RenderTarget × Int)) (fn : Nat) :
    (framesFrom flip fn inputs).length = inputs.length := by
  induction inputs generalizing fn with
  | nil => rfl
  | cons x rest ih => obtain ⟨t, ts⟩ := x; simp [framesFrom, ih]

theorem framesFrom_timestamps (flip : Bool) (inputs : List (RenderTarget × Int)) (fn : Nat) :
    (framesFrom flip fn inputs).map (fun f => f.timestamp) = inputs.map (fun x => x.2) := by
  induction inputs generalizing fn with
  | nil => rfl
  | cons x rest ih => obtain ⟨t, ts⟩ := x; simp [framesFrom, ih, captureFrame]

theorem grab_running (g : FrameGrabber) (hr : g.running = true) (t : RenderTarget) (ts : Int) :
    (g.grab t ts).running = true ∧ (g.grab t ts).flipVertical = g.flipVertical ∧
      (g.grab t ts).frameNumber = (g.frameNumber + 1) % 2 ^ 32 := by
  simp only [FrameGrabber.grab, hr, FrameGrabber.enqueue, Bool.not_true, Bool.false_eq_true,
    if_false]
  split <;> simp

theorem grab_full (g : FrameGrabber) (hr : g.running = true) (t : RenderTarget) (ts : Int)
    (hfull : MAX_QUEUE_SIZE ≤ g.frameQueue.length) :
    (g.grab t ts).frameQueue =
        g.frameQueue.drop 1 ++ [captureFrame g.flipVertical g.frameNumber t ts] ∧
      (g.grab t ts).droppedFrames = (g.droppedFrames + 1) % 2 ^ 32 := by
  simp [FrameGrabber.grab, hr, FrameGrabber.enqueue, hfull]

theorem grab_room (g : FrameGrabber) (hr : g.running = true) (t : RenderTarget) (ts : Int)
    (hroom : g.frameQueue.length < MAX_QUEUE_SIZE) :
    (g.grab t ts).frameQueue =
        g.frameQueue ++ [captureFrame g.flipVertical g.frameNumber t ts] ∧
      (g.grab t ts).droppedFrames = g.droppedFrames := by
  have h : ¬ MAX_QUEUE_SIZE ≤ g.frameQueue.length := by omega
  simp [FrameGrabber.grab, hr, FrameGrabber.enqueue, h]

/-- The queue and the drop counter after consecutive grabs on a running grabber
whose queue is not over its capacity. -/
theorem grabAll_running (inputs : List (RenderTarget × Int)) (g : FrameGrabber)
    (hr : g.running = true) (hq : g.frameQueue.length ≤ MAX_QUEUE_SIZE)
    (hd : g.droppedFrames < 2 ^ 32) :
    (g.grabAll inputs).frameQueue =
        (g.frameQueue ++ framesFrom g.flipVertical g.frameNumber inputs).drop
          (g.frameQueue.length + inputs.length - MAX_QUEUE_SIZE) ∧
      (g.grabAll inputs).droppedFrames =
        (g.droppedFrames + (g.frameQueue.length + inputs.length - MAX_QUEUE_SIZE)) % 2 ^ 32 := by
  induction inputs generalizing g with
  | nil =>
    have h0 : g.frameQueue.length + 0 - MAX_QUEUE_SIZE = 0 := by omega
    rw [List.length_nil, h0]
    simp only [FrameGrabber.grabAll, framesFrom, List.append_nil, List.drop_zero, Nat.add_zero,
      true_and]
    exact (Nat.mod_eq_of_lt hd).symm
  | cons x rest ih =>
    obtain ⟨t, ts⟩ := x
    simp only [FrameGrabber.grabAll, framesFrom, List.length_cons]
    obtain ⟨hr1, hf1, hn1⟩ := grab_running g hr t ts
    by_cases hfull : MAX_QUEUE_SIZE ≤ g.frameQueue.length
    · obtain ⟨hq1, hd1⟩ := grab_full g hr t ts hfull
      have hlen : g.frameQueue.length = MAX_QUEUE_SIZE := by omega
      have hne : g.frameQueue ≠ [] := by
        intro h; rw [h] at hlen; simp [MAX_QUEUE_SIZE] at hlen
      obtain ⟨a, q, hq2⟩ := List.exists_cons_of_ne_nil hne
      have hlen1 : (g.grab t ts).frameQueue.length = MAX_QUEUE_SIZE := by
        rw [hq1, ← hlen, hq2]; simp
      have ih2 := ih (g.grab t ts) hr1 (by omega)
        (by rw [hd1]; exact Nat.mod_lt _ (by norm_num))
      rw [ih2.1, ih2.2, hlen1, hlen, hf1, hn1, hq1, hd1, hq2]
      have e1 : MAX_QUEUE_SIZE + rest.length - MAX_QUEUE_SIZE = rest.length := by omega
      have e2 : MAX_QUEUE_SIZE + (rest.length + 1) - MAX_QUEUE_SIZE = rest.length + 1 := by omega
      rw [e1, e2]
      constructor
      · simp
      · omega
    · have hlt : g.frameQueue.length < MAX_QUEUE_SIZE := by omega
      obtain ⟨hq1, hd1⟩ := grab_room g hr t ts hlt
      have hlen1 : (g.grab t ts).frameQueue.length = g.frameQueue.length + 1 := by
        rw [hq1]; simp
      have ih2 := ih (g.grab t ts) hr1 (by omega) (by rw [hd1]; exact hd)
      rw [ih2.1, ih2.2, hlen1, hf1, hn1, hq1, hd1]
      have e : g.frameQueue.length + 1 + rest.length - MAX_QUEUE_SIZE =
          g.frameQueue.length + (rest.length + 1) - MAX_QUEUE_SIZE := by omega
      rw [e]
      simp

/-- C1, as stated, fails: after `2^32 + 30` consecutive grabs on a running grabber
that starts with an empty queue and a drop counter of 0, `droppedFrames()` is 0,
not `max(0, n - 30) = 2^32`, because the drop counter is a `u32`. -/
theorem grab_drop_counter_wraps :
    (({ running := true } : FrameGrabber).grabAll
        (List.replicate (2 ^ 32 + 30) ({ width := 0, height := 0, pixels := [] }, 0))).droppedFrames = 0 ∧
      (({ running := true } : FrameGrabber).grabAll
        (List.replicate (2 ^ 32 + 30) ({ width := 0, height := 0, pixels := [] }, 0))).droppedFrames ≠
        max 0 (2 ^ 32 + 30 - 30) := by
  have h := (grabAll_running
    (List.replicate (2 ^ 32 + 30) ({ width := 0, height := 0, pixels := [] }, 0))
    ({ running := true } : FrameGrabber) rfl (Nat.zero_le _) (by norm_num)).2
  rw [List.length_replicate] at h
  have e : (0 + (([] : List GrabbedFrame).length + (2 ^ 32 + 30) - MAX_QUEUE_SIZE)) % 2 ^ 32 = 0 := by
    simp [MAX_QUEUE_SIZE]
  have h2 : (({ running := true } : FrameGrabber).grabAll
      (List.replicate (2 ^ 32 + 30) ({ width := 0, height := 0, pixels := [] }, 0))).droppedFrames = 0 :=
    h.trans e
  refine ⟨h2, ?_⟩
  rw [h2]
  norm_num

/-- C1, amended: for a running grabber whose queue is empty and whose drop counter
is 0, after `n` consecutive grabs with no dequeue in between the queue is the list
of all `n` grabbed frames, in grab order, without its first `n - 30` entries (so
it holds the `min(n, 30)` most recent frames, the oldest having been evicted), and
`droppedFrames()` is `max(0, n - 30)` reduced modulo `2^32`, which is
`max(0, n - 30)` itself whenever `n < 2^32 + 30`; 31 grabs leave 30 frames with
1 drop and 40 grabs leave 30 frames with 10 drops. -/
theorem grab_drop_oldest (g : FrameGrabber) (hr : g.running = true)
    (hq : g.frameQueue = []) (hd : g.droppedFrames = 0) (inputs : List (RenderTarget × Int)) :
    (g.grabAll inputs).frameQueue =
        (framesFrom g.flipVertical g.frameNumber inputs).drop (inputs.length - MAX_QUEUE_SIZE) ∧
      (framesFrom g.flipVertical g.frameNumber inputs).length = inputs.length ∧
      (framesFrom g.flipVertical g.frameNumber inputs).map (fun f => f.timestamp) =
        inputs.map (fun x => x.2) ∧
      (g.grabAll inputs).frameQueue.length = min inputs.length 30 ∧
      (g.grabAll inputs).droppedFrames = (inputs.length - 30) % 2 ^ 32 ∧
      (inputs.length < 2 ^ 32 + 30 → (g.grabAll inputs).droppedFrames = inputs.length - 30) ∧
      (inputs.length = 31 →
        (g.grabAll inputs).frameQueue.length = 30 ∧ (g.grabAll inputs).droppedFrames = 1) ∧
      (inputs.length = 40 →
        (g.grabAll inputs).frameQueue.length = 30 ∧ (g.grabAll inputs).droppedFrames = 10) := by
  obtain ⟨h1, h2⟩ := grabAll_running inputs g hr (by simp [hq]) (by simp [hd])
  rw [hq] at h1 h2
  rw [hd] at h2
  simp only [List.nil_append, List.length_nil, Nat.zero_add] at h1 h2
  have hlen := framesFrom_length g.flipVertical inputs g.frameNumber
  have hql : (g.grabAll inputs).frameQueue.length = min inputs.length 30 := by
    rw [h1, List.length_drop, hlen]; simp only [MAX_QUEUE_SIZE]; omega
  have hdr : (g.grabAll inputs).droppedFrames = (inputs.length - 30) % 2 ^ 32 := by
    rw [h2]; rfl
  refine ⟨h1, hlen, framesFrom_timestamps _ _ _, hql, hdr, ?_, ?_, ?_⟩
  · intro hn
    rw [hdr]
    exact Nat.mod_eq_of_lt (by omega)
  · intro hn
    rw [hql, hdr, hn]
    exact ⟨by decide, by decide⟩
  · intro hn
    rw [hql, hdr, hn]
    exact ⟨by decide, by decide⟩

/-- A running grabber with an empty queue takes 40 grabs of a 2x2 target: 30 frames
stay, 10 are dropped, and the frame numbers kept are 10 to 39. -/
theorem grab_drop_oldest_witness :
    (({ running := true } : FrameGrabber).grabAll
        ((List.range 40).map fun k => ({ width := 2, height := 2, pixels := List.replicate 16 k }, (k : Int)))).frameQueue.length = 30 ∧
      (({ running := true } : FrameGrabber).grabAll
        ((List.range 40).map fun k => ({ width := 2, height := 2, pixels := List.replicate 16 k }, (k : Int)))).droppedFrames = 10 :=
  (grab_drop_oldest { running := true } rfl rfl rfl
    ((List.range 40).map fun k => ({ width := 2, height := 2, pixels := List.replicate 16 k }, (k : Int)))).2.2.2.2.2.2.2
    (by simp)

/-! ## Validation of the settings -/

/-- The conditions under which `validate` succeeds. -/
theorem validate_eq_ok_iff (s : EncoderSettings) :
    s.validate = Except.ok () ↔
      (s.container = Container.WebM →
        (s.video.codec = VideoCodec.VP9 ∨ s.video.codec = VideoCodec.AV1) ∧
          s.audio.codec = AudioCodec.Opus) ∧
      (s.container = Container.MP4 ∨ s.container = Container.MOV →
        s.video.codec ≠ VideoCodec.VP9 ∧ s.video.codec ≠ VideoCodec.FFV1) ∧
      (0 < s.video.width ∧ 0 < s.video.height ∧
        s.video.width % 2 = 0 ∧ s.video.height % 2 = 0) ∧
      s.video.crf ≤ 51 := by
  unfold EncoderSettings.validate
  constructor
  · intro h
    split_ifs at h with h1 h2 h3 h4 h5 h6
    refine ⟨fun hc => ?_, fun hc => ?_, ⟨?_, ?_, ?_, ?_⟩, ?_⟩
    · constructor
      · by_contra hv; exact h1 ⟨hc, by tauto⟩
      · by_contra ha; exact h2 ⟨hc, ha⟩
    · constructor
      · intro hv; exact h3 ⟨hc, Or.inl hv⟩
      · intro hv; exact h3 ⟨hc, Or.inr hv⟩
    · omega
    · omega
    · omega
    · omega
    · omega
  · rintro ⟨hw, hm, ⟨hw0, hh0, hwe, hhe⟩, hcrf⟩
    have h1 : ¬ (s.container = Container.WebM ∧
        (s.video.codec ≠ VideoCodec.VP9 ∧ s.video.codec ≠ VideoCodec.AV1)) := by
      rintro ⟨hc, hv1, hv2⟩
      rcases (hw hc).1 with h | h
      · exact hv1 h
      · exact hv2 h
    have h2 : ¬ (s.container = Container.WebM ∧ s.audio.codec ≠ AudioCodec.Opus) := by
      rintro ⟨hc, ha⟩; exact ha (hw hc).2
    have h3 : ¬ ((s.container = Container.MP4 ∨ s.container = Container.MOV) ∧
        (s.video.codec = VideoCodec.VP9 ∨ s.video.codec = VideoCodec.FFV1)) := by
      rintro ⟨hc, hv | hv⟩
      · exact (hm hc).1 hv
      · exact (hm hc).2 hv
    have h4 : ¬ (s.video.width = 0 ∨ s.video.height = 0) := by omega
    have h5 : ¬ (s.video.width % 2 ≠ 0 ∨ s.video.height % 2 ≠ 0) := by omega
    have h6 : ¬ (s.video.crf > 51) := by omega
    simp only [h1, h2, h3, h4, h5, h6, if_false]

/-- C2: `validate()` succeeds exactly when (i) a WebM container has a VP9 or AV1
video codec and the Opus audio codec, (ii) an MP4 or MOV container has a video
codec other than VP9 and FFV1, (iii) width and height are positive and even and
(iv) crf is at most 51; in every other case it returns an error. -/
theorem validate_ok_iff (s : EncoderSettings) :
    (s.validate = Except.ok () ↔
      (s.container = Container.WebM →
        (s.video.codec = VideoCodec.VP9 ∨ s.video.codec = VideoCodec.AV1) ∧
          s.audio.codec = AudioCodec.Opus) ∧
      (s.container = Container.MP4 ∨ s.container = Container.MOV →
        s.video.codec ≠ VideoCodec.VP9 ∧ s.video.codec ≠ VideoCodec.FFV1) ∧
      (0 < s.video.width ∧ 0 < s.video.height ∧
        s.video.width % 2 = 0 ∧ s.video.height % 2 = 0) ∧
      s.video.crf ≤ 51) ∧
    (s.validate ≠ Except.ok () → ∃ msg, s.validate = Except.error msg) := by
  refine ⟨validate_eq_ok_iff s, fun h => ?_⟩
  cases hv : s.validate with
  | error msg => exact ⟨msg, rfl⟩
  | ok u => exact absurd hv h

/-! ## Set-up of the encoder library: what it leaves alone and when it succeeds -/

theorem sameCore_refl (r : VideoRecorder) : r.sameCore r := ⟨rfl, rfl, rfl, rfl⟩

theorem sameCore_trans {r1 r2 r3 : VideoRecorder} (h12 : r1.sameCore r2) (h23 : r2.sameCore r3) :
    r1.sameCore r3 :=
  ⟨h23.1.trans h12.1, h23.2.1.trans h12.2.1, h23.2.2.1.trans h12.2.2.1,
    h23.2.2.2.trans h12.2.2.2⟩

theorem andThen_ok_iff (x : Outcome) (f : VideoRecorder → Outcome) :
    (andThen x f).1 = Except.ok () ↔ x.1 = Except.ok () ∧ (f x.2).1 = Except.ok () := by
  unfold andThen
  cases h : x.1 with
  | error e => simp
  | ok u => simp

theorem andThen_sameCore (r : VideoRecorder) (x : Outcome) (f : VideoRecorder → Outcome)
    (hx : r.sameCore x.2) (hf : ∀ r1 : VideoRecorder, r1.sameCore (f r1).2) : r.sameCore (andThen x f).2 := by
  unfold andThen
  cases h : x.1 with
  | error e => exact hx
  | ok u => exact sameCore_trans hx (hf x.2)

theorem libCall_ok_iff (r : VideoRecorder) (e : Effect) (upd : VideoRecorder → VideoRecorder)
    (failed : Bool) (msg : String) :
    (r.libCall e upd failed msg).1 = Except.ok () ↔ failed = false := by
  unfold VideoRecorder.libCall
  cases failed <;> simp

theorem libCall_sameCore (r : VideoRecorder) (e : Effect) (upd : VideoRecorder → VideoRecorder)
    (failed : Bool) (msg : String) (hu : ∀ r1 : VideoRecorder, r1.sameCore (upd r1)) :
    r.sameCore (r.libCall e upd failed msg).2 :=
  @sameCore_trans r (r.call e) _ ⟨rfl, rfl, rfl, rfl⟩ (hu (r.call e))

theorem initVideoStream_sameCore (r : VideoRecorder) (o : InitOutcomes) :
    r.sameCore (r.initVideoStream o).2 := by
  unfold VideoRecorder.initVideoStream
  repeat' first
    | apply andThen_sameCore
    | apply libCall_sameCore
    | intro r1
    | (split <;> exact ⟨rfl, rfl, rfl, rfl⟩)
    | exact ⟨rfl, rfl, rfl, rfl⟩

theorem initAudioStream_sameCore (r : VideoRecorder) (o : InitOutcomes) :
    r.sameCore (r.initAudioStream o).2 := by
  unfold VideoRecorder.initAudioStream
  split
  · exact ⟨rfl, rfl, rfl, rfl⟩
  · repeat' first
      | apply andThen_sameCore
      | apply libCall_sameCore
      | intro r1
      | (split <;> exact ⟨rfl, rfl, rfl, rfl⟩)
      | exact ⟨rfl, rfl, rfl, rfl⟩

theorem openOutput_sameCore (r : VideoRecorder) (o : InitOutcomes) :
    r.sameCore (r.openOutput o).2 := by
  unfold VideoRecorder.openOutput
  split
  · split
    · exact sameCore_refl r
    · exact libCall_sameCore _ _ _ _ _ (fun r1 => ⟨rfl, rfl, rfl, rfl⟩)
  · exact sameCore_refl r

theorem initStreams_sameCore (r : VideoRecorder) (o : InitOutcomes) :
    r.sameCore (r.initStreams o).2 := by
  unfold VideoRecorder.initStreams
  refine andThen_sameCore _ _ _ (initVideoStream_sameCore _ _) ?_
  intro r2
  refine andThen_sameCore _ _ _ (initAudioStream_sameCore _ _) ?_
  intro r3
  refine andThen_sameCore _ _ _ (openOutput_sameCore _ _) ?_
  intro r4
  refine andThen_sameCore _ _ _ (libCall_sameCore _ _ _ _ _ (fun r5 => ⟨rfl, rfl, rfl, rfl⟩)) ?_
  intro r5
  exact libCall_sameCore _ _ _ _ _ (fun r6 => ⟨rfl, rfl, rfl, rfl⟩)

theorem initFFmpeg_sameCore (r : VideoRecorder) (o : InitOutcomes) :
    r.sameCore (r.initFFmpeg o).2 := by
  unfold VideoRecorder.initFFmpeg
  refine andThen_sameCore _ _ _ (libCall_sameCore _ _ _ _ _ (fun r1 => ⟨rfl, rfl, rfl, rfl⟩)) ?_
  intro r1
  exact initStreams_sameCore r1 o

theorem initVideoStream_ok_iff (r : VideoRecorder) (o : InitOutcomes) :
    (r.initVideoStream o).1 = Except.ok () ↔ o.videoOk = true := by
  unfold VideoRecorder.initVideoStream InitOutcomes.videoOk
  simp only [andThen_ok_iff, libCall_ok_iff, Bool.and_eq_true, Bool.not_eq_false',
    decide_eq_false_iff_not, decide_eq_true_eq, not_lt]
  tauto

theorem initAudioStream_ok_iff (r : VideoRecorder) (o : InitOutcomes) :
    (r.initAudioStream o).1 = Except.ok () ↔ o.audioOk = true := by
  unfold VideoRecorder.initAudioStream InitOutcomes.audioOk
  cases hf : o.audioCodecFound with
  | false => simp
  | true =>
    simp only [Bool.not_true, Bool.false_eq_true, if_false, andThen_ok_iff, libCall_ok_iff,
      Bool.and_eq_true, Bool.or_eq_true, Bool.not_eq_false', Bool.or_eq_false_iff,
      decide_eq_false_iff_not, decide_eq_true_eq, not_lt, Bool.false_or, true_and]
    by_cases hs : o.audioFrameSize > 0
    · have hs2 : ¬ o.audioFrameSize ≤ 0 := by omega
      simp only [hs, hs2, if_true, libCall_ok_iff, decide_eq_false_iff_not, not_lt, false_or]
      tauto
    · have hs2 : o.audioFrameSize ≤ 0 := by omega
      simp only [hs, hs2, if_false, true_or, and_true]
      tauto

theorem openOutput_ok_iff (r : VideoRecorder) (o : InitOutcomes) (fmt : FormatCtx)
    (hfmt : r.formatCtx = some fmt) :
    (r.openOutput o).1 = Except.ok () ↔ (fmt.noFile = true ∨ 0 ≤ o.avioOpenRet) := by
  unfold VideoRecorder.openOutput
  rw [hfmt]
  by_cases hn : fmt.noFile = true
  · simp [hn]
  · simp [hn, libCall_ok_iff]

theorem libCall_formatCtx (r : VideoRecorder) (e : Effect) (upd : VideoRecorder → VideoRecorder)
    (failed : Bool) (msg : String) (hu : ∀ r1 : VideoRecorder, (upd r1).formatCtx = r1.formatCtx) :
    (r.libCall e upd failed msg).2.formatCtx = r.formatCtx :=
  (hu (r.call e)).trans rfl

theorem andThen_formatCtx (r : VideoRecorder) (x : Outcome) (f : VideoRecorder → Outcome)
    (hx : x.2.formatCtx = r.formatCtx)
    (hf : ∀ r1 : VideoRecorder, (f r1).2.formatCtx = r1.formatCtx) :
    (andThen x f).2.formatCtx = r.formatCtx := by
  unfold andThen
  cases h : x.1 with
  | error e => exact hx
  | ok u => exact (hf x.2).trans hx

theorem initVideoStream_formatCtx (r : VideoRecorder) (o : InitOutcomes) :
    (r.initVideoStream o).2.formatCtx = r.formatCtx := by
  unfold VideoRecorder.initVideoStream
  repeat' first
    | apply andThen_formatCtx
    | apply libCall_formatCtx
    | intro r1
    | (split <;> rfl)
    | rfl

theorem initAudioStream_formatCtx (r : VideoRecorder) (o : InitOutcomes) :
    (r.initAudioStream o).2.formatCtx = r.formatCtx := by
  unfold VideoRecorder.initAudioStream
  split
  · rfl
  · repeat' first
      | apply andThen_formatCtx
      | apply libCall_formatCtx
      | intro r1
      | (split <;> rfl)
      | rfl

theorem initStreams_ok_iff (r : VideoRecorder) (o : InitOutcomes) (fmt : FormatCtx)
    (hfmt : r.formatCtx = some fmt) :
    (r.initStreams o).1 = Except.ok () ↔
      o.videoOk = true ∧ o.audioOk = true ∧ (fmt.noFile = true ∨ 0 ≤ o.avioOpenRet) ∧
        0 ≤ o.writeHeaderRet ∧ o.packetAllocated = true := by
  have hfc : ((r.initVideoStream o).2.initAudioStream o).2.formatCtx = some fmt := by
    rw [initAudioStream_formatCtx, initVideoStream_formatCtx, hfmt]
  unfold VideoRecorder.initStreams
  simp only [andThen_ok_iff, libCall_ok_iff, initVideoStream_ok_iff, initAudioStream_ok_iff,
    openOutput_ok_iff _ o fmt hfc, Bool.not_eq_false', decide_eq_false_iff_not, not_lt]

/-- The set-up succeeds exactly when every step of it succeeds. -/
theorem initFFmpeg_ok_iff (r : VideoRecorder) (o : InitOutcomes) :
    (r.initFFmpeg o).1 = Except.ok () ↔ o.succeeds = true := by
  unfold VideoRecorder.initFFmpeg InitOutcomes.succeeds InitOutcomes.outputOk
  rw [andThen_ok_iff, libCall_ok_iff]
  cases hctx : o.allocOutputCtx with
  | none => simp
  | some fmt =>
    rw [initStreams_ok_iff _ o fmt rfl]
    simp only [Option.isNone_some, Bool.or_false, decide_eq_false_iff_not, not_lt,
      Bool.and_eq_true, Bool.or_eq_true, decide_eq_true_eq]
    tauto

/-! ## The three ways `start` can go -/

theorem start_of_ne_stopped (r : VideoRecorder) (settings : EncoderSettings) (o : InitOutcomes)
    (hs : r.state ≠ RecordingState.Stopped) :
    r.start settings o = (Except.error "Recording already in progress", r) := by
  unfold VideoRecorder.start
  rw [if_pos hs]

theorem start_of_invalid (r : VideoRecorder) (settings : EncoderSettings) (o : InitOutcomes)
    (e : String) (hs : r.state = RecordingState.Stopped)
    (hv : settings.validate = Except.error e) :
    r.start settings o = (Except.error e, r) := by
  unfold VideoRecorder.start
  rw [if_neg (not_not.mpr hs), hv]

theorem start_of_init_error (r : VideoRecorder) (settings : EncoderSettings) (o : InitOutcomes)
    (e : String) (hs : r.state = RecordingState.Stopped)
    (hv : settings.validate = Except.ok ())
    (hi : ((r.beginStart settings).initFFmpeg o).1 = Except.error e) :
    r.start settings o =
      (Except.error e,
        ((r.beginStart settings).initFFmpeg o).2.cleanupFFmpeg.setState RecordingState.Error) := by
  unfold VideoRecorder.start
  rw [if_neg (not_not.mpr hs), hv]
  simp only [hi]

theorem start_of_init_ok (r : VideoRecorder) (settings : EncoderSettings) (o : InitOutcomes)
    (hs : r.state = RecordingState.Stopped)
    (hv : settings.validate = Except.ok ())
    (hi : ((r.beginStart settings).initFFmpeg o).1 = Except.ok ()) :
    r.start settings o =
      (Except.ok (), ((r.beginStart settings).initFFmpeg o).2.finishStart o.now) := by
  unfold VideoRecorder.start
  rw [if_neg (not_not.mpr hs), hv]
  simp only [hi]

theorem cleanupFFmpeg_released (r : VideoRecorder) : r.cleanupFFmpeg.released :=
  ⟨rfl, rfl, rfl, rfl, rfl, rfl, rfl, rfl, rfl, rfl, rfl, rfl⟩

/-- What a `start` with a valid configuration and a failing set-up leaves. -/
theorem start_failure (r : VideoRecorder) (settings : EncoderSettings) (o : InitOutcomes)
    (hs : r.state = RecordingState.Stopped) (hv : settings.validate = Except.ok ())
    (ho : o.succeeds = false) :
    ∃ e, ((r.beginStart settings).initFFmpeg o).1 = Except.error e ∧
      (r.start settings o).1 = Except.error e ∧
      (r.start settings o).2.emitted =
        r.emitted ++ [RecordingState.Starting, RecordingState.Error] ∧
      (r.start settings o).2.state = RecordingState.Error ∧
      (r.start settings o).2.released ∧
      (r.start settings o).2.log =
        ((r.beginStart settings).initFFmpeg o).2.log ++
          ((r.beginStart settings).initFFmpeg o).2.cleanupCalls := by
  cases hi : ((r.beginStart settings).initFFmpeg o).1 with
  | ok u =>
    have h := (initFFmpeg_ok_iff (r.beginStart settings) o).mp hi
    rw [ho] at h
    exact absurd h (by decide)
  | error e =>
    have hc := initFFmpeg_sameCore (r.beginStart settings) o
    rw [start_of_init_error r settings o e hs hv hi]
    refine ⟨e, rfl, rfl, ?_, rfl, ?_, rfl⟩
    · show ((r.beginStart settings).initFFmpeg o).2.emitted ++ [RecordingState.Error] = _
      rw [hc.2.1]
      simp [VideoRecorder.beginStart, VideoRecorder.setState]
    · exact ⟨rfl, rfl, rfl, rfl, rfl, rfl, rfl, rfl, rfl, rfl, rfl, rfl⟩

/-- What a `start` with a valid configuration and a successful set-up leaves. -/
theorem start_success (r : VideoRecorder) (settings : EncoderSettings) (o : InitOutcomes)
    (hs : r.state = RecordingState.Stopped) (hv : settings.validate = Except.ok ())
    (ho : o.succeeds = true) :
    (r.start settings o).1 = Except.ok () ∧
      (r.start settings o).2.emitted =
        r.emitted ++ [RecordingState.Starting, RecordingState.Recording] ∧
      (r.start settings o).2.state = RecordingState.Recording ∧
      (r.start settings o).2.stats = { currentFile := settings.outputPath } := by
  have hi := (initFFmpeg_ok_iff (r.beginStart settings) o).mpr ho
  have hc := initFFmpeg_sameCore (r.beginStart settings) o
  rw [start_of_init_ok r settings o hs hv hi]
  refine ⟨rfl, ?_, rfl, ?_⟩
  · show ((r.beginStart settings).initFFmpeg o).2.emitted ++ [RecordingState.Recording] = _
    rw [hc.2.1]
    simp [VideoRecorder.beginStart, VideoRecorder.setState]
  · show ({ currentFile := ((r.beginStart settings).initFFmpeg o).2.settings.outputPath } :
      RecordingStats) = _
    rw [hc.2.2.1]
    rfl

/-! ## The contract of `start` -/

/-- C3: for a recorder in state Stopped and a configuration that `validate()`
rejects, `start(config)` returns the validation error and the recorder is exactly
as before: same state, no state-change event, same settings and statistics, no
handle created and no external call made (so no muxer, codec, converter or output
file).  A width of 1921 is such a configuration. -/
theorem start_invalid_no_effect (r : VideoRecorder) (settings : EncoderSettings)
    (o : InitOutcomes) (hs : r.state = RecordingState.Stopped) :
    (∀ e, settings.validate = Except.error e → r.start settings o = (Except.error e, r)) ∧
      (settings.video.width = 1921 →
        ∃ e, settings.validate = Except.error e ∧ r.start settings o = (Except.error e, r)) := by
  refine ⟨fun e hv => start_of_invalid r settings o e hs hv, fun hw => ?_⟩
  cases hv : settings.validate with
  | error e => exact ⟨e, rfl, start_of_invalid r settings o e hs hv⟩
  | ok u =>
    have h := ((validate_eq_ok_iff settings).mp hv).2.2.1.2.2.1
    rw [hw] at h
    exact absurd h (by decide)

/-- A freshly constructed recorder is started with width 1921: the call returns
the error of the validation and the recorder is unchanged. -/
theorem start_invalid_no_effect_witness :
    ({} : VideoRecorder).state = RecordingState.Stopped ∧
      ({ video := { width := 1921 } } : EncoderSettings).validate =
        Except.error "Video dimensions must be even numbers" ∧
      ({} : VideoRecorder).start { video := { width := 1921 } } {} =
        (Except.error "Video dimensions must be even numbers", {}) :=
  ⟨rfl, rfl,
    (start_invalid_no_effect {} { video := { width := 1921 } } {} rfl).1
      "Video dimensions must be even numbers" rfl⟩

/-- C4: in every state other than Stopped (Starting, Recording, Stopping, Error)
and for every configuration, `start(config)` returns an error and leaves the
recorder exactly as it was: state, settings, statistics, timestamp counters and
every handle unchanged, no state-change event emitted, no external call made. -/
theorem start_rejected_unless_stopped (r : VideoRecorder) (settings : EncoderSettings)
    (o : InitOutcomes) (hs : r.state ≠ RecordingState.Stopped) :
    r.start settings o = (Except.error "Recording already in progress", r) :=
  start_of_ne_stopped r settings o hs

/-- A recorder that is in state Recording refuses a second `start`. -/
theorem start_rejected_unless_stopped_witness :
    ({ state := RecordingState.Recording } : VideoRecorder).state ≠ RecordingState.Stopped ∧
      ({ state := RecordingState.Recording } : VideoRecorder).start {} {} =
        (Except.error "Recording already in progress", { state := RecordingState.Recording }) :=
  ⟨by decide, start_rejected_unless_stopped { state := RecordingState.Recording } {} {} (by decide)⟩

/-- C5: from state Stopped, `start(config)` with a configuration that `validate()`
accepts and a set-up in which every step succeeds returns success, emits exactly
Starting and then Recording, ends in state Recording (`isRecording()` is true) and
leaves the statistics reset, with `framesWritten`, `framesDropped` and
`bytesWritten` equal to 0 and `currentFile` equal to the configured output path. -/
theorem start_succeeds (r : VideoRecorder) (settings : EncoderSettings) (o : InitOutcomes)
    (hs : r.state = RecordingState.Stopped) (hv : settings.validate = Except.ok ())
    (ho : o.succeeds = true) :
    (r.start settings o).1 = Except.ok () ∧
      (r.start settings o).2.emitted =
        r.emitted ++ [RecordingState.Starting, RecordingState.Recording] ∧
      (r.start settings o).2.state = RecordingState.Recording ∧
      (r.start settings o).2.isRecording = true ∧
      (r.start settings o).2.stats.framesWritten = 0 ∧
      (r.start settings o).2.stats.framesDropped = 0 ∧
      (r.start settings o).2.stats.bytesWritten = 0 ∧
      (r.start settings o).2.stats.currentFile = settings.outputPath := by
  obtain ⟨h1, h2, h3, h4⟩ := start_success r settings o hs hv ho
  refine ⟨h1, h2, h3, ?_, ?_, ?_, ?_, ?_⟩
  · simp [VideoRecorder.isRecording, h3]
  · rw [h4]
  · rw [h4]
  · rw [h4]
  · rw [h4]

/-- A freshly constructed recorder is started with the default settings, the output
path `out.mp4` and a set-up that succeeds. -/
theorem start_succeeds_witness :
    (({} : VideoRecorder).start { outputPath := "out.mp4" } {}).1 = Except.ok () ∧
      (({} : VideoRecorder).start { outputPath := "out.mp4" } {}).2.emitted =
        [RecordingState.Starting, RecordingState.Recording] ∧
      (({} : VideoRecorder).start { outputPath := "out.mp4" } {}).2.stats.currentFile = "out.mp4" :=
  have h := start_succeeds {} { outputPath := "out.mp4" } {} rfl rfl rfl
  ⟨h.1, h.2.1, h.2.2.2.2.2.2.2⟩

/-- C6: from state Stopped with a configuration that `validate()` accepts, if a
step of the set-up fails (output context, video stream, audio stream, file open,
header write or packet allocation), `start()` returns the error of that step,
emits exactly Starting and then Error, ends in state Error, and every handle
(format context, both codec contexts, both frames, packet, scaler, resampler,
both streams) is null with both timestamp counters equal to 0; the last calls of
`start()` are the release calls for the handles that were set when the step
failed. -/
theorem start_failure_releases (r : VideoRecorder) (settings : EncoderSettings)
    (o : InitOutcomes) (hs : r.state = RecordingState.Stopped)
    (hv : settings.validate = Except.ok ()) (ho : o.succeeds = false) :
    ∃ e, ((r.beginStart settings).initFFmpeg o).1 = Except.error e ∧
      (r.start settings o).1 = Except.error e ∧
      (r.start settings o).2.emitted =
        r.emitted ++ [RecordingState.Starting, RecordingState.Error] ∧
      (r.start settings o).2.state = RecordingState.Error ∧
      (r.start settings o).2.released ∧
      (r.start settings o).2.log =
        ((r.beginStart settings).initFFmpeg o).2.log ++
          ((r.beginStart settings).initFFmpeg o).2.cleanupCalls :=
  start_failure r settings o hs hv ho

/-- A freshly constructed recorder is started with the default settings and a set-up
whose header write fails. -/
theorem start_failure_releases_witness :
    ∃ e, ((({} : VideoRecorder).beginStart {}).initFFmpeg { writeHeaderRet := -1 }).1 =
        Except.error e ∧
      (({} : VideoRecorder).start {} { writeHeaderRet := -1 }).1 = Except.error e ∧
      (({} : VideoRecorder).start {} { writeHeaderRet := -1 }).2.emitted =
        [] ++ [RecordingState.Starting, RecordingState.Error] ∧
      (({} : VideoRecorder).start {} { writeHeaderRet := -1 }).2.state = RecordingState.Error ∧
      (({} : VideoRecorder).start {} { writeHeaderRet := -1 }).2.released ∧
      (({} : VideoRecorder).start {} { writeHeaderRet := -1 }).2.log =
        ((({} : VideoRecorder).beginStart {}).initFFmpeg { writeHeaderRet := -1 }).2.log ++
          ((({} : VideoRecorder).beginStart {}).initFFmpeg { writeHeaderRet := -1 }).2.cleanupCalls :=
  start_failure_releases {} {} { writeHeaderRet := -1 } rfl rfl rfl

/-! ## Flushing and stopping -/

theorem writePacket_eq (r : VideoRecorder) (video : Bool) (p : PacketOutcome) :
    ∃ b, (r.writePacket video p).2 =
      { r with log := r.log ++ [Effect.writeFrame video]
               stats := { r.stats with bytesWritten := b } } := by
  unfold VideoRecorder.writePacket
  by_cases h : p.writeRet < 0
  · exact ⟨r.stats.bytesWritten, by simp [h, VideoRecorder.call]⟩
  · exact ⟨(((r.stats.bytesWritten : Int) + p.sizeAfterWrite) % 2 ^ 64).toNat,
      by simp [h, VideoRecorder.call]⟩

/-- A drain of `flushEncoders` only appends flush calls of its codec to the log and
only changes the byte counter; the last call is the drain that found no packet. -/
theorem flushDrain_eq (video : Bool) (ps : List PacketOutcome) (r : VideoRecorder) :
    ∃ L b, r.flushDrain video ps =
        { r with log := r.log ++ L, stats := { r.stats with bytesWritten := b } } ∧
      (∀ e ∈ L, Effect.isFlush video e = true) ∧
      L.getLast? = some (Effect.receivePacket video) := by
  induction ps generalizing r with
  | nil =>
    refine ⟨[Effect.receivePacket video], r.stats.bytesWritten, rfl, ?_, rfl⟩
    intro e he
    simp at he
    subst he
    simp [Effect.isFlush]
  | cons p rest ih =>
    unfold VideoRecorder.flushDrain
    by_cases h : 0 ≤ p.recvRet
    · obtain ⟨b1, hb1⟩ := writePacket_eq (r.call (Effect.receivePacket video)) video p
      obtain ⟨L, b, hL, hflush, hlast⟩ :=
        ih ((r.call (Effect.receivePacket video)).writePacket video p).2
      refine ⟨Effect.receivePacket video :: Effect.writeFrame video :: L, b, ?_, ?_, ?_⟩
      · simp only [h, if_true]
        rw [hL, hb1]
        simp [VideoRecorder.call]
      · intro e he
        simp only [List.mem_cons] at he
        rcases he with he | he | he
        · subst he; simp [Effect.isFlush]
        · subst he; simp [Effect.isFlush]
        · exact hflush e he
      · cases L with
        | nil => simp at hlast
        | cons x xs => simpa [List.getLast?_cons_cons] using hlast
    · refine ⟨[Effect.receivePacket video], r.stats.bytesWritten, ?_, ?_, rfl⟩
      · simp only [h, if_false]
        rfl
      · intro e he
        simp at he
        subst he
        simp [Effect.isFlush]

theorem flushCodec_eq (video : Bool) (ps : List PacketOutcome) (r : VideoRecorder) :
    ∃ L b, r.flushCodec video ps =
        { r with log := r.log ++ L, stats := { r.stats with bytesWritten := b } } ∧
      (∀ e ∈ L, Effect.isFlush video e = true) ∧
      (r.hasCodec video = true →
        L.head? = some (Effect.sendFrame video true) ∧
          L.getLast? = some (Effect.receivePacket video)) ∧
      (r.hasCodec video = false → L = []) := by
  unfold VideoRecorder.flushCodec
  by_cases hc : r.hasCodec video = true
  · obtain ⟨L, b, hL, hflush, hlast⟩ := flushDrain_eq video ps (r.call (Effect.sendFrame video true))
    refine ⟨Effect.sendFrame video true :: L, b, ?_, ?_, ?_, ?_⟩
    · rw [if_pos hc, hL]
      simp [VideoRecorder.call]
    · intro e he
      simp only [List.mem_cons] at he
      rcases he with he | he
      · subst he; simp [Effect.isFlush]
      · exact hflush e he
    · intro _
      refine ⟨rfl, ?_⟩
      cases L with
      | nil => simp at hlast
      | cons x xs => simpa [List.getLast?_cons_cons] using hlast
    · intro h; rw [hc] at h; exact absurd h (by decide)
  · refine ⟨[], r.stats.bytesWritten, ?_, ?_, ?_, ?_⟩
    · rw [if_neg hc]; simp
    · intro e he; simp at he
    · intro h; exact absurd h hc
    · intro _; rfl

theorem haltAndJoin_eq (r : VideoRecorder) :
    r.haltAndJoin =
      { r with
        shouldStop := true
        frameGrabber := r.frameGrabber.stop
        threadJoinable := false
        log := r.log ++ ([Effect.haltSignal, Effect.grabberStop] ++
          if r.threadJoinable then [Effect.threadJoin] else []) } := by
  unfold VideoRecorder.haltAndJoin
  cases h : r.threadJoinable <;> simp [VideoRecorder.call, h]

theorem cleanupCalls_isRelease (r : VideoRecorder) : ∀ e ∈ r.cleanupCalls, e.isRelease = true := by
  intro e he
  unfold VideoRecorder.cleanupCalls at he
  simp only [List.mem_append] at he
  rcases he with ((((((he | he) | he) | he) | he) | he) | he) | he
  all_goals first
    | (split at he <;> simp at he; subst he; rfl)
    | skip
  split at he
  · simp only [List.mem_append, List.mem_singleton] at he
    rcases he with he | he
    · split at he <;> simp at he
      subst he; rfl
    · subst he; rfl
  · simp at he

/-- The whole effect of `stop` on a recorder that is recording. -/
theorem stop_recording_eq (r : VideoRecorder) (o : FlushOutcomes)
    (hs : r.state = RecordingState.Recording) :
    ∃ V A b, r.stop o =
        (Except.ok (),
          { r with
            state := RecordingState.Stopped
            emitted := r.emitted ++ [RecordingState.Stopping, RecordingState.Stopped]
            shouldStop := true
            frameGrabber := r.frameGrabber.stop
            threadJoinable := false
            stats := { r.stats with bytesWritten := b }
            log := r.log ++ ([Effect.haltSignal, Effect.grabberStop] ++
              (if r.threadJoinable then [Effect.threadJoin] else []) ++ V ++ A ++
              (if r.formatCtx.isSome then [Effect.writeTrailer] else []) ++ r.cleanupCalls)
            packet := none
            videoFrame := none
            audioFrame := none
            swsCtx := none
            swrCtx := none
            videoCodecCtx := none
            audioCodecCtx := none
            formatCtx := none
            videoStream := none
            audioStream := none
            videoFrameCount := 0
            audioFrameCount := 0 }) ∧
      (∀ e ∈ V, Effect.isFlush true e = true) ∧
      (∀ e ∈ A, Effect.isFlush false e = true) ∧
      (r.videoCodecCtx.isSome = true →
        V.head? = some (Effect.sendFrame true true) ∧
          V.getLast? = some (Effect.receivePacket true)) ∧
      (r.videoCodecCtx.isSome = false → V = []) ∧
      (r.audioCodecCtx.isSome = true →
        A.head? = some (Effect.sendFrame false true) ∧
          A.getLast? = some (Effect.receivePacket false)) ∧
      (r.audioCodecCtx.isSome = false → A = []) := by
  obtain ⟨V, bv, hV, hVf, hV1, hV0⟩ :=
    flushCodec_eq true o.video.packets (r.setState RecordingState.Stopping).haltAndJoin
  obtain ⟨A, ba, hA, hAf, hA1, hA0⟩ :=
    flushCodec_eq false o.audio.packets
      ((r.setState RecordingState.Stopping).haltAndJoin.flushCodec true o.video.packets)
  have hcv : (r.setState RecordingState.Stopping).haltAndJoin.hasCodec true =
      r.videoCodecCtx.isSome := by
    rw [haltAndJoin_eq]; rfl
  have hca : ((r.setState RecordingState.Stopping).haltAndJoin.flushCodec true
      o.video.packets).hasCodec false = r.audioCodecCtx.isSome := by
    rw [hV, haltAndJoin_eq]; rfl
  rw [hcv] at hV1 hV0
  rw [hca] at hA1 hA0
  refine ⟨V, A, ba, ?_, hVf, hAf, hV1, hV0, hA1, hA0⟩
  · unfold VideoRecorder.stop VideoRecorder.flushEncoders
    rw [if_neg (not_not.mpr hs), hA, hV, haltAndJoin_eq]
    unfold VideoRecorder.writeTrailer
    cases hf : r.formatCtx <;>
      simp [VideoRecorder.setState, VideoRecorder.cleanupFFmpeg, VideoRecorder.cleanupCalls,
        VideoRecorder.call, hf]

theorem stop_of_ne_recording (r : VideoRecorder) (o : FlushOutcomes)
    (hs : r.state ≠ RecordingState.Recording) : r.stop o = (Except.ok (), r) := by
  unfold VideoRecorder.stop
  rw [if_pos hs]

theorem stop_state_ne_recording (r : VideoRecorder) (o : FlushOutcomes) :
    (r.stop o).2.state ≠ RecordingState.Recording := by
  by_cases hs : r.state = RecordingState.Recording
  · obtain ⟨V, A, b, h, _⟩ := stop_recording_eq r o hs
    rw [h]
    simp
  · rw [stop_of_ne_recording r o hs]
    exact hs

/-! ## The state machine -/

theorem chain_append_two {α : Type} {R : α → α → Prop} {s b c : α} (l : List α) (a : α)
    (hc : List.Chain R a l) (hl : (a :: l).getLast? = some s) (hb : R s b) (hbc : R b c) :
    List.Chain R a (l ++ [b, c]) := by
  induction l generalizing a with
  | nil =>
    simp at hl
    subst hl
    exact List.Chain.cons hb (List.Chain.cons hbc List.Chain.nil)
  | cons x xs ih =>
    rw [List.chain_cons] at hc
    rw [List.getLast?_cons_cons] at hl
    exact List.Chain.cons hc.1 (ih x hc.2 hl)

theorem getLast?_append_two {α : Type} (l : List α) (a b c : α) :
    (a :: (l ++ [b, c])).getLast? = some c := by
  rw [← List.cons_append, List.getLast?_append]
  simp

/-- A drain in normal operation only appends calls to the log and only changes the
byte counter. -/
theorem drainPackets_eq (video : Bool) (ps : List PacketOutcome) (r : VideoRecorder) :
    ∃ L b, (r.drainPackets video ps).2 =
      { r with log := r.log ++ L, stats := { r.stats with bytesWritten := b } } := by
  induction ps generalizing r with
  | nil => exact ⟨[Effect.receivePacket video], r.stats.bytesWritten, rfl⟩
  | cons p rest ih =>
    unfold VideoRecorder.drainPackets
    simp only
    split
    · exact ⟨[Effect.receivePacket video], r.stats.bytesWritten, rfl⟩
    · split
      · exact ⟨[Effect.receivePacket video], r.stats.bytesWritten, rfl⟩
      · obtain ⟨b, hb⟩ := writePacket_eq (r.call (Effect.receivePacket video)) video p
        cases hw : ((r.call (Effect.receivePacket video)).writePacket video p).1 with
        | false =>
          have : (r.call (Effect.receivePacket video)).writePacket video p =
              (false, ((r.call (Effect.receivePacket video)).writePacket video p).2) := by
            rw [← hw]
          rw [this]
          simp only
          rw [hb]
          exact ⟨[Effect.receivePacket video, Effect.writeFrame video], b,
            by simp [VideoRecorder.call]⟩
        | true =>
          have : (r.call (Effect.receivePacket video)).writePacket video p =
              (true, ((r.call (Effect.receivePacket video)).writePacket video p).2) := by
            rw [← hw]
          rw [this]
          simp only
          obtain ⟨L, b2, hL⟩ := ih ((r.call (Effect.receivePacket video)).writePacket video p).2
          rw [hL, hb]
          exact ⟨Effect.receivePacket video :: Effect.writeFrame video :: L, b2,
            by simp [VideoRecorder.call]⟩

theorem drainPackets_state (video : Bool) (ps : List PacketOutcome) (r : VideoRecorder) :
    (r.drainPackets video ps).2.state = r.state ∧
      (r.drainPackets video ps).2.emitted = r.emitted := by
  obtain ⟨L, b, h⟩ := drainPackets_eq video ps r
  rw [h]
  exact ⟨rfl, rfl⟩

theorem encodeVideoFrame_state (r : VideoRecorder) (o : EncodeOutcomes) :
    (r.encodeVideoFrame o).2.state = r.state ∧ (r.encodeVideoFrame o).2.emitted = r.emitted := by
  unfold VideoRecorder.encodeVideoFrame
  simp only
  split
  · exact ⟨rfl, rfl⟩
  · exact drainPackets_state true o.packets _

theorem processVideoFrame_state (r : VideoRecorder) (frame : GrabbedFrame) (o : EncodeOutcomes) :
    (r.processVideoFrame frame o).state = r.state ∧
      (r.processVideoFrame frame o).emitted = r.emitted := by
  unfold VideoRecorder.processVideoFrame
  split
  · rename_i ctx vf hctx hvf
    have h := encodeVideoFrame_state (r.stampVideoFrame vf) o
    split
    · exact ⟨h.1, h.2⟩
    · exact ⟨h.1, h.2⟩
  · exact ⟨rfl, rfl⟩

theorem submitVideoFrame_state (r : VideoRecorder) (data : List Nat) (width height : Nat)
    (timestamp : Int) (o : EncodeOutcomes) :
    (r.submitVideoFrame data width height timestamp o).state = r.state ∧
      (r.submitVideoFrame data width height timestamp o).emitted = r.emitted := by
  unfold VideoRecorder.submitVideoFrame
  split
  · exact ⟨rfl, rfl⟩
  · exact processVideoFrame_state r _ o

theorem submitAudioSamples_state (r : VideoRecorder) (data : List Nat)
    (samples channels sampleRate : Nat) :
    (r.submitAudioSamples data samples channels sampleRate).state = r.state ∧
      (r.submitAudioSamples data samples channels sampleRate).emitted = r.emitted := by
  unfold VideoRecorder.submitAudioSamples
  split
  · exact ⟨rfl, rfl⟩
  · split <;> exact ⟨rfl, rfl⟩

/-- What one call can do to the state and to the emitted events: nothing, or one
of the three two-step passages of `start` and `stop`. -/
theorem step_cases (r : VideoRecorder) (op : Op) :
    ((r.step op).state = r.state ∧ (r.step op).emitted = r.emitted) ∨
      (r.state = RecordingState.Stopped ∧ (r.step op).state = RecordingState.Recording ∧
        (r.step op).emitted = r.emitted ++ [RecordingState.Starting, RecordingState.Recording]) ∨
      (r.state = RecordingState.Stopped ∧ (r.step op).state = RecordingState.Error ∧
        (r.step op).emitted = r.emitted ++ [RecordingState.Starting, RecordingState.Error]) ∨
      (r.state = RecordingState.Recording ∧ (r.step op).state = RecordingState.Stopped ∧
        (r.step op).emitted = r.emitted ++ [RecordingState.Stopping, RecordingState.Stopped]) := by
  cases op with
  | start settings o =>
    simp only [VideoRecorder.step]
    by_cases hs : r.state = RecordingState.Stopped
    · cases hv : settings.validate with
      | error e =>
        rw [start_of_invalid r settings o e hs hv]
        exact Or.inl ⟨rfl, rfl⟩
      | ok u =>
        cases ho : o.succeeds with
        | true =>
          obtain ⟨_, h2, h3, _⟩ := start_success r settings o hs hv ho
          exact Or.inr (Or.inl ⟨hs, h3, h2⟩)
        | false =>
          obtain ⟨e, _, _, h2, h3, _, _⟩ := start_failure r settings o hs hv ho
          exact Or.inr (Or.inr (Or.inl ⟨hs, h3, h2⟩))
    · rw [start_of_ne_stopped r settings o hs]
      exact Or.inl ⟨rfl, rfl⟩
  | stop o =>
    simp only [VideoRecorder.step]
    by_cases hs : r.state = RecordingState.Recording
    · obtain ⟨V, A, b, h, _⟩ := stop_recording_eq r o hs
      rw [h]
      exact Or.inr (Or.inr (Or.inr ⟨hs, rfl, rfl⟩))
    · rw [stop_of_ne_recording r o hs]
      exact Or.inl ⟨rfl, rfl⟩
  | submitVideoFrame data width height timestamp o =>
    exact Or.inl (submitVideoFrame_state r data width height timestamp o)
  | submitAudioSamples data samples channels sampleRate =>
    exact Or.inl (submitAudioSamples_state r data samples channels sampleRate)

/-- The sequence of states a recorder has gone through, from a first state `s0`,
stays linear under every sequence of calls. -/
theorem run_linear (s0 : RecordingState) (ops : List Op) (r : VideoRecorder)
    (hc : List.Chain allowedTransition s0 r.emitted)
    (hl : (s0 :: r.emitted).getLast? = some r.state) :
    List.Chain allowedTransition s0 (r.run ops).emitted ∧
      (s0 :: (r.run ops).emitted).getLast? = some (r.run ops).state := by
  induction ops generalizing r with
  | nil => exact ⟨hc, hl⟩
  | cons op rest ih =>
    show List.Chain allowedTransition s0 ((r.step op).run rest).emitted ∧ _
    apply ih
    · rcases step_cases r op with h | h | h | h
      · rw [h.2]; exact hc
      · rw [h.2.2]
        rw [h.1] at hl
        exact chain_append_two _ _ hc hl (by simp [allowedTransition]) (by simp [allowedTransition])
      · rw [h.2.2]
        rw [h.1] at hl
        exact chain_append_two _ _ hc hl (by simp [allowedTransition]) (by simp [allowedTransition])
      · rw [h.2.2]
        rw [h.1] at hl
        exact chain_append_two _ _ hc hl (by simp [allowedTransition]) (by simp [allowedTransition])
    · rcases step_cases r op with h | h | h | h
      · rw [h.2, h.1]; exact hl
      · rw [h.2.2, h.2.1]; exact getLast?_append_two _ _ _ _
      · rw [h.2.2, h.2.1]; exact getLast?_append_two _ _ _ _
      · rw [h.2.2, h.2.1]; exact getLast?_append_two _ _ _ _

/-- C9: in every run that starts in Stopped and applies any sequence of `start`,
`stop`, `submitVideoFrame` and `submitAudioSamples` calls with any outcomes of the
fallible steps, the states the recorder goes through (Stopped followed by the
states it emits, the last one being its current state) change only by
Stopped->Starting, Starting->Recording, Starting->Error, Recording->Error,
Recording->Stopping or Stopping->Stopped. -/
theorem state_changes_linear (r : VideoRecorder) (ops : List Op)
    (hs : r.state = RecordingState.Stopped) (he : r.emitted = []) :
    List.Chain allowedTransition RecordingState.Stopped (r.run ops).emitted ∧
      (RecordingState.Stopped :: (r.run ops).emitted).getLast? = some (r.run ops).state :=
  run_linear RecordingState.Stopped ops r (by rw [he]; exact List.Chain.nil)
    (by rw [he, hs]; rfl)

/-- A run of a freshly constructed recorder: a successful start, a video frame, a
stop, and a start whose packet allocation fails. -/
theorem state_changes_linear_witness :
    (({} : VideoRecorder).run
        [Op.start {} {}, Op.submitVideoFrame [] 0 0 0 {}, Op.stop {},
          Op.start {} { packetAllocated := false }]).emitted =
        [RecordingState.Starting, RecordingState.Recording, RecordingState.Stopping,
          RecordingState.Stopped, RecordingState.Starting, RecordingState.Error] ∧
      List.Chain allowedTransition RecordingState.Stopped
        (({} : VideoRecorder).run
          [Op.start {} {}, Op.submitVideoFrame [] 0 0 0 {}, Op.stop {},
            Op.start {} { packetAllocated := false }]).emitted :=
  ⟨rfl,
    (state_changes_linear {}
      [Op.start {} {}, Op.submitVideoFrame [] 0 0 0 {}, Op.stop {},
        Op.start {} { packetAllocated := false }] rfl rfl).1⟩

/-- In the code no call of the public interface leaves state Error: `stop` and the
two submissions do nothing there, and `start` is refused. -/
theorem error_is_absorbing (r : VideoRecorder) (op : Op)
    (hs : r.state = RecordingState.Error) : (r.step op).state = RecordingState.Error := by
  rcases step_cases r op with h | h | h | h
  · rw [h.1, hs]
  · rw [hs] at h; exact absurd h.1 (by decide)
  · rw [hs] at h; exact absurd h.1 (by decide)
  · rw [hs] at h; exact absurd h.1 (by decide)

/-- C10, the code at the failing input: a recorder is brought into state Error by a
start whose header write fails; a fresh `start` with a configuration that
`validate()` accepts and a set-up in which every step would succeed is refused
with "Recording already in progress", makes no call, and the state stays Error. -/
theorem start_in_error_is_refused :
    (({} : VideoRecorder).start {} { writeHeaderRet := -1 }).2.state = RecordingState.Error ∧
      ({} : EncoderSettings).validate = Except.ok () ∧
      ({} : InitOutcomes).succeeds = true ∧
      ((({} : VideoRecorder).start {} { writeHeaderRet := -1 }).2.start {} {}).1 =
        Except.error "Recording already in progress" ∧
      ((({} : VideoRecorder).start {} { writeHeaderRet := -1 }).2.start {} {}).2 =
        (({} : VideoRecorder).start {} { writeHeaderRet := -1 }).2 ∧
      ((({} : VideoRecorder).start {} { writeHeaderRet := -1 }).2.start {} {}).2.state =
        RecordingState.Error :=
  ⟨rfl, rfl, rfl, rfl, rfl, rfl⟩

/-! ## Handles of a recording recorder -/

theorem andThen_of_ok (x : Outcome) (f : VideoRecorder → Outcome) (h : x.1 = Except.ok ()) :
    andThen x f = f x.2 := by
  unfold andThen
  rw [h]

theorem libCall_snd (r : VideoRecorder) (e : Effect) (upd : VideoRecorder → VideoRecorder)
    (failed : Bool) (msg : String) : (r.libCall e upd failed msg).2 = upd (r.call e) := rfl

theorem libCall_videoCodecCtx (r : VideoRecorder) (e : Effect) (upd : VideoRecorder → VideoRecorder)
    (failed : Bool) (msg : String)
    (hu : ∀ r1 : VideoRecorder, (upd r1).videoCodecCtx = r1.videoCodecCtx) :
    (r.libCall e upd failed msg).2.videoCodecCtx = r.videoCodecCtx :=
  (hu (r.call e)).trans rfl

theorem andThen_videoCodecCtx (r : VideoRecorder) (x : Outcome) (f : VideoRecorder → Outcome)
    (hx : x.2.videoCodecCtx = r.videoCodecCtx)
    (hf : ∀ r1 : VideoRecorder, (f r1).2.videoCodecCtx = r1.videoCodecCtx) :
    (andThen x f).2.videoCodecCtx = r.videoCodecCtx := by
  unfold andThen
  cases h : x.1 with
  | error e => exact hx
  | ok u => exact (hf x.2).trans hx

theorem initAudioStream_videoCodecCtx (r : VideoRecorder) (o : InitOutcomes) :
    (r.initAudioStream o).2.videoCodecCtx = r.videoCodecCtx := by
  unfold VideoRecorder.initAudioStream
  split
  · rfl
  · repeat' first
      | apply andThen_videoCodecCtx
      | apply libCall_videoCodecCtx
      | intro r1
      | (split <;> rfl)
      | rfl

theorem openOutput_handles (r : VideoRecorder) (o : InitOutcomes) :
    (r.openOutput o).2.videoCodecCtx = r.videoCodecCtx ∧
      (r.openOutput o).2.formatCtx.isSome = r.formatCtx.isSome := by
  unfold VideoRecorder.openOutput
  split
  · rename_i fmt hfmt
    split
    · exact ⟨rfl, rfl⟩
    · exact ⟨rfl, by rw [hfmt]; rfl⟩
  · exact ⟨rfl, rfl⟩

theorem initVideoStream_ok_ctx (r : VideoRecorder) (o : InitOutcomes) (h : o.videoOk = true) :
    (r.initVideoStream o).2.videoCodecCtx.isSome = true := by
  unfold InitOutcomes.videoOk at h
  simp only [Bool.and_eq_true, decide_eq_true_eq] at h
  obtain ⟨⟨⟨⟨⟨⟨⟨h1, h2⟩, h3⟩, h4⟩, h5⟩, h6⟩, h7⟩, h8⟩ := h
  have h4' : ¬ o.videoOpenRet < 0 := by omega
  have h5' : ¬ o.videoParamsRet < 0 := by omega
  have h7' : ¬ o.videoFrameBufferRet < 0 := by omega
  unfold VideoRecorder.initVideoStream
  simp [andThen, VideoRecorder.libCall, h1, h2, h3, h4', h5', h6, h7', h8, VideoRecorder.call]

/-- After a successful set-up the format context and the video codec context are set. -/
theorem initFFmpeg_ok_handles (r : VideoRecorder) (o : InitOutcomes)
    (h : (r.initFFmpeg o).1 = Except.ok ()) :
    (r.initFFmpeg o).2.formatCtx.isSome = true ∧
      (r.initFFmpeg o).2.videoCodecCtx.isSome = true := by
  unfold VideoRecorder.initFFmpeg at h ⊢
  rw [andThen_ok_iff, libCall_ok_iff] at h
  obtain ⟨ha, hs⟩ := h
  rw [andThen_of_ok _ _ ((libCall_ok_iff _ _ _ _ _).mpr ha)]
  simp only [Bool.or_eq_false_iff] at ha
  generalize hr1 : (r.libCall (Effect.allocOutputContext r.settings.outputPath)
    (fun r => { r with formatCtx := o.allocOutputCtx })
    (decide (o.allocOutputRet < 0) || o.allocOutputCtx.isNone)
    ("Failed to create output context: " ++ o.strerror o.allocOutputRet)).2 = r1 at hs ⊢
  have hf1 : r1.formatCtx.isSome = true := by
    rw [← hr1]
    show o.allocOutputCtx.isSome = true
    cases hc : o.allocOutputCtx with
    | none => rw [hc] at ha; simp at ha
    | some f => rfl
  unfold VideoRecorder.initStreams at hs ⊢
  simp only [andThen_ok_iff] at hs
  obtain ⟨hv, hau, hop, hh, _⟩ := hs
  rw [andThen_of_ok _ _ hv, andThen_of_ok _ _ hau, andThen_of_ok _ _ hop, andThen_of_ok _ _ hh]
  refine ⟨?_, ?_⟩
  · simp only [libCall_snd, id, call_formatCtx]
    rw [(openOutput_handles _ o).2, initAudioStream_formatCtx, initVideoStream_formatCtx]
    exact hf1
  · simp only [libCall_snd, id, call_videoCodecCtx]
    rw [(openOutput_handles _ o).1, initAudioStream_videoCodecCtx]
    exact initVideoStream_ok_ctx r1 o ((initVideoStream_ok_iff r1 o).mp hv)

theorem processVideoFrame_handles (r : VideoRecorder) (frame : GrabbedFrame) (o : EncodeOutcomes) :
    (r.processVideoFrame frame o).threadJoinable = r.threadJoinable ∧
      (r.processVideoFrame frame o).formatCtx = r.formatCtx ∧
      (r.processVideoFrame frame o).videoCodecCtx = r.videoCodecCtx := by
  unfold VideoRecorder.processVideoFrame
  split
  · rename_i ctx vf hctx hvf
    have h : ((r.stampVideoFrame vf).encodeVideoFrame o).2.threadJoinable = r.threadJoinable ∧
        ((r.stampVideoFrame vf).encodeVideoFrame o).2.formatCtx = r.formatCtx ∧
        ((r.stampVideoFrame vf).encodeVideoFrame o).2.videoCodecCtx = r.videoCodecCtx := by
      unfold VideoRecorder.encodeVideoFrame
      simp only
      split
      · exact ⟨rfl, rfl, rfl⟩
      · obtain ⟨L, b, hL⟩ := drainPackets_eq true o.packets
          ((r.stampVideoFrame vf).call (Effect.sendFrame true false))
        rw [hL]
        exact ⟨rfl, rfl, rfl⟩
    split
    · exact h
    · exact h
  · exact ⟨rfl, rfl, rfl⟩

/-- While a recorder is recording, its encode thread is joinable and its format
context and video codec context are set; every call preserves this. -/
theorem step_recording_handles (r : VideoRecorder) (op : Op)
    (hi : r.state = RecordingState.Recording →
      r.threadJoinable = true ∧ r.formatCtx.isSome = true ∧ r.videoCodecCtx.isSome = true) :
    (r.step op).state = RecordingState.Recording →
      (r.step op).threadJoinable = true ∧ (r.step op).formatCtx.isSome = true ∧
        (r.step op).videoCodecCtx.isSome = true := by
  cases op with
  | start settings o =>
    simp only [VideoRecorder.step]
    by_cases hs : r.state = RecordingState.Stopped
    · cases hv : settings.validate with
      | error e =>
        rw [start_of_invalid r settings o e hs hv]
        exact hi
      | ok u =>
        cases hinit : ((r.beginStart settings).initFFmpeg o).1 with
        | error e =>
          rw [start_of_init_error r settings o e hs hv hinit]
          intro h
          exact absurd h (by simp [VideoRecorder.setState])
        | ok u =>
          rw [start_of_init_ok r settings o hs hv hinit]
          intro _
          obtain ⟨hf, hc⟩ := initFFmpeg_ok_handles (r.beginStart settings) o hinit
          exact ⟨rfl, hf, hc⟩
    · rw [start_of_ne_stopped r settings o hs]
      exact hi
  | stop o =>
    simp only [VideoRecorder.step]
    intro h
    exact absurd h (stop_state_ne_recording r o)
  | submitVideoFrame data width height timestamp o =>
    simp only [VideoRecorder.step]
    intro h
    have hst := (submitVideoFrame_state r data width height timestamp o).1
    rw [hst] at h
    unfold VideoRecorder.submitVideoFrame
    rw [if_neg (not_not.mpr h)]
    obtain ⟨h1, h2, h3⟩ := processVideoFrame_handles r
      { width := width, height := height, timestamp := timestamp,
        data := data.take ((width * height * 4) % 2 ^ 32) } o
    rw [h1, h2, h3]
    exact hi h
  | submitAudioSamples data samples channels sampleRate =>
    simp only [VideoRecorder.step]
    intro h
    have hst := (submitAudioSamples_state r data samples channels sampleRate).1
    rw [hst] at h
    unfold VideoRecorder.submitAudioSamples
    rw [if_neg (not_not.mpr h)]
    split
    · exact hi h
    · exact hi h

theorem run_recording_handles (ops : List Op) (r : VideoRecorder)
    (hi : r.state = RecordingState.Recording →
      r.threadJoinable = true ∧ r.formatCtx.isSome = true ∧ r.videoCodecCtx.isSome = true) :
    (r.run ops).state = RecordingState.Recording →
      (r.run ops).threadJoinable = true ∧ (r.run ops).formatCtx.isSome = true ∧
        (r.run ops).videoCodecCtx.isSome = true := by
  induction ops generalizing r with
  | nil => exact hi
  | cons op rest ih => exact ih (r.step op) (step_recording_handles r op hi)

/-! ## The contract of `stop` -/

/-- C7: in every state other than Recording (in particular Stopped), `stop()`
returns success and changes nothing: state, statistics, settings and handles are
as before, no state-change event is emitted and no external call is made.
Consequently a second `stop()` right after a first one, from any state, returns
success and leaves the recorder as the first call left it. -/
theorem stop_noop_unless_recording (r : VideoRecorder) (o o2 : FlushOutcomes) :
    (r.state ≠ RecordingState.Recording → r.stop o = (Except.ok (), r)) ∧
      (r.stop o).1 = Except.ok () ∧
      (r.stop o).2.stop o2 = (Except.ok (), (r.stop o).2) := by
  refine ⟨stop_of_ne_recording r o, ?_, stop_of_ne_recording _ o2 (stop_state_ne_recording r o)⟩
  unfold VideoRecorder.stop
  split <;> rfl

/-- A freshly constructed recorder (state Stopped) is stopped: nothing happens, and
stopping a recording recorder twice is the same as stopping it once. -/
theorem stop_noop_unless_recording_witness :
    ({} : VideoRecorder).stop {} = (Except.ok (), {}) ∧
      (({ state := RecordingState.Recording } : VideoRecorder).stop {}).2.stop {} =
        (Except.ok (), (({ state := RecordingState.Recording } : VideoRecorder).stop {}).2) :=
  ⟨(stop_noop_unless_recording {} {} {}).1 (by decide),
    (stop_noop_unless_recording { state := RecordingState.Recording } {} {}).2.2⟩

/-- C8: from state Recording, `stop()` returns success, emits exactly Stopping and
then Stopped, ends in state Stopped, and the calls it makes are, in this order:
the halt signal for the encode thread and the stop of the frame grabber, the join
of the thread, the flush of the video encoder `V` (from the end-of-stream frame to
the drain that finds no more packets), the flush of the audio encoder `A`
(likewise), the container trailer, and only then the release calls of
`cleanupFFmpeg`, after which every handle is null; so every flush call precedes
the trailer.  Each part is guarded as in the source: the join by `joinable()`, a
flush by the existence of its codec context, the trailer by the existence of the
format context.  In a recorder reached from a freshly constructed one through
calls of the public interface the thread is joinable and the format context and
the video codec context exist, so these parts do take place there. -/
theorem stop_finalises_in_order (r : VideoRecorder) (o : FlushOutcomes)
    (hs : r.state = RecordingState.Recording) :
    ∃ V A, (r.stop o).1 = Except.ok () ∧
      (r.stop o).2.emitted = r.emitted ++ [RecordingState.Stopping, RecordingState.Stopped] ∧
      (r.stop o).2.state = RecordingState.Stopped ∧
      (r.stop o).2.log =
        r.log ++ ([Effect.haltSignal, Effect.grabberStop] ++
          (if r.threadJoinable then [Effect.threadJoin] else []) ++ V ++ A ++
          (if r.formatCtx.isSome then [Effect.writeTrailer] else []) ++ r.cleanupCalls) ∧
      (∀ e ∈ V, Effect.isFlush true e = true) ∧
      (∀ e ∈ A, Effect.isFlush false e = true) ∧
      (r.videoCodecCtx.isSome = true →
        V.head? = some (Effect.sendFrame true true) ∧
          V.getLast? = some (Effect.receivePacket true)) ∧
      (r.audioCodecCtx.isSome = true →
        A.head? = some (Effect.sendFrame false true) ∧
          A.getLast? = some (Effect.receivePacket false)) ∧
      (∀ e ∈ r.cleanupCalls, e.isRelease = true) ∧
      (r.stop o).2.released ∧
      (∀ ops : List Op, r = ({} : VideoRecorder).run ops →
        r.threadJoinable = true ∧ r.formatCtx.isSome = true ∧
          r.videoCodecCtx.isSome = true) := by
  obtain ⟨V, A, b, h, hVf, hAf, hV1, _, hA1, _⟩ := stop_recording_eq r o hs
  refine ⟨V, A, ?_, ?_, ?_, ?_, hVf, hAf, hV1, hA1, cleanupCalls_isRelease r, ?_, ?_⟩
  · rw [h]
  · rw [h]
  · rw [h]
  · rw [h]
  · rw [h]
    exact ⟨rfl, rfl, rfl, rfl, rfl, rfl, rfl, rfl, rfl, rfl, rfl, rfl⟩
  · intro ops hr
    rw [hr] at hs ⊢
    exact run_recording_handles ops {} (fun h0 => absurd h0 (by decide)) hs

/-- A recorder started with the default settings is stopped while the video codec
still holds one packet: the calls of `stop` are the halt signal, the grabber stop,
the join, the video flush, the audio flush, the trailer and the releases. -/
theorem stop_finalises_in_order_witness :
    (({} : VideoRecorder).start {} {}).2.state = RecordingState.Recording ∧
      ((({} : VideoRecorder).start {} {}).2.stop { video := { packets := [{ size := 10 }] } }).2.log =
        (({} : VideoRecorder).start {} {}).2.log ++
          [Effect.haltSignal, Effect.grabberStop, Effect.threadJoin,
            Effect.sendFrame true true, Effect.receivePacket true, Effect.writeFrame true,
            Effect.receivePacket true,
            Effect.sendFrame false true, Effect.receivePacket false,
            Effect.writeTrailer,
            Effect.packetFree, Effect.frameFree true, Effect.frameFree false, Effect.swsFree,
            Effect.swrFree, Effect.codecFree true, Effect.codecFree false, Effect.avioClose,
            Effect.formatFree] ∧
      ((({} : VideoRecorder).start {} {}).2.stop { video := { packets := [{ size := 10 }] } }).2.state =
        RecordingState.Stopped :=
  have h := stop_finalises_in_order (({} : VideoRecorder).start {} {}).2
    { video := { packets := [{ size := 10 }] } } rfl
  ⟨rfl, rfl, h.choose_spec.choose_spec.2.2.1⟩

/-! ## What the set-up keeps -/

theorem libCall_keeps {α : Type} (π : VideoRecorder → α) (r : VideoRecorder) (e : Effect)
    (upd : VideoRecorder → VideoRecorder) (failed : Bool) (msg : String)
    (hc : ∀ r1 : VideoRecorder, π (r1.call e) = π r1)
    (hu : ∀ r1 : VideoRecorder, π (upd r1) = π r1) :
    π (r.libCall e upd failed msg).2 = π r :=
  (hu (r.call e)).trans (hc r)

theorem andThen_keeps {α : Type} (π : VideoRecorder → α) (r : VideoRecorder) (x : Outcome)
    (f : VideoRecorder → Outcome) (hx : π x.2 = π r)
    (hf : ∀ r1 : VideoRecorder, π (f r1).2 = π r1) : π (andThen x f).2 = π r := by
  unfold andThen
  cases h : x.1 with
  | error e => exact hx
  | ok u => exact (hf x.2).trans hx

/-- The two timestamp counters are not touched by the set-up. -/
theorem initFFmpeg_counters (r : VideoRecorder) (o : InitOutcomes) :
    (r.initFFmpeg o).2.videoFrameCount = r.videoFrameCount ∧
      (r.initFFmpeg o).2.audioFrameCount = r.audioFrameCount := by
  constructor
  · unfold VideoRecorder.initFFmpeg VideoRecorder.initStreams VideoRecorder.initVideoStream
      VideoRecorder.initAudioStream VideoRecorder.openOutput
    repeat' first
      | apply andThen_keeps (fun r => r.videoFrameCount)
      | apply libCall_keeps (fun r => r.videoFrameCount)
      | intro r1
      | (split <;> rfl)
      | rfl
      | split
  · unfold VideoRecorder.initFFmpeg VideoRecorder.initStreams VideoRecorder.initVideoStream
      VideoRecorder.initAudioStream VideoRecorder.openOutput
    repeat' first
      | apply andThen_keeps (fun r => r.audioFrameCount)
      | apply libCall_keeps (fun r => r.audioFrameCount)
      | intro r1
      | (split <;> rfl)
      | rfl
      | split

theorem initVideoStream_ok_frame (r : VideoRecorder) (o : InitOutcomes) (h : o.videoOk = true) :
    (r.initVideoStream o).2.videoFrame.isSome = true := by
  unfold InitOutcomes.videoOk at h
  simp only [Bool.and_eq_true, decide_eq_true_eq] at h
  obtain ⟨⟨⟨⟨⟨⟨⟨h1, h2⟩, h3⟩, h4⟩, h5⟩, h6⟩, h7⟩, h8⟩ := h
  have h4' : ¬ o.videoOpenRet < 0 := by omega
  have h5' : ¬ o.videoParamsRet < 0 := by omega
  have h7' : ¬ o.videoFrameBufferRet < 0 := by omega
  unfold VideoRecorder.initVideoStream
  simp [andThen, VideoRecorder.libCall, h1, h2, h3, h4', h5', h6, h7', h8, VideoRecorder.call]

theorem initAudioStream_videoFrame (r : VideoRecorder) (o : InitOutcomes) :
    (r.initAudioStream o).2.videoFrame = r.videoFrame := by
  unfold VideoRecorder.initAudioStream
  split
  · rfl
  · repeat' first
      | apply andThen_keeps (fun r => r.videoFrame)
      | apply libCall_keeps (fun r => r.videoFrame)
      | intro r1
      | (split <;> rfl)
      | rfl

theorem openOutput_videoFrame (r : VideoRecorder) (o : InitOutcomes) :
    (r.openOutput o).2.videoFrame = r.videoFrame := by
  unfold VideoRecorder.openOutput
  split
  · split <;> rfl
  · rfl

/-- After a successful set-up the reusable video frame is set. -/
theorem initFFmpeg_ok_videoFrame (r : VideoRecorder) (o : InitOutcomes)
    (h : (r.initFFmpeg o).1 = Except.ok ()) :
    (r.initFFmpeg o).2.videoFrame.isSome = true := by
  unfold VideoRecorder.initFFmpeg at h ⊢
  rw [andThen_ok_iff, libCall_ok_iff] at h
  obtain ⟨ha, hs⟩ := h
  rw [andThen_of_ok _ _ ((libCall_ok_iff _ _ _ _ _).mpr ha)]
  generalize (r.libCall (Effect.allocOutputContext r.settings.outputPath)
    (fun r => { r with formatCtx := o.allocOutputCtx })
    (decide (o.allocOutputRet < 0) || o.allocOutputCtx.isNone)
    ("Failed to create output context: " ++ o.strerror o.allocOutputRet)).2 = r1 at hs ⊢
  unfold VideoRecorder.initStreams at hs ⊢
  simp only [andThen_ok_iff] at hs
  obtain ⟨hv, hau, hop, hh, _⟩ := hs
  rw [andThen_of_ok _ _ hv, andThen_of_ok _ _ hau, andThen_of_ok _ _ hop, andThen_of_ok _ _ hh]
  simp only [libCall_snd, id]
  show ((((r1.initVideoStream o).2.initAudioStream o).2.openOutput o).2).videoFrame.isSome = true
  rw [openOutput_videoFrame, initAudioStream_videoFrame]
  exact initVideoStream_ok_frame r1 o ((initVideoStream_ok_iff r1 o).mp hv)

/-- The recorder at the beginning of a session: after a `start` that succeeds the
state is Recording, the video codec context and the reusable video frame are set,
the statistics are reset and the two timestamp counters are as before the call. -/
theorem start_session (r : VideoRecorder) (settings : EncoderSettings) (o : InitOutcomes)
    (hs : r.state = RecordingState.Stopped) (hv : settings.validate = Except.ok ())
    (ho : o.succeeds = true) :
    (r.start settings o).2.state = RecordingState.Recording ∧
      (r.start settings o).2.videoCodecCtx.isSome = true ∧
      (r.start settings o).2.videoFrame.isSome = true ∧
      (r.start settings o).2.stats = { currentFile := settings.outputPath } ∧
      (r.start settings o).2.videoFrameCount = r.videoFrameCount ∧
      (r.start settings o).2.audioFrameCount = r.audioFrameCount := by
  have hi := (initFFmpeg_ok_iff (r.beginStart settings) o).mpr ho
  obtain ⟨_, _, h3, h4⟩ := start_success r settings o hs hv ho
  obtain ⟨_, hc⟩ := initFFmpeg_ok_handles (r.beginStart settings) o hi
  have hf := initFFmpeg_ok_videoFrame (r.beginStart settings) o hi
  obtain ⟨hvc, hac⟩ := initFFmpeg_counters (r.beginStart settings) o
  refine ⟨h3, ?_, ?_, h4, ?_, ?_⟩
  · rw [start_of_init_ok r settings o hs hv hi]; exact hc
  · rw [start_of_init_ok r settings o hs hv hi]; exact hf
  · rw [start_of_init_ok r settings o hs hv hi]; exact hvc
  · rw [start_of_init_ok r settings o hs hv hi]; exact hac

/-! ## The audio accumulator: submissions -/

theorem submitAudioSamples_eq (r : VideoRecorder) (data : List Nat) (n c rate : Nat)
    (hs : r.state = RecordingState.Recording) (ha : r.audioStream.isSome = true) :
    r.submitAudioSamples data n c rate =
      { r with audioSampleRate := rate
               audioChannels := c
               audioBuffer := r.audioBuffer ++ data.take ((n * c) % 2 ^ 32) } := by
  unfold VideoRecorder.submitAudioSamples
  have ha2 : r.audioStream.isNone = false := by
    cases h : r.audioStream with
    | none => rw [h] at ha; exact absurd ha (by decide)
    | some s => rfl
  simp [hs, ha2]

theorem submitAudioSamples_skip (r : VideoRecorder) (data : List Nat) (n c rate : Nat)
    (h : r.state ≠ RecordingState.Recording ∨ r.audioStream = none) :
    r.submitAudioSamples data n c rate = r := by
  unfold VideoRecorder.submitAudioSamples
  rcases h with h | h
  · simp [h]
  · simp [h]

/-- C14, as stated, fails: a recorder started with the default settings (it has an
audio stream) is handed `2^32` floats as `n = 2^31` samples of `c = 2` channels;
the `u32` product `n * c` is 0, so nothing is appended. -/
theorem submitAudioSamples_size_wraps :
    (({} : VideoRecorder).start {} {}).2.state = RecordingState.Recording ∧
      (({} : VideoRecorder).start {} {}).2.audioStream.isSome = true ∧
      (List.replicate (2 ^ 31 * 2) 7).length = 2 ^ 31 * 2 ∧
      ((({} : VideoRecorder).start {} {}).2.submitAudioSamples
        (List.replicate (2 ^ 31 * 2) 7) (2 ^ 31) 2 48000).audioBuffer =
          (({} : VideoRecorder).start {} {}).2.audioBuffer ∧
      ((({} : VideoRecorder).start {} {}).2.submitAudioSamples
        (List.replicate (2 ^ 31 * 2) 7) (2 ^ 31) 2 48000).audioBuffer ≠
          (({} : VideoRecorder).start {} {}).2.audioBuffer ++ List.replicate (2 ^ 31 * 2) 7 := by
  have hs : (({} : VideoRecorder).start {} {}).2.state = RecordingState.Recording := rfl
  have ha : (({} : VideoRecorder).start {} {}).2.audioStream.isSome = true := rfl
  have hb : (({} : VideoRecorder).start {} {}).2.audioBuffer = [] := rfl
  have e : (2 ^ 31 * 2) % 2 ^ 32 = 0 := by norm_num
  have h := submitAudioSamples_eq (({} : VideoRecorder).start {} {}).2
    (List.replicate (2 ^ 31 * 2) 7) (2 ^ 31) 2 48000 hs ha
  rw [e, List.take_zero, List.append_nil] at h
  refine ⟨hs, ha, List.length_replicate _ _, ?_, ?_⟩
  · rw [h]
  · rw [h, hb]
    intro hc
    have hl := congrArg List.length hc
    rw [List.nil_append, List.length_replicate] at hl
    simp at hl

/-- C14, amended: in state Recording with an audio stream present,
`submitAudioSamples(data, n, c, r)` appends the first `(n * c) mod 2^32` floats of
`data` (the count is a `u32` product), in order, to the end of the accumulator,
leaves the floats accumulated before unchanged, records `c` and `r` as the active
channel count and sample rate, and changes nothing else; when `data` holds
`n * c` floats and `n * c < 2^32`, what is appended is all of `data`.  In any
other state, or when no audio stream exists, the recorder is unchanged. -/
theorem submitAudioSamples_effect (r : VideoRecorder) (data : List Nat) (n c rate : Nat) :
    (r.state = RecordingState.Recording → r.audioStream.isSome = true →
      r.submitAudioSamples data n c rate =
          { r with audioSampleRate := rate
                   audioChannels := c
                   audioBuffer := r.audioBuffer ++ data.take ((n * c) % 2 ^ 32) } ∧
        (data.length = n * c → n * c < 2 ^ 32 →
          (r.submitAudioSamples data n c rate).audioBuffer = r.audioBuffer ++ data ∧
            (r.submitAudioSamples data n c rate).audioChannels = c ∧
            (r.submitAudioSamples data n c rate).audioSampleRate = rate)) ∧
      (r.state ≠ RecordingState.Recording ∨ r.audioStream = none →
        r.submitAudioSamples data n c rate = r) := by
  refine ⟨fun hs ha => ⟨submitAudioSamples_eq r data n c rate hs ha, fun hl hlt => ?_⟩,
    submitAudioSamples_skip r data n c rate⟩
  rw [submitAudioSamples_eq r data n c rate hs ha, Nat.mod_eq_of_lt hlt, ← hl, List.take_length]
  exact ⟨rfl, rfl, rfl⟩

/-- A recorder started with the default settings holds three floats and is handed
two samples of two channels at 44100 Hz: the four floats follow the three. -/
theorem submitAudioSamples_effect_witness :
    ({ (({} : VideoRecorder).start {} {}).2 with audioBuffer := [1, 2, 3] }.submitAudioSamples
        [4, 5, 6, 7] 2 2 44100).audioBuffer = [1, 2, 3, 4, 5, 6, 7] ∧
      ({ (({} : VideoRecorder).start {} {}).2 with audioBuffer := [1, 2, 3] }.submitAudioSamples
        [4, 5, 6, 7] 2 2 44100).audioChannels = 2 ∧
      ({ (({} : VideoRecorder).start {} {}).2 with audioBuffer := [1, 2, 3] }.submitAudioSamples
        [4, 5, 6, 7] 2 2 44100).audioSampleRate = 44100 ∧
      (({} : VideoRecorder).submitAudioSamples [4, 5, 6, 7] 2 2 44100) = {} :=
  have h := submitAudioSamples_effect
    { (({} : VideoRecorder).start {} {}).2 with audioBuffer := [1, 2, 3] } [4, 5, 6, 7] 2 2 44100
  have h2 := (h.1 rfl rfl).2 rfl (by norm_num)
  ⟨h2.1, h2.2.1, h2.2.2,
    (submitAudioSamples_effect {} [4, 5, 6, 7] 2 2 44100).2 (Or.inl (by decide))⟩

/-! ## The frame pool is first-in first-out -/

theorem getNextFrame_of_cons (g : FrameGrabber) (f : GrabbedFrame) (q : List GrabbedFrame)
    (h : g.frameQueue = f :: q) :
    g.getNextFrame = (some f, { g with frameQueue := q }) := by
  unfold FrameGrabber.getNextFrame
  rw [h]
  simp

theorem getNextFrame_of_nil (g : FrameGrabber) (h : g.frameQueue = []) :
    g.getNextFrame = (none, g) := by
  unfold FrameGrabber.getNextFrame
  rw [h]
  simp

theorem getNextFrame_queue (g : FrameGrabber) :
    g.getNextFrame.1.toList ++ g.getNextFrame.2.frameQueue = g.frameQueue := by
  cases h : g.frameQueue with
  | nil => rw [getNextFrame_of_nil g h]; simp [h]
  | cons f q => rw [getNextFrame_of_cons g f q h]; simp

theorem grab_queue_sublist (g : FrameGrabber) (t : RenderTarget) (ts : Int) :
    List.Sublist (g.grab t ts).frameQueue
      (g.frameQueue ++
        (if g.running then [captureFrame g.flipVertical g.frameNumber t ts] else [])) := by
  unfold FrameGrabber.grab
  cases hr : g.running with
  | false => simp
  | true =>
    simp only [Bool.not_true, Bool.false_eq_true, ↓reduceIte, FrameGrabber.enqueue]
    split
    · exact List.Sublist.append (List.drop_sublist 1 g.frameQueue) (List.Sublist.refl _)
    · exact List.Sublist.refl _

theorem runPool_sublist (ops : List PoolOp) (g : FrameGrabber) :
    List.Sublist ((g.runPool ops).2.1 ++ (g.runPool ops).2.2.frameQueue)
      (g.frameQueue ++ (g.runPool ops).1) := by
  induction ops generalizing g with
  | nil => simp [FrameGrabber.runPool]
  | cons op rest ih =>
    cases op with
    | grab t ts =>
      simp only [FrameGrabber.runPool]
      have h1 := ih (g.grab t ts)
      have h2 := grab_queue_sublist g t ts
      have h3 := List.Sublist.append h2 (List.Sublist.refl ((g.grab t ts).runPool rest).1)
      rw [List.append_assoc] at h3
      exact h1.trans h3
    | getNextFrame =>
      simp only [FrameGrabber.runPool]
      have h1 := ih g.getNextFrame.2
      have h2 := List.Sublist.append (List.Sublist.refl g.getNextFrame.1.toList) h1
      have e : g.getNextFrame.1.toList ++
          (g.getNextFrame.2.frameQueue ++ (g.getNextFrame.2.runPool rest).1) =
          g.frameQueue ++ (g.getNextFrame.2.runPool rest).1 := by
        rw [← List.append_assoc, getNextFrame_queue]
      rw [e] at h2
      rw [List.append_assoc]
      exact h2

/-- C16: the frame pool is first-in first-out.  A `getNextFrame` that delivers a
frame delivers the front (oldest) frame of the queue and removes exactly that
frame, every other member being unchanged; and for every sequence of grabs and
dequeues on a grabber, running or not, the frames delivered, followed by the frames still
queued at the end, form a subsequence of the frames queued at the beginning
followed by the frames grabbed, so frames are delivered in the relative order in
which they were grabbed. -/
theorem getNextFrame_fifo (g : FrameGrabber) (ops : List PoolOp) :
    (∀ f : GrabbedFrame, g.getNextFrame.1 = some f →
      ∃ q, g.frameQueue = f :: q ∧ g.getNextFrame.2 = { g with frameQueue := q }) ∧
      List.Sublist ((g.runPool ops).2.1 ++ (g.runPool ops).2.2.frameQueue)
        (g.frameQueue ++ (g.runPool ops).1) := by
  refine ⟨?_, runPool_sublist ops g⟩
  intro f h
  cases hq : g.frameQueue with
  | nil => rw [getNextFrame_of_nil g hq] at h; exact absurd h (by simp)
  | cons f1 q =>
    rw [getNextFrame_of_cons g f1 q hq] at h ⊢
    simp only [Option.some.injEq] at h
    exact ⟨q, by rw [h], rfl⟩

/-- A running grabber takes two grabs, a dequeue, a grab and a dequeue: the frames
delivered are the frames numbered 0 and 1, in that order, and the frame numbered 2
stays queued. -/
theorem getNextFrame_fifo_witness :
    ((({ running := true } : FrameGrabber).runPool
        [PoolOp.grab ⟨1, 1, [1, 2, 3, 4]⟩ 10, PoolOp.grab ⟨1, 1, [5, 6, 7, 8]⟩ 20,
          PoolOp.getNextFrame, PoolOp.grab ⟨1, 1, [9, 9, 9, 9]⟩ 30,
          PoolOp.getNextFrame]).2.1.map fun f => f.frameNumber) = [0, 1] ∧
      ((({ running := true } : FrameGrabber).runPool
        [PoolOp.grab ⟨1, 1, [1, 2, 3, 4]⟩ 10, PoolOp.grab ⟨1, 1, [5, 6, 7, 8]⟩ 20,
          PoolOp.getNextFrame, PoolOp.grab ⟨1, 1, [9, 9, 9, 9]⟩ 30,
          PoolOp.getNextFrame]).2.2.frameQueue.map fun f => f.frameNumber) = [2] ∧
      List.Sublist
        ((({ running := true } : FrameGrabber).runPool
          [PoolOp.grab ⟨1, 1, [1, 2, 3, 4]⟩ 10, PoolOp.grab ⟨1, 1, [5, 6, 7, 8]⟩ 20,
            PoolOp.getNextFrame, PoolOp.grab ⟨1, 1, [9, 9, 9, 9]⟩ 30,
            PoolOp.getNextFrame]).2.1 ++
          (({ running := true } : FrameGrabber).runPool
          [PoolOp.grab ⟨1, 1, [1, 2, 3, 4]⟩ 10, PoolOp.grab ⟨1, 1, [5, 6, 7, 8]⟩ 20,
            PoolOp.getNextFrame, PoolOp.grab ⟨1, 1, [9, 9, 9, 9]⟩ 30,
            PoolOp.getNextFrame]).2.2.frameQueue)
        (({ running := true } : FrameGrabber).frameQueue ++
          (({ running := true } : FrameGrabber).runPool
          [PoolOp.grab ⟨1, 1, [1, 2, 3, 4]⟩ 10, PoolOp.grab ⟨1, 1, [5, 6, 7, 8]⟩ 20,
            PoolOp.getNextFrame, PoolOp.grab ⟨1, 1, [9, 9, 9, 9]⟩ 30,
            PoolOp.getNextFrame]).1) :=
  ⟨by decide, by decide,
    (getNextFrame_fifo { running := true }
      [PoolOp.grab ⟨1, 1, [1, 2, 3, 4]⟩ 10, PoolOp.grab ⟨1, 1, [5, 6, 7, 8]⟩ 20,
        PoolOp.getNextFrame, PoolOp.grab ⟨1, 1, [9, 9, 9, 9]⟩ 30,
        PoolOp.getNextFrame]).2⟩

/-! ## The result of a dequeue -/

/-- C17, as stated, fails: a grabber is started, grabs one frame and is stopped;
`getNextFrame` then returns true and delivers that frame, although the grabber has
been shut down. -/
theorem getNextFrame_after_stop_delivers :
    ((({} : FrameGrabber).start.grab ⟨1, 1, [1, 2, 3, 4]⟩ 10).stop).running = false ∧
      ((({} : FrameGrabber).start.grab ⟨1, 1, [1, 2, 3, 4]⟩ 10).stop).getNextFrame.1 =
        some { data := [1, 2, 3, 4], width := 1, height := 1, timestamp := 10, frameNumber := 0 } ∧
      ((({} : FrameGrabber).start.grab ⟨1, 1, [1, 2, 3, 4]⟩ 10).stop).getNextFrame.2.frameQueue =
        [] := by
  decide

/-- C17, amended: `getNextFrame` returns false, without delivering a frame and
without changing the grabber, exactly when the queue is empty at the end of its
wait (the timeout has elapsed on an empty queue, or the grabber has been stopped
while the queue was empty); whenever a frame is queued it returns true, delivers
the front frame and removes it, whether the grabber is running or has been
stopped. -/
theorem getNextFrame_result (g : FrameGrabber) :
    (g.frameQueue = [] → g.getNextFrame = (none, g)) ∧
      (∀ (f : GrabbedFrame) (q : List GrabbedFrame), g.frameQueue = f :: q →
        g.getNextFrame = (some f, { g with frameQueue := q })) ∧
      (g.getNextFrame.1 = none ↔ g.frameQueue = []) ∧
      (g.getNextFrame.1 = none → g.getNextFrame.2 = g) := by
  refine ⟨getNextFrame_of_nil g, getNextFrame_of_cons g, ?_, ?_⟩
  · cases hq : g.frameQueue with
    | nil => rw [getNextFrame_of_nil g hq]; simp
    | cons f q => rw [getNextFrame_of_cons g f q hq]; simp
  · cases hq : g.frameQueue with
    | nil => rw [getNextFrame_of_nil g hq]; simp
    | cons f q => rw [getNextFrame_of_cons g f q hq]; simp

/-- A running grabber with an empty queue delivers nothing and is unchanged; a
stopped grabber with one queued frame delivers it. -/
theorem getNextFrame_result_witness :
    ({ running := true } : FrameGrabber).getNextFrame = (none, { running := true }) ∧
      ({ running := false, frameQueue := [{ frameNumber := 5 }] } : FrameGrabber).getNextFrame =
        (some { frameNumber := 5 },
          { ({ running := false, frameQueue := [{ frameNumber := 5 }] } : FrameGrabber) with
            frameQueue := [] }) :=
  ⟨(getNextFrame_result { running := true }).1 rfl,
    (getNextFrame_result { running := false, frameQueue := [{ frameNumber := 5 }] }).2.1
      { frameNumber := 5 } [] rfl⟩

/-! ## The asynchronous grabber: `startRead` -/

theorem initFFmpeg_no_video_codec (r : VideoRecorder) (o : InitOutcomes)
    (ha : 0 ≤ o.allocOutputRet) (hc : o.allocOutputCtx.isSome = true)
    (hf : o.videoCodecFound = false) :
    r.initFFmpeg o =
      (Except.error ("Video codec not found: " ++ r.settings.video.codecName),
        { r with
          formatCtx := o.allocOutputCtx
          log := r.log ++ [Effect.allocOutputContext r.settings.outputPath,
            Effect.findEncoder r.settings.video.codecName] }) := by
  have ha2 : ¬ o.allocOutputRet < 0 := by omega
  have hc2 : o.allocOutputCtx.isNone = false := by
    cases h : o.allocOutputCtx with
    | none => rw [h] at hc; exact absurd hc (by decide)
    | some s => rfl
  unfold VideoRecorder.initFFmpeg VideoRecorder.initStreams VideoRecorder.initVideoStream
  simp [andThen, VideoRecorder.libCall, VideoRecorder.call, ha2, hc2, hf]

/-- C18, as stated, fails: a freshly constructed recorder is started with the
default settings while the library does not provide the video codec.  The muxer
context is allocated before the codec is looked up and is freed afterwards, the
events Starting and Error are emitted, and the state ends as Error. -/
theorem start_missing_video_codec_has_effects :
    (({} : VideoRecorder).start {} { videoCodecFound := false }).1 =
        Except.error "Video codec not found: libx264" ∧
      (({} : VideoRecorder).start {} { videoCodecFound := false }).2.log =
        [Effect.ensureDir "", Effect.allocOutputContext "",
          Effect.findEncoder "libx264", Effect.formatFree] ∧
      (({} : VideoRecorder).start {} { videoCodecFound := false }).2.emitted =
        [RecordingState.Starting, RecordingState.Error] ∧
      (({} : VideoRecorder).start {} { videoCodecFound := false }).2.state =
        RecordingState.Error ∧
      (({} : VideoRecorder).start {} { videoCodecFound := false }).2.state ≠
        RecordingState.Stopped :=
  ⟨rfl, rfl, rfl, rfl, by decide⟩

/-- C18, amended: when the requested video codec is not provided by the encoder
library, `start()` on a stopped recorder with a valid configuration returns the
error "Video codec not found: <name>", but not without side effects: the state
has become Starting and the muxer context has been allocated before the codec is
looked up; the context (and any handle left from before) is then released, the
events Starting and Error are emitted, every handle is null at the end and the
state ends as Error. -/
theorem start_missing_video_codec (r : VideoRecorder) (settings : EncoderSettings)
    (o : InitOutcomes) (hs : r.state = RecordingState.Stopped)
    (hv : settings.validate = Except.ok ()) (ha : 0 ≤ o.allocOutputRet)
    (hc : o.allocOutputCtx.isSome = true) (hf : o.videoCodecFound = false) :
    (r.start settings o).1 =
        Except.error ("Video codec not found: " ++ settings.video.codecName) ∧
      (∃ L, (r.start settings o).2.log =
        r.log ++ [Effect.ensureDir settings.outputPath,
          Effect.allocOutputContext settings.outputPath,
          Effect.findEncoder settings.video.codecName] ++ L ++ [Effect.formatFree] ∧
        ∀ e ∈ L, e.isRelease = true) ∧
      (r.start settings o).2.emitted =
        r.emitted ++ [RecordingState.Starting, RecordingState.Error] ∧
      (r.start settings o).2.state = RecordingState.Error ∧
      (r.start settings o).2.released := by
  have hi := initFFmpeg_no_video_codec (r.beginStart settings) o ha hc hf
  have ho : o.succeeds = false := by
    unfold InitOutcomes.succeeds InitOutcomes.videoOk
    simp [hf]
  obtain ⟨e, he, h1, h2, h3, h4, h5⟩ := start_failure r settings o hs hv ho
  rw [hi] at he
  simp only [Except.error.injEq] at he
  refine ⟨?_, ?_, h2, h3, h4⟩
  · rw [h1, ← he]; rfl
  · rw [h5, hi]
    obtain ⟨fmt, hfmt⟩ := Option.isSome_iff_exists.mp hc
    refine ⟨(if r.packet.isSome then [Effect.packetFree] else []) ++
      (if r.videoFrame.isSome then [Effect.frameFree true] else []) ++
      (if r.audioFrame.isSome then [Effect.frameFree false] else []) ++
      (if r.swsCtx.isSome then [Effect.swsFree] else []) ++
      (if r.swrCtx.isSome then [Effect.swrFree] else []) ++
      (if r.videoCodecCtx.isSome then [Effect.codecFree true] else []) ++
      (if r.audioCodecCtx.isSome then [Effect.codecFree false] else []) ++
      (if fmt.pbOpen && !fmt.noFile then [Effect.avioClose] else []), ?_, ?_⟩
    · simp [VideoRecorder.cleanupCalls, VideoRecorder.beginStart, VideoRecorder.setState,
        VideoRecorder.call, hfmt]
    · intro e1 h
      simp only [List.mem_append] at h
      rcases h with ((((((h | h) | h) | h) | h) | h) | h) | h <;>
        (split at h <;> simp at h; subst h; rfl)

/-- A stopped recorder that still holds a packet is started with the default
settings while the video codec is missing. -/
theorem start_missing_video_codec_witness :
    (({ packet := some () } : VideoRecorder).start {} { videoCodecFound := false }).1 =
        Except.error ("Video codec not found: " ++ ({} : EncoderSettings).video.codecName) ∧
      (({ packet := some () } : VideoRecorder).start {} { videoCodecFound := false }).2.state =
        RecordingState.Error ∧
      (({ packet := some () } : VideoRecorder).start {} { videoCodecFound := false }).2.log =
        [Effect.ensureDir "", Effect.allocOutputContext "",
          Effect.findEncoder "libx264", Effect.packetFree, Effect.formatFree] :=
  have h := start_missing_video_codec { packet := some () } {} { videoCodecFound := false }
    rfl rfl (by decide) rfl rfl
  ⟨h.1, h.2.2.2.1, rfl⟩

/-! ## A trailer that cannot be written -/

/-- C19, as stated, fails: a recorder started with the default settings is stopped
while `av_write_trailer` returns an error; `stop()` returns success. -/
theorem stop_succeeds_despite_trailer_failure :
    (({} : VideoRecorder).start {} {}).2.state = RecordingState.Recording ∧
      ((({} : VideoRecorder).start {} {}).2.stop { trailerRet := -1 }).1 = Except.ok () ∧
      Effect.writeTrailer ∈ ((({} : VideoRecorder).start {} {}).2.stop { trailerRet := -1 }).2.log :=
  ⟨rfl, rfl, by decide⟩

/-- C19, amended: the return value of `av_write_trailer` is discarded.  A `stop()`
called in state Recording returns success whatever that value is, and does exactly
what it does when the trailer is written: the encode thread is joined (no longer
joinable), every encoder and muxer handle is released and the state ends as
Stopped. -/
theorem stop_ignores_trailer_result (r : VideoRecorder) (o : FlushOutcomes)
    (hs : r.state = RecordingState.Recording) :
    (r.stop o).1 = Except.ok () ∧
      r.stop o = r.stop { o with trailerRet := 0 } ∧
      (r.threadJoinable = true → Effect.threadJoin ∈ (r.stop o).2.log) ∧
      (r.formatCtx.isSome = true → Effect.writeTrailer ∈ (r.stop o).2.log) ∧
      (r.stop o).2.threadJoinable = false ∧
      (r.stop o).2.released ∧
      (r.stop o).2.state = RecordingState.Stopped := by
  obtain ⟨V, A, b, h, _⟩ := stop_recording_eq r o hs
  refine ⟨?_, rfl, ?_, ?_, ?_, ?_, ?_⟩
  · rw [h]
  · intro hj
    rw [h]
    simp [hj]
  · intro hf
    rw [h]
    simp [hf]
  · rw [h]
  · rw [h]
    exact ⟨rfl, rfl, rfl, rfl, rfl, rfl, rfl, rfl, rfl, rfl, rfl, rfl⟩
  · rw [h]

/-- A recorder started with the default settings is stopped while the trailer write
fails with -5. -/
theorem stop_ignores_trailer_result_witness :
    ((({} : VideoRecorder).start {} {}).2.stop { trailerRet := -5 }).1 = Except.ok () ∧
      ((({} : VideoRecorder).start {} {}).2.stop { trailerRet := -5 }).2.state =
        RecordingState.Stopped ∧
      ((({} : VideoRecorder).start {} {}).2.stop { trailerRet := -5 }).2.threadJoinable = false :=
  have h := stop_ignores_trailer_result (({} : VideoRecorder).start {} {}).2 { trailerRet := -5 } rfl
  ⟨h.1, h.2.2.2.2.2.2, h.2.2.2.2.1⟩

/-! ## Encoding one frame -/

/-- A drain in normal operation only appends drains and writes of its codec to the
log and only changes the byte counter. -/
theorem drainPackets_calls (video : Bool) (ps : List PacketOutcome) (r : VideoRecorder) :
    ∃ L b, (r.drainPackets video ps).2 =
        { r with log := r.log ++ L, stats := { r.stats with bytesWritten := b } } ∧
      ∀ e ∈ L, e = Effect.receivePacket video ∨ e = Effect.writeFrame video := by
  induction ps generalizing r with
  | nil => exact ⟨[Effect.receivePacket video], r.stats.bytesWritten, rfl, by simp⟩
  | cons p rest ih =>
    unfold VideoRecorder.drainPackets
    simp only
    split
    · exact ⟨[Effect.receivePacket video], r.stats.bytesWritten, rfl, by simp⟩
    · split
      · exact ⟨[Effect.receivePacket video], r.stats.bytesWritten, rfl, by simp⟩
      · obtain ⟨b, hb⟩ := writePacket_eq (r.call (Effect.receivePacket video)) video p
        cases hw : ((r.call (Effect.receivePacket video)).writePacket video p).1 with
        | false =>
          have : (r.call (Effect.receivePacket video)).writePacket video p =
              (false, ((r.call (Effect.receivePacket video)).writePacket video p).2) := by
            rw [← hw]
          rw [this]
          simp only
          rw [hb]
          exact ⟨[Effect.receivePacket video, Effect.writeFrame video], b,
            by simp [VideoRecorder.call], by simp⟩
        | true =>
          have : (r.call (Effect.receivePacket video)).writePacket video p =
              (true, ((r.call (Effect.receivePacket video)).writePacket video p).2) := by
            rw [← hw]
          rw [this]
          simp only
          obtain ⟨L, b2, hL, hm⟩ :=
            ih ((r.call (Effect.receivePacket video)).writePacket video p).2
          rw [hL, hb]
          refine ⟨Effect.receivePacket video :: Effect.writeFrame video :: L, b2,
            by simp [VideoRecorder.call], ?_⟩
          intro e he
          simp only [List.mem_cons] at he
          rcases he with he | he | he
          · exact Or.inl he
          · exact Or.inr he
          · exact hm e he

theorem writePacket_ok (r : VideoRecorder) (video : Bool) (p : PacketOutcome)
    (h : 0 ≤ p.writeRet) : (r.writePacket video p).1 = true := by
  unfold VideoRecorder.writePacket
  have h2 : ¬ p.writeRet < 0 := by omega
  simp [h2]

/-- A drain in which every packet is received and written reports success. -/
theorem drainPackets_ok (video : Bool) (ps : List PacketOutcome) (r : VideoRecorder)
    (h : ∀ p ∈ ps, p.succeeds) : (r.drainPackets video ps).1 = true := by
  induction ps generalizing r with
  | nil => rfl
  | cons p rest ih =>
    unfold VideoRecorder.drainPackets
    simp only
    split
    · rfl
    · rename_i hne
      have hp := h p (List.mem_cons_self _ _)
      unfold PacketOutcome.succeeds at hp
      have hp2 : 0 ≤ p.recvRet ∧ 0 ≤ p.writeRet := by
        rcases hp with hp | hp | hp
        · exact absurd (Or.inl hp) hne
        · exact absurd (Or.inr hp) hne
        · exact hp
      have h3 : ¬ p.recvRet < 0 := by omega
      rw [if_neg h3]
      have hw := writePacket_ok (r.call (Effect.receivePacket video)) video p hp2.2
      have : (r.call (Effect.receivePacket video)).writePacket video p =
          (true, ((r.call (Effect.receivePacket video)).writePacket video p).2) := by
        rw [← hw]
      rw [this]
      simp only
      exact ih _ (fun q hq => h q (List.mem_cons_of_mem _ hq))

theorem encodeVideoFrame_eq (r : VideoRecorder) (o : EncodeOutcomes) :
    ∃ L b, (r.encodeVideoFrame o).2 =
        { r with log := r.log ++ Effect.sendFrame true false :: L
                 stats := { r.stats with bytesWritten := b } } ∧
      ∀ e ∈ L, e = Effect.receivePacket true ∨ e = Effect.writeFrame true := by
  unfold VideoRecorder.encodeVideoFrame
  simp only
  split
  · exact ⟨[], r.stats.bytesWritten, rfl, by simp⟩
  · obtain ⟨L, b, hL, hm⟩ := drainPackets_calls true o.packets
      (r.call (Effect.sendFrame true false))
    rw [hL]
    exact ⟨L, b, by simp [VideoRecorder.call], hm⟩

theorem encodeVideoFrame_ok (r : VideoRecorder) (o : EncodeOutcomes) (h : o.succeeds) :
    (r.encodeVideoFrame o).1 = true := by
  unfold VideoRecorder.encodeVideoFrame
  simp only
  have h2 : ¬ o.sendRet < 0 := by have := h.1; omega
  rw [if_neg h2]
  exact drainPackets_ok true o.packets _ h.2

theorem encodeAudioFrame_eq (r : VideoRecorder) (o : EncodeOutcomes) :
    ∃ L b, (r.encodeAudioFrame o).2 =
        { r with log := r.log ++ Effect.sendFrame false false :: L
                 stats := { r.stats with bytesWritten := b } } ∧
      ∀ e ∈ L, e = Effect.receivePacket false ∨ e = Effect.writeFrame false := by
  unfold VideoRecorder.encodeAudioFrame
  simp only
  split
  · exact ⟨[], r.stats.bytesWritten, rfl, by simp⟩
  · obtain ⟨L, b, hL, hm⟩ := drainPackets_calls false o.packets
      (r.call (Effect.sendFrame false false))
    rw [hL]
    exact ⟨L, b, by simp [VideoRecorder.call], hm⟩

/-- The whole effect of `processVideoFrame` when the video codec context and the
reusable frame are set: the frame is stamped with the frame count, the count
grows by one, the frame is sent to the encoder, and `framesWritten` grows by one
when the encoding reports success. -/
theorem processVideoFrame_eq (r : VideoRecorder) (frame : GrabbedFrame) (o : EncodeOutcomes)
    (c : CodecCtx) (vf : AVFrame) (hc : r.videoCodecCtx = some c) (hf : r.videoFrame = some vf) :
    ∃ L b w, r.processVideoFrame frame o =
        { r with
          log := r.log ++ Effect.swsScale :: Effect.sendFrame true false :: L
          videoFrame := some { vf with pts := r.videoFrameCount }
          videoFrameCount := r.videoFrameCount + 1
          stats := { r.stats with bytesWritten := b, framesWritten := w } } ∧
      (∀ e ∈ L, e = Effect.receivePacket true ∨ e = Effect.writeFrame true) ∧
      (o.succeeds → w = (r.stats.framesWritten + 1) % 2 ^ 64) ∧
      (w = r.stats.framesWritten ∨ w = (r.stats.framesWritten + 1) % 2 ^ 64) := by
  obtain ⟨L, b, hL, hm⟩ := encodeVideoFrame_eq (r.stampVideoFrame vf) o
  unfold VideoRecorder.processVideoFrame
  rw [hc, hf]
  simp only
  cases he : ((r.stampVideoFrame vf).encodeVideoFrame o).1 with
  | true =>
    refine ⟨L, b, (r.stats.framesWritten + 1) % 2 ^ 64, ?_, hm, fun _ => rfl, Or.inr rfl⟩
    rw [if_pos rfl, hL]
    simp [VideoRecorder.countFrame, VideoRecorder.stampVideoFrame, VideoRecorder.call, hc]
  | false =>
    refine ⟨L, b, r.stats.framesWritten, ?_, hm, ?_, Or.inl rfl⟩
    · rw [if_neg (by simp), hL]
      simp [VideoRecorder.stampVideoFrame, VideoRecorder.call, hc]
    · intro hs
      rw [encodeVideoFrame_ok _ o hs] at he
      exact absurd he (by decide)

/-! ## The timestamp counters outside a session -/

theorem step_idle_counters (r : VideoRecorder) (op : Op)
    (hi : r.state ≠ RecordingState.Recording → r.videoFrameCount = 0 ∧ r.audioFrameCount = 0) :
    (r.step op).state ≠ RecordingState.Recording →
      (r.step op).videoFrameCount = 0 ∧ (r.step op).audioFrameCount = 0 := by
  cases op with
  | start settings o =>
    simp only [VideoRecorder.step]
    by_cases hs : r.state = RecordingState.Stopped
    · cases hv : settings.validate with
      | error e =>
        rw [start_of_invalid r settings o e hs hv]
        exact hi
      | ok u =>
        cases hinit : ((r.beginStart settings).initFFmpeg o).1 with
        | error e =>
          rw [start_of_init_error r settings o e hs hv hinit]
          intro _
          exact ⟨rfl, rfl⟩
        | ok u =>
          rw [start_of_init_ok r settings o hs hv hinit]
          intro h
          exact absurd rfl h
    · rw [start_of_ne_stopped r settings o hs]
      exact hi
  | stop o =>
    simp only [VideoRecorder.step]
    by_cases hs : r.state = RecordingState.Recording
    · obtain ⟨V, A, b, h, _⟩ := stop_recording_eq r o hs
      rw [h]
      intro _
      exact ⟨rfl, rfl⟩
    · rw [stop_of_ne_recording r o hs]
      exact hi
  | submitVideoFrame data width height timestamp o =>
    simp only [VideoRecorder.step]
    intro h
    have hst := (submitVideoFrame_state r data width height timestamp o).1
    rw [hst] at h
    unfold VideoRecorder.submitVideoFrame
    rw [if_pos h]
    exact hi h
  | submitAudioSamples data samples channels sampleRate =>
    simp only [VideoRecorder.step]
    intro h
    have hst := (submitAudioSamples_state r data samples channels sampleRate).1
    rw [hst] at h
    unfold VideoRecorder.submitAudioSamples
    rw [if_pos h]
    exact hi h

/-- Outside a session both timestamp counters are 0: this holds after the
constructor and is preserved by every call of the public interface. -/
theorem run_idle_counters (ops : List Op) (r : VideoRecorder)
    (hi : r.state ≠ RecordingState.Recording → r.videoFrameCount = 0 ∧ r.audioFrameCount = 0) :
    (r.run ops).state ≠ RecordingState.Recording →
      (r.run ops).videoFrameCount = 0 ∧ (r.run ops).audioFrameCount = 0 := by
  induction ops generalizing r with
  | nil => exact hi
  | cons op rest ih => exact ih (r.step op) (step_idle_counters r op hi)

/-! ## Sequences of video frames -/

theorem processAll_append (r : VideoRecorder) (inputs : List VideoInput) (x : VideoInput) :
    r.processAll (inputs ++ [x]) = (r.processAll inputs).processVideoFrame x.frame x.outcome := by
  unfold VideoRecorder.processAll
  rw [List.foldl_append]
  rfl

/-- What a sequence of frames handed to `processVideoFrame` does to a recorder whose
video codec context and reusable frame are set: the frame count grows by one per
frame whatever the outcomes are, and `framesWritten` grows by one per frame when
every encoding succeeds. -/
theorem processAll_counts (inputs : List VideoInput) (r : VideoRecorder)
    (hc : r.videoCodecCtx.isSome = true) (hf : r.videoFrame.isSome = true)
    (hw : r.stats.framesWritten < 2 ^ 64) :
    (r.processAll inputs).videoCodecCtx.isSome = true ∧
      (r.processAll inputs).videoFrame.isSome = true ∧
      (r.processAll inputs).videoFrameCount = r.videoFrameCount + inputs.length ∧
      (r.processAll inputs).state = r.state ∧
      (r.processAll inputs).stats.framesDropped = r.stats.framesDropped ∧
      (r.processAll inputs).frameGrabber = r.frameGrabber ∧
      ((∀ i ∈ inputs, i.outcome.succeeds) →
        (r.processAll inputs).stats.framesWritten =
          (r.stats.framesWritten + inputs.length) % 2 ^ 64) := by
  induction inputs generalizing r with
  | nil =>
    refine ⟨hc, hf, by simp [VideoRecorder.processAll], rfl, rfl, rfl, fun _ => ?_⟩
    simp only [VideoRecorder.processAll, List.foldl_nil, List.length_nil, Nat.add_zero]
    exact (Nat.mod_eq_of_lt hw).symm
  | cons x rest ih =>
    obtain ⟨c, hc1⟩ := Option.isSome_iff_exists.mp hc
    obtain ⟨vf, hf1⟩ := Option.isSome_iff_exists.mp hf
    obtain ⟨L, b, w, he, _, hwok, hw2⟩ := processVideoFrame_eq r x.frame x.outcome c vf hc1 hf1
    have hstep : r.processAll (x :: rest) =
        (r.processVideoFrame x.frame x.outcome).processAll rest := rfl
    have hw3 : w < 2 ^ 64 := by
      rcases hw2 with h | h
      · rw [h]; exact hw
      · rw [h]; exact Nat.mod_lt _ (by norm_num)
    have hc2 : (r.processVideoFrame x.frame x.outcome).videoCodecCtx.isSome = true := by
      rw [he]; exact hc
    have hf2 : (r.processVideoFrame x.frame x.outcome).videoFrame.isSome = true := by
      rw [he]; rfl
    have hw4 : (r.processVideoFrame x.frame x.outcome).stats.framesWritten < 2 ^ 64 := by
      rw [he]; exact hw3
    obtain ⟨i1, i2, i3, i4, i5, i6, i7⟩ := ih (r.processVideoFrame x.frame x.outcome) hc2 hf2 hw4
    rw [hstep]
    refine ⟨i1, i2, ?_, ?_, ?_, ?_, ?_⟩
    · rw [i3, he]
      simp only [List.length_cons, Nat.cast_add, Nat.cast_one]
      omega
    · rw [i4, he]
    · rw [i5, he]
    · rw [i6, he]
    · intro hall
      rw [i7 (fun i hi => hall i (List.mem_cons_of_mem _ hi)), he]
      simp only [List.length_cons]
      rw [hwok (hall x (List.mem_cons_self _ _))]
      omega

theorem submitAll_eq_processAll (subs : List VideoSubmission) (r : VideoRecorder)
    (hs : r.state = RecordingState.Recording) :
    r.submitAll subs =
      r.processAll (subs.map fun s =>
        { frame := { width := s.width, height := s.height, timestamp := s.timestamp
                     data := s.data.take ((s.width * s.height * 4) % 2 ^ 32) }
          outcome := s.outcome }) := by
  induction subs generalizing r with
  | nil => rfl
  | cons s rest ih =>
    have h1 : r.submitAll (s :: rest) =
        (r.submitVideoFrame s.data s.width s.height s.timestamp s.outcome).submitAll rest := rfl
    have h2 : r.submitVideoFrame s.data s.width s.height s.timestamp s.outcome =
        r.processVideoFrame
          { width := s.width, height := s.height, timestamp := s.timestamp
            data := s.data.take ((s.width * s.height * 4) % 2 ^ 32) } s.outcome := by
      unfold VideoRecorder.submitVideoFrame
      rw [if_neg (not_not.mpr hs)]
    have h3 : (r.submitVideoFrame s.data s.width s.height s.timestamp s.outcome).state =
        RecordingState.Recording := by
      rw [(submitVideoFrame_state r s.data s.width s.height s.timestamp s.outcome).1]
      exact hs
    rw [h1, ih _ h3, h2]
    rfl

/-! ## The presentation timestamps of the video frames -/

/-- C12: within one recording session, begun by a successful `start()` on a stopped
recorder whose frame count is 0 (it is 0 in every stopped recorder reached from a
freshly constructed one through the public interface), the frame handed to
`processVideoFrame` after `k` earlier frames is stamped with the presentation
timestamp `k`, whatever the outcomes of the earlier encodings and of its own were,
and is then sent to the video encoder; so the timestamps of the frames sent are
0, 1, 2, ... and strictly increasing. -/
theorem video_pts_is_frame_index (r : VideoRecorder) (settings : EncoderSettings)
    (o : InitOutcomes) (inputs : List VideoInput) (x : VideoInput)
    (hs : r.state = RecordingState.Stopped) (hv : settings.validate = Except.ok ())
    (ho : o.succeeds = true)
    (h0 : r.videoFrameCount = 0 ∨ ∃ ops, r = ({} : VideoRecorder).run ops) :
    ((((r.start settings o).2.processAll inputs).processVideoFrame x.frame x.outcome).videoFrame.map
        fun f => f.pts) = some (inputs.length : Int) ∧
      ∃ L, (((r.start settings o).2.processAll inputs).processVideoFrame x.frame x.outcome).log =
          ((r.start settings o).2.processAll inputs).log ++
            Effect.swsScale :: Effect.sendFrame true false :: L ∧
        ∀ e ∈ L, e = Effect.receivePacket true ∨ e = Effect.writeFrame true := by
  have hz : r.videoFrameCount = 0 := by
    rcases h0 with h | ⟨ops, h⟩
    · exact h
    · rw [h] at hs ⊢
      exact (run_idle_counters ops {} (fun _ => ⟨rfl, rfl⟩) (by rw [hs]; decide)).1
  obtain ⟨_, s2, s3, s4, s5, _⟩ := start_session r settings o hs hv ho
  have hw : (r.start settings o).2.stats.framesWritten < 2 ^ 64 := by
    rw [s4]; exact Nat.pos_pow_of_pos 64 (by decide)
  obtain ⟨p1, p2, p3, _⟩ := processAll_counts inputs (r.start settings o).2 s2 s3 hw
  obtain ⟨c, hc1⟩ := Option.isSome_iff_exists.mp p1
  obtain ⟨vf, hf1⟩ := Option.isSome_iff_exists.mp p2
  obtain ⟨L, b, w, he, hm, _⟩ :=
    processVideoFrame_eq ((r.start settings o).2.processAll inputs) x.frame x.outcome c vf hc1 hf1
  rw [he]
  refine ⟨?_, L, rfl, hm⟩
  show some ((r.start settings o).2.processAll inputs).videoFrameCount = _
  rw [p3, s5, hz]
  simp

/-- A freshly constructed recorder is started with the default settings; the first
frame is refused by the encoder, and the second frame is stamped 1 all the same. -/
theorem video_pts_is_frame_index_witness :
    ((((({} : VideoRecorder).start {} {}).2.processAll
        [{ outcome := { sendRet := -1 } }]).processVideoFrame {} {}).videoFrame.map
          fun f => f.pts) = some 1 :=
  (video_pts_is_frame_index {} {} {} [{ outcome := { sendRet := -1 } }] {} rfl rfl rfl
    (Or.inl rfl)).1

/-! ## The count of the frames written -/

/-- C15: after `n` `submitVideoFrame` calls made in a session begun by a successful
`start()`, in which every encode step and packet write succeeds, the statistics
show `framesWritten = n` (the counter is a `u64`, so the value is `n mod 2^64`,
which is `n` for every `n < 2^64`) and `framesDropped = 0`; the drop counter of the
frame pool, from which the encode thread refreshes `framesDropped`, is 0 as well,
since `submitVideoFrame` does not go through the pool. -/
theorem submitted_frames_are_written (r : VideoRecorder) (settings : EncoderSettings)
    (o : InitOutcomes) (subs : List VideoSubmission)
    (hs : r.state = RecordingState.Stopped) (hv : settings.validate = Except.ok ())
    (ho : o.succeeds = true) (hok : ∀ s ∈ subs, s.outcome.succeeds) :
    ((r.start settings o).2.submitAll subs).stats.framesWritten = subs.length % 2 ^ 64 ∧
      (subs.length < 2 ^ 64 →
        ((r.start settings o).2.submitAll subs).stats.framesWritten = subs.length) ∧
      ((r.start settings o).2.submitAll subs).stats.framesDropped = 0 ∧
      ((r.start settings o).2.submitAll subs).frameGrabber.droppedFrames = 0 ∧
      ((r.start settings o).2.submitAll subs).state = RecordingState.Recording := by
  obtain ⟨s1, s2, s3, s4, _, _⟩ := start_session r settings o hs hv ho
  have hw : (r.start settings o).2.stats.framesWritten < 2 ^ 64 := by
    rw [s4]; exact Nat.pos_pow_of_pos 64 (by decide)
  rw [submitAll_eq_processAll subs _ s1]
  obtain ⟨_, _, _, p4, p5, p6, p7⟩ := processAll_counts
    (subs.map fun s =>
      ({ frame := { width := s.width, height := s.height, timestamp := s.timestamp
                    data := s.data.take ((s.width * s.height * 4) % 2 ^ 32) }
         outcome := s.outcome } : VideoInput)) (r.start settings o).2 s2 s3 hw
  have hall : ∀ i ∈ (subs.map fun s =>
      ({ frame := { width := s.width, height := s.height, timestamp := s.timestamp
                    data := s.data.take ((s.width * s.height * 4) % 2 ^ 32) }
         outcome := s.outcome } : VideoInput)), i.outcome.succeeds := by
    intro i hi
    obtain ⟨s, hsm, rfl⟩ := List.mem_map.mp hi
    exact hok s hsm
  have p8 := p7 hall
  rw [List.length_map, s4] at p8
  simp only [Nat.zero_add] at p8
  have hg : (r.start settings o).2.frameGrabber.droppedFrames = 0 := by
    have hi := (initFFmpeg_ok_iff (r.beginStart settings) o).mpr ho
    rw [start_of_init_ok r settings o hs hv hi]
    rfl
  refine ⟨p8, fun hn => ?_, ?_, ?_, ?_⟩
  · rw [p8]; exact Nat.mod_eq_of_lt hn
  · rw [p5, s4]
  · rw [p6]; exact hg
  · rw [p4]; exact s1

/-- The scenario of the specification: 120 frames are submitted to a recorder
started with the default settings and every encoding succeeds. -/
theorem submitted_frames_are_written_witness :
    (((({} : VideoRecorder).start {} {}).2.submitAll
        (List.replicate 120 {})).stats.framesWritten = 120) ∧
      (((({} : VideoRecorder).start {} {}).2.submitAll
        (List.replicate 120 {})).stats.framesDropped = 0) :=
  have h := submitted_frames_are_written {} {} {} (List.replicate 120 {}) rfl rfl rfl
    (fun s hs => by
      rw [List.eq_of_mem_replicate hs]
      exact ⟨by decide, fun p hp => absurd hp (List.not_mem_nil p)⟩)
  ⟨h.2.1 (by rw [List.length_replicate]; norm_num), h.2.2.1⟩

/-! ## The audio drain: what the log records -/

theorem swrChunks_append (l1 l2 : List Effect) :
    swrChunks (l1 ++ l2) = swrChunks l1 ++ swrChunks l2 := by
  induction l1 with
  | nil => rfl
  | cons e rest ih => cases e <;> simp [swrChunks, ih]

theorem swrChunks_of_packets (video : Bool) (L : List Effect)
    (h : ∀ e ∈ L, e = Effect.receivePacket video ∨ e = Effect.writeFrame video) :
    swrChunks L = [] := by
  induction L with
  | nil => rfl
  | cons e rest ih =>
    have hr := ih (fun x hx => h x (List.mem_cons_of_mem _ hx))
    rcases h e (List.mem_cons_self _ _) with he | he <;> rw [he] <;> simpa [swrChunks] using hr

theorem audioFramesSent_append (l1 l2 : List Effect) :
    audioFramesSent (l1 ++ l2) = audioFramesSent l1 + audioFramesSent l2 := by
  unfold audioFramesSent
  exact List.count_append _ _ _

theorem audioFramesSent_of_packets (video : Bool) (L : List Effect)
    (h : ∀ e ∈ L, e = Effect.receivePacket video ∨ e = Effect.writeFrame video) :
    audioFramesSent L = 0 := by
  unfold audioFramesSent
  rw [List.count_eq_zero]
  intro hm
  rcases h _ hm with he | he <;> exact absurd he (by simp)

theorem convertedCount_le (k : Nat) (outs : List AudioChunkOutcome) :
    convertedCount k outs ≤ k := by
  induction k generalizing outs with
  | zero => simp [convertedCount]
  | succ k ih =>
    have := ih outs.tail
    unfold convertedCount
    split <;> omega

theorem convertedCount_of_ok (k : Nat) (outs : List AudioChunkOutcome)
    (h : ∀ o ∈ outs, 0 ≤ o.swrRet) : convertedCount k outs = k := by
  induction k generalizing outs with
  | zero => simp [convertedCount]
  | succ k ih =>
    have ht := ih outs.tail (fun o ho => h o (List.mem_of_mem_tail ho))
    have hh : ¬ (outs.headD {}).swrRet < 0 := by
      cases outs with
      | nil => simp
      | cons a rest => have := h a (List.mem_cons_self _ _); simp; omega
    unfold convertedCount
    rw [if_neg hh, ht]
    omega

/-- The chunk size seen by the loop is `frameSize * channels` when both are at least
1 and the product fits an `int`. -/
theorem audioChunkSize_eq (F : Int) (C : Nat) (hF : 1 ≤ F) (hC : 1 ≤ C)
    (hn : F * C < 2 ^ 31) : audioChunkSize F C = F.toNat * C := by
  have hC0 : (0 : Int) ≤ (C : Int) := Int.natCast_nonneg C
  have hC1 : (1 : Int) ≤ (C : Int) := by exact_mod_cast hC
  have hCF : (C : Int) ≤ F * C := by nlinarith
  have hP0 : 0 ≤ F * (C : Int) := by nlinarith
  have e1 : toInt32 (C : Int) = C := by
    unfold toInt32
    omega
  unfold audioChunkSize
  rw [e1]
  generalize hP : F * (C : Int) = P at hn hP0
  have e2 : toInt32 P = P := by
    unfold toInt32
    omega
  rw [e2]
  have e3 : P % 2 ^ 64 = P := by omega
  rw [e3, ← hP]
  have hFn : (F.toNat : Int) = F := Int.toNat_of_nonneg (by omega)
  have : F * (C : Int) = ((F.toNat * C : Nat) : Int) := by
    rw [Nat.cast_mul, hFn]
  rw [this, Int.toNat_natCast]

/-! ## The audio drain: one iteration -/

/-- The whole effect of one iteration of the drain: the chunk leaves the
accumulator and goes to the resampler; the frame is stamped, the sample count
advanced and the frame sent to the encoder only when the conversion succeeds. -/
theorem drainChunk_eq (r : VideoRecorder) (F : Int) (n : Nat) (o : AudioChunkOutcome) :
    ∃ E b, r.drainChunk F n o =
        { r with
          audioBuffer := r.audioBuffer.drop n
          log := r.log ++ Effect.swrConvert (r.audioBuffer.take n) :: E
          audioFrame :=
            if o.swrRet < 0 then r.audioFrame
            else r.audioFrame.map fun f => { f with pts := r.audioFrameCount }
          audioFrameCount := if o.swrRet < 0 then r.audioFrameCount else r.audioFrameCount + F
          stats := { r.stats with bytesWritten := b } } ∧
      swrChunks E = [] ∧
      audioFramesSent E = if o.swrRet < 0 then 0 else 1 := by
  unfold VideoRecorder.drainChunk
  by_cases h : o.swrRet < 0
  · rw [if_pos h]
    refine ⟨[], r.stats.bytesWritten, ?_, rfl, by rw [if_pos h]; rfl⟩
    simp [VideoRecorder.takeChunk, VideoRecorder.call, h]
  · rw [if_neg h]
    obtain ⟨L, b, hL, hm⟩ := encodeAudioFrame_eq ((r.takeChunk n).stampAudioFrame F) o.encode
    rw [hL]
    refine ⟨Effect.sendFrame false false :: L, b, ?_, ?_, ?_⟩
    · simp [VideoRecorder.takeChunk, VideoRecorder.stampAudioFrame, VideoRecorder.call, h]
    · simpa [swrChunks] using swrChunks_of_packets false L hm
    · rw [if_neg h]
      have := audioFramesSent_of_packets false L hm
      unfold audioFramesSent at this ⊢
      simp [this]

/-! ## The audio drain: the loop -/

/-- With a chunk size of 0 the loop of the drain does not end, whatever the number
of iterations allowed. -/
theorem drainAudio_zero_chunk (F : Int) (fuel : Nat) (outs : List AudioChunkOutcome)
    (r : VideoRecorder) : VideoRecorder.drainAudio F 0 fuel outs r = none := by
  induction fuel generalizing outs r with
  | zero => simp [VideoRecorder.drainAudio]
  | succ fuel ih =>
    unfold VideoRecorder.drainAudio
    rw [if_neg (Nat.not_lt_zero _)]
    exact ih _ _

theorem convertedCount_succ (k : Nat) (outs : List AudioChunkOutcome) :
    convertedCount (k + 1) outs =
      (if (outs.headD {}).swrRet < 0 then 0 else 1) + convertedCount k outs.tail := rfl

theorem length_flatten_of_forall (n : Nat) (cs : List (List Nat))
    (h : ∀ c ∈ cs, c.length = n) : cs.flatten.length = cs.length * n := by
  induction cs with
  | nil => simp
  | cons c rest ih =>
    rw [List.flatten_cons, List.length_append, h c (List.mem_cons_self _ _),
      ih (fun x hx => h x (List.mem_cons_of_mem _ hx)), List.length_cons]
    ring

/-- The loop of the drain with a chunk size `n` of at least 1 and enough
iterations: it ends; the chunks `cs` handed to the resampler are consecutive
leading slices of `n` floats; what remains is shorter than `n`; one frame is sent
to the encoder, and the sample count advances by `F`, per conversion that
succeeds. -/
theorem drainAudio_spec (F : Int) (n : Nat) (hn : 0 < n) (fuel : Nat)
    (outs : List AudioChunkOutcome) (r : VideoRecorder)
    (hfuel : r.audioBuffer.length / n ≤ fuel) :
    ∃ r1 cs, VideoRecorder.drainAudio F n fuel outs r = some r1 ∧
      swrChunks r1.log = swrChunks r.log ++ cs ∧
      cs.flatten ++ r1.audioBuffer = r.audioBuffer ∧
      (∀ c ∈ cs, c.length = n) ∧
      r1.audioBuffer.length < n ∧
      audioFramesSent r1.log = audioFramesSent r.log + convertedCount cs.length outs ∧
      r1.audioFrameCount = r.audioFrameCount + F * convertedCount cs.length outs ∧
      r1.audioCodecCtx = r.audioCodecCtx ∧
      r1.audioFrame.isSome = r.audioFrame.isSome ∧
      r1.audioChannels = r.audioChannels ∧
      r1.state = r.state ∧
      r1.audioStream = r.audioStream := by
  induction fuel generalizing outs r with
  | zero =>
    have hlt : r.audioBuffer.length < n := (Nat.div_eq_zero_iff hn).mp (Nat.le_zero.mp hfuel)
    refine ⟨r, [], by simp [VideoRecorder.drainAudio, hlt], by simp, by simp, by simp, hlt,
      by simp [convertedCount], by simp [convertedCount], rfl, rfl, rfl, rfl, rfl⟩
  | succ fuel ih =>
    by_cases hlt : r.audioBuffer.length < n
    · refine ⟨r, [], by simp [VideoRecorder.drainAudio, hlt], by simp, by simp, by simp, hlt,
        by simp [convertedCount], by simp [convertedCount], rfl, rfl, rfl, rfl, rfl⟩
    · have hle : n ≤ r.audioBuffer.length := Nat.le_of_not_lt hlt
      obtain ⟨E, b, hE, hE1, hE2⟩ := drainChunk_eq r F n (outs.headD {})
      have hbuf : (r.drainChunk F n (outs.headD {})).audioBuffer = r.audioBuffer.drop n := by
        rw [hE]
      have hfuel2 : (r.drainChunk F n (outs.headD {})).audioBuffer.length / n ≤ fuel := by
        rw [hbuf, List.length_drop]
        have := Nat.div_eq_sub_div hn hle
        omega
      obtain ⟨r1, cs, h1, h2, h3, h4, h5, h6, h7, h8, h9, h10, h11, h12⟩ :=
        ih outs.tail (r.drainChunk F n (outs.headD {})) hfuel2
      refine ⟨r1, r.audioBuffer.take n :: cs, ?_, ?_, ?_, ?_, h5, ?_, ?_, ?_, ?_, ?_, ?_, ?_⟩
      · unfold VideoRecorder.drainAudio
        rw [if_neg hlt]
        exact h1
      · rw [h2, hE]
        show swrChunks (r.log ++ Effect.swrConvert (r.audioBuffer.take n) :: E) ++ cs = _
        rw [swrChunks_append]
        simp [swrChunks, hE1]
      · rw [List.flatten_cons, List.append_assoc, h3, hbuf, List.take_append_drop]
      · intro c hc
        rcases List.mem_cons.mp hc with hc | hc
        · rw [hc, List.length_take]
          omega
        · exact h4 c hc
      · rw [h6, hE]
        show audioFramesSent (r.log ++ Effect.swrConvert (r.audioBuffer.take n) :: E) + _ = _
        rw [audioFramesSent_append]
        have e1 : audioFramesSent (Effect.swrConvert (r.audioBuffer.take n) :: E) =
            audioFramesSent E := by
          unfold audioFramesSent
          simp
        rw [e1, hE2, List.length_cons, convertedCount_succ]
        split <;> omega
      · rw [h7, hE]
        show (if (outs.headD {}).swrRet < 0 then r.audioFrameCount else r.audioFrameCount + F) +
          _ = _
        rw [List.length_cons, convertedCount_succ]
        split
        · simp
        · push_cast
          ring
      · rw [h8, hE]
      · rw [h9, hE]
        show (if (outs.headD {}).swrRet < 0 then r.audioFrame
          else r.audioFrame.map fun f => { f with pts := r.audioFrameCount }).isSome = _
        split
        · rfl
        · simp
      · rw [h10, hE]
      · rw [h11, hE]
      · rw [h12, hE]

/-! ## The audio drain: `processAudioBuffer` -/

theorem drainAudio_of_short (F : Int) (n fuel : Nat) (outs : List AudioChunkOutcome)
    (r : VideoRecorder) (h : r.audioBuffer.length < n) :
    VideoRecorder.drainAudio F n fuel outs r = some r := by
  cases fuel <;> simp [VideoRecorder.drainAudio, h]

theorem processAudioBuffer_eq_drain (r : VideoRecorder) (ctx : CodecCtx) (af : AVFrame)
    (fuel : Nat) (outs : List AudioChunkOutcome)
    (hc : r.audioCodecCtx = some ctx) (hf : r.audioFrame = some af)
    (hn : 0 < audioChunkSize ctx.frameSize r.audioChannels) :
    r.processAudioBuffer fuel outs =
      VideoRecorder.drainAudio ctx.frameSize (audioChunkSize ctx.frameSize r.audioChannels)
        fuel outs r := by
  unfold VideoRecorder.processAudioBuffer
  rw [hc, hf]
  simp only
  split
  · rename_i he
    have h0 : r.audioBuffer.length < audioChunkSize ctx.frameSize r.audioChannels := by
      rw [List.isEmpty_iff.mp he]
      exact hn
    rw [drainAudio_of_short _ _ _ _ _ h0]
  · rfl

theorem processAudioBuffer_no_frame (r : VideoRecorder) (fuel : Nat)
    (outs : List AudioChunkOutcome) (hf : r.audioFrame = none) :
    r.processAudioBuffer fuel outs = some r := by
  unfold VideoRecorder.processAudioBuffer
  rw [hf]
  cases r.audioCodecCtx <;> rfl

/-! ## The chunks of one drain -/

/-- C13, as stated, fails: a recorder whose audio encoder takes frames of 1 sample
is handed 5 samples of 1 channel, and the conversion of the first chunk fails
during the drain.  Five chunks leave the accumulator, which is left empty, but
only four frames are sent to the encoder. -/
theorem drain_drops_unconverted_chunk :
    (((({} : VideoRecorder).start {} { audioFrameSize := 1 }).2.submitAudioSamples
        [1, 2, 3, 4, 5] 5 1 48000).audioBuffer = [1, 2, 3, 4, 5]) ∧
      ((((({} : VideoRecorder).start {} { audioFrameSize := 1 }).2.submitAudioSamples
        [1, 2, 3, 4, 5] 5 1 48000).processAudioBuffer 5 [{ swrRet := -1 }]).map
          fun r => (r.audioBuffer, swrChunks r.log, audioFramesSent r.log)) =
        some ([], [[1], [2], [3], [4], [5]], 4) :=
  ⟨rfl, rfl⟩

/-- C13, amended: for an encoder frame size `F >= 1` and an active channel count
`C >= 1` with `F * C < 2^31` (the product is an `int`), one audio drain of an
accumulator holding `L` floats ends and removes exactly `floor(L / (F*C))` chunks
of exactly `F*C` floats each, these being the consecutive leading slices of the
accumulator in their original order, and leaves exactly the last `L mod (F*C)`
floats, unchanged and in order.  Every chunk is handed to the resampler; a frame
is sent to the encoder for each chunk whose conversion succeeds and for no other,
so the encoder gets `floor(L / (F*C))` frames when no conversion fails. -/
theorem drain_takes_whole_chunks (r : VideoRecorder) (ctx : CodecCtx) (af : AVFrame)
    (fuel : Nat) (outs : List AudioChunkOutcome)
    (hc : r.audioCodecCtx = some ctx) (hf : r.audioFrame = some af)
    (hF : 1 ≤ ctx.frameSize) (hC : 1 ≤ r.audioChannels)
    (hn : ctx.frameSize * r.audioChannels < 2 ^ 31)
    (hfuel : r.audioBuffer.length / (ctx.frameSize.toNat * r.audioChannels) ≤ fuel) :
    ∃ r1 cs, r.processAudioBuffer fuel outs = some r1 ∧
      swrChunks r1.log = swrChunks r.log ++ cs ∧
      cs.length = r.audioBuffer.length / (ctx.frameSize.toNat * r.audioChannels) ∧
      (∀ c ∈ cs, c.length = ctx.frameSize.toNat * r.audioChannels) ∧
      cs.flatten ++ r1.audioBuffer = r.audioBuffer ∧
      r1.audioBuffer.length = r.audioBuffer.length % (ctx.frameSize.toNat * r.audioChannels) ∧
      r1.audioBuffer =
        r.audioBuffer.drop (r.audioBuffer.length / (ctx.frameSize.toNat * r.audioChannels) *
          (ctx.frameSize.toNat * r.audioChannels)) ∧
      audioFramesSent r1.log = audioFramesSent r.log + convertedCount cs.length outs ∧
      convertedCount cs.length outs ≤ cs.length ∧
      ((∀ o ∈ outs, 0 ≤ o.swrRet) →
        audioFramesSent r1.log =
          audioFramesSent r.log +
            r.audioBuffer.length / (ctx.frameSize.toNat * r.audioChannels)) := by
  have hsz := audioChunkSize_eq ctx.frameSize r.audioChannels hF hC hn
  have hpos : 0 < ctx.frameSize.toNat * r.audioChannels := by
    have h1 : 0 < ctx.frameSize.toNat := by omega
    exact Nat.mul_pos h1 (by omega)
  generalize ctx.frameSize.toNat * r.audioChannels = n at hsz hpos hfuel ⊢
  have hpos2 : 0 < audioChunkSize ctx.frameSize r.audioChannels := by rw [hsz]; exact hpos
  obtain ⟨r1, cs, h1, h2, h3, h4, h5, h6, _⟩ :=
    drainAudio_spec ctx.frameSize n hpos fuel outs r hfuel
  have hlen := length_flatten_of_forall n cs h4
  have htot : cs.length * n + r1.audioBuffer.length = r.audioBuffer.length := by
    have := congrArg List.length h3
    rw [List.length_append, hlen] at this
    exact this
  have hdiv : cs.length = r.audioBuffer.length / n := by
    rw [← htot, Nat.mul_comm, Nat.mul_add_div hpos, Nat.div_eq_of_lt h5, Nat.add_zero]
  have hmod : r1.audioBuffer.length = r.audioBuffer.length % n := by
    rw [← htot, Nat.mul_comm, Nat.mul_add_mod, Nat.mod_eq_of_lt h5]
  refine ⟨r1, cs, ?_, h2, hdiv, h4, h3, hmod, ?_, h6, convertedCount_le _ _, ?_⟩
  · rw [processAudioBuffer_eq_drain r ctx af fuel outs hc hf hpos2, hsz]
    exact h1
  · have hd := @List.drop_left' _ cs.flatten r1.audioBuffer _ rfl
    rw [h3] at hd
    rw [← hdiv, ← hlen]
    exact hd.symm
  · intro hok
    rw [h6, convertedCount_of_ok _ _ hok, hdiv]

/-- A recorder whose audio encoder takes frames of 2 samples holds 11 floats of 2
channels: one drain removes two chunks of 4 floats and leaves the last 3. -/
theorem drain_takes_whole_chunks_witness :
    ∃ r1, ({ (({} : VideoRecorder).start {} { audioFrameSize := 2 }).2 with
          audioBuffer := [1, 2, 3, 4, 5, 6, 7, 8, 9, 10, 11] }.processAudioBuffer 2 []) =
        some r1 ∧
      swrChunks r1.log = [[1, 2, 3, 4], [5, 6, 7, 8]] ∧ r1.audioBuffer = [9, 10, 11] := by
  obtain ⟨r1, cs, h1, _⟩ := drain_takes_whole_chunks
    { (({} : VideoRecorder).start {} { audioFrameSize := 2 }).2 with
      audioBuffer := [1, 2, 3, 4, 5, 6, 7, 8, 9, 10, 11] }
    { (({} : VideoRecorder).audioCtxConfig) with frameSize := 2 } { nbSamples := 2, hasBuffer := true }
    2 [] rfl rfl (by decide) (by decide) (by decide) (by decide)
  exact ⟨_, rfl, rfl, rfl⟩

/-! ## The audio presentation timestamp over a session -/

/-- What a sequence of submissions and drains does in a session with an audio
stream, a frame size `F >= 1` and a constant channel count `C >= 1`
(`F * C < 2^31`): every drain ends; the chunks `cs` removed from the accumulator
hold `F * C` floats each and, followed by what remains, are the initial contents
followed by everything submitted; `k` of them are converted and sent to the
encoder, and the sample count advances by `F * k`. -/
theorem runAudio_spec (F : Int) (C : Nat) (hF : 1 ≤ F) (hC : 1 ≤ C) (hn : F * C < 2 ^ 31)
    (ops : List AudioOp) (r : VideoRecorder) (ctx : CodecCtx)
    (hs : r.state = RecordingState.Recording) (ha : r.audioStream.isSome = true)
    (hc : r.audioCodecCtx = some ctx) (hFc : ctx.frameSize = F) (hCr : r.audioChannels = C)
    (hch : ∀ op ∈ ops, op.usesChannels C) :
    ∃ r1 cs k, r.runAudio ops = some r1 ∧
      swrChunks r1.log = swrChunks r.log ++ cs ∧
      (∀ c ∈ cs, c.length = F.toNat * C) ∧
      cs.flatten ++ r1.audioBuffer = r.audioBuffer ++ (ops.map AudioOp.appended).flatten ∧
      audioFramesSent r1.log = audioFramesSent r.log + k ∧
      r1.audioFrameCount = r.audioFrameCount + F * k ∧
      k ≤ cs.length ∧
      ((∀ op ∈ ops, op.noConvertFailure) → k = cs.length) := by
  induction ops generalizing r with
  | nil =>
    exact ⟨r, [], 0, rfl, by simp, by simp, by simp, by simp, by simp, by simp, fun _ => rfl⟩
  | cons op rest ih =>
    have hrest : ∀ op ∈ rest, op.usesChannels C := fun x hx => hch x (List.mem_cons_of_mem _ hx)
    cases op with
    | submit data samples channels rate =>
      have hcc : channels = C := hch _ (List.mem_cons_self _ _)
      have he := submitAudioSamples_eq r data samples channels rate hs ha
      obtain ⟨r1, cs, k, h1, h2, h3, h4, h5, h6, h7, h8⟩ :=
        ih (r.submitAudioSamples data samples channels rate)
          (by rw [he]; exact hs) (by rw [he]; exact ha) (by rw [he]; exact hc)
          (by rw [he]; exact hcc) hrest
      refine ⟨r1, cs, k, h1, ?_, h3, ?_, ?_, ?_, h7, ?_⟩
      · rw [h2, he]
      · rw [h4, he]
        simp [AudioOp.appended]
      · rw [h5, he]
      · rw [h6, he]
      · intro hok
        exact h8 (fun x hx => hok x (List.mem_cons_of_mem _ hx))
    | drain outs =>
      have hsz : audioChunkSize ctx.frameSize r.audioChannels = F.toNat * C := by
        rw [hFc, hCr]; exact audioChunkSize_eq F C hF hC hn
      have hpos : 0 < F.toNat * C := by
        have h1 : 0 < F.toNat := by omega
        exact Nat.mul_pos h1 (by omega)
      have hstep : ∃ r0 cs0 k0, r.processAudioBuffer r.audioBuffer.length outs = some r0 ∧
          swrChunks r0.log = swrChunks r.log ++ cs0 ∧
          (∀ c ∈ cs0, c.length = F.toNat * C) ∧
          cs0.flatten ++ r0.audioBuffer = r.audioBuffer ∧
          audioFramesSent r0.log = audioFramesSent r.log + k0 ∧
          r0.audioFrameCount = r.audioFrameCount + F * k0 ∧
          k0 ≤ cs0.length ∧
          ((∀ o ∈ outs, 0 ≤ o.swrRet) → k0 = cs0.length) ∧
          r0.state = r.state ∧ r0.audioStream = r.audioStream ∧
          r0.audioCodecCtx = r.audioCodecCtx ∧ r0.audioChannels = r.audioChannels := by
        cases hf : r.audioFrame with
        | none =>
          exact ⟨r, [], 0, processAudioBuffer_no_frame r _ outs hf, by simp, by simp, by simp,
            by simp, by simp, by simp, fun _ => rfl, rfl, rfl, rfl, rfl⟩
        | some af =>
          obtain ⟨r0, cs0, g1, g2, g3, g4, _, g6, g7, g8, _, g10, g11, g12⟩ :=
            drainAudio_spec F (F.toNat * C) hpos r.audioBuffer.length outs r
              (Nat.div_le_self _ _)
          refine ⟨r0, cs0, convertedCount cs0.length outs, ?_, g2, g4, g3, g6, g7,
            convertedCount_le _ _, fun hok => convertedCount_of_ok _ _ hok, g11, g12, g8, g10⟩
          rw [processAudioBuffer_eq_drain r ctx af _ outs hc hf (by rw [hsz]; exact hpos), hsz,
            hFc]
          exact g1
      obtain ⟨r0, cs0, k0, g1, g2, g3, g4, g5, g6, g7, g8, g9, g10, g11, g12⟩ := hstep
      obtain ⟨r1, cs, k, h1, h2, h3, h4, h5, h6, h7, h8⟩ :=
        ih r0 (by rw [g9]; exact hs) (by rw [g10]; exact ha) (by rw [g11]; exact hc)
          (by rw [g12]; exact hCr) hrest
      refine ⟨r1, cs0 ++ cs, k0 + k, ?_, ?_, ?_, ?_, ?_, ?_, ?_, ?_⟩
      · show (match r.processAudioBuffer r.audioBuffer.length outs with
          | some r1 => r1.runAudio rest
          | none => none) = some r1
        rw [g1]
        exact h1
      · rw [h2, g2, List.append_assoc]
      · intro c hcm
        rcases List.mem_append.mp hcm with h | h
        · exact g3 c h
        · exact h3 c h
      · rw [List.flatten_append, List.append_assoc, h4, ← List.append_assoc, g4]
        simp [AudioOp.appended]
      · rw [h5, g5]; omega
      · rw [h6, g6]; push_cast; ring
      · rw [List.length_append]; omega
      · intro hok
        rw [List.length_append,
          g8 (hok (AudioOp.drain outs) (List.mem_cons_self _ _)),
          h8 (fun x hx => hok x (List.mem_cons_of_mem _ hx))]

/-- C11, as stated, fails: a recorder whose audio encoder takes frames of 1 sample
is handed 1 sample of 2 channels, and the conversion fails during the drain.  The
sample has been removed from the accumulator, but the presentation-timestamp
counter is still 0. -/
theorem audio_pts_misses_unconverted_chunk :
    (((({} : VideoRecorder).start {} { audioFrameSize := 1 }).2.runAudio
        [AudioOp.submit [1, 2] 1 2 48000, AudioOp.drain [{ swrRet := -1 }]]).map
          fun r => (r.audioBuffer, swrChunks r.log, r.audioFrameCount)) =
      some ([], [[1, 2]], 0) :=
  rfl

/-- C11, amended: in a session with an audio stream, an encoder frame size
`F >= 1` and a constant channel count `C >= 1` (`F * C < 2^31`), for every
sequence of `submitAudioSamples` and drain calls and every outcome of the
resampling and encoding steps, every drain ends, each chunk removed from the
accumulator carries `F` samples per channel (`F * C` floats), and the audio
presentation-timestamp counter has advanced by `F` times the number `k` of chunks
whose conversion succeeded, which is also the number of frames sent to the
encoder.  It equals the number `N = F * m` of per-channel samples removed (`m`
chunks) when no conversion failed, and falls short of `N` by `F` for every
conversion that failed; the outcome of the encoding plays no part, nor does the
split into submissions and drains. -/
theorem audio_pts_counts_converted_samples (r : VideoRecorder) (ctx : CodecCtx)
    (ops : List AudioOp)
    (hs : r.state = RecordingState.Recording) (ha : r.audioStream.isSome = true)
    (hc : r.audioCodecCtx = some ctx) (hF : 1 ≤ ctx.frameSize) (hC : 1 ≤ r.audioChannels)
    (hn : ctx.frameSize * r.audioChannels < 2 ^ 31)
    (hch : ∀ op ∈ ops, op.usesChannels r.audioChannels) :
    ∃ r1 cs k, r.runAudio ops = some r1 ∧
      swrChunks r1.log = swrChunks r.log ++ cs ∧
      (∀ c ∈ cs, c.length = ctx.frameSize.toNat * r.audioChannels) ∧
      cs.flatten ++ r1.audioBuffer = r.audioBuffer ++ (ops.map AudioOp.appended).flatten ∧
      audioFramesSent r1.log = audioFramesSent r.log + k ∧
      r1.audioFrameCount = r.audioFrameCount + ctx.frameSize * k ∧
      k ≤ cs.length ∧
      ((∀ op ∈ ops, op.noConvertFailure) →
        r1.audioFrameCount = r.audioFrameCount + ctx.frameSize * cs.length) := by
  obtain ⟨r1, cs, k, h1, h2, h3, h4, h5, h6, h7, h8⟩ :=
    runAudio_spec ctx.frameSize r.audioChannels hF hC hn ops r ctx hs ha hc rfl rfl hch
  refine ⟨r1, cs, k, h1, h2, h3, h4, h5, h6, h7, fun hok => ?_⟩
  rw [h6, h8 hok]

/-- A recorder whose audio encoder takes frames of 2 samples gets 3 samples of 2
channels in two submissions and is drained twice with no failure: one chunk of 2
samples per channel is removed and the counter is 2. -/
theorem audio_pts_counts_converted_samples_witness :
    ∃ r1, (({} : VideoRecorder).start {} { audioFrameSize := 2 }).2.runAudio
        [AudioOp.submit [1, 2] 1 2 48000, AudioOp.drain [],
          AudioOp.submit [3, 4, 5, 6] 2 2 48000, AudioOp.drain []] = some r1 ∧
      swrChunks r1.log = [[1, 2, 3, 4]] ∧ r1.audioBuffer = [5, 6] ∧ r1.audioFrameCount = 2 := by
  obtain ⟨r1, cs, k, h1, _⟩ := audio_pts_counts_converted_samples
    (({} : VideoRecorder).start {} { audioFrameSize := 2 }).2
    { (({} : VideoRecorder).audioCtxConfig) with frameSize := 2 }
    [AudioOp.submit [1, 2] 1 2 48000, AudioOp.drain [],
      AudioOp.submit [3, 4, 5, 6] 2 2 48000, AudioOp.drain []]
    rfl rfl rfl (by decide) (by decide) (by decide)
    (by
      intro op hop
      simp only [List.mem_cons, List.mem_singleton, List.not_mem_nil, or_false] at hop
      rcases hop with h | h | h | h <;> rw [h] <;> first | exact rfl | exact trivial)
  exact ⟨_, rfl, rfl, rfl, rfl⟩

/-! ## The quality presets -/

/-- C30: `getQualityPresets()` returns exactly six entries, named YouTube 1080p60,
YouTube 4K60, Twitter/X 720p, Discord 8MB, Lossless and Editing (ProRes), in that
order; the names are pairwise distinct; and `validate()` succeeds on the settings
of each entry. -/
theorem quality_presets_valid :
    getQualityPresets.length = 6 ∧
      (getQualityPresets.map fun p => p.name) =
        ["YouTube 1080p60", "YouTube 4K60", "Twitter/X 720p", "Discord 8MB", "Lossless",
          "Editing (ProRes)"] ∧
      (getQualityPresets.map fun p => p.name).Nodup ∧
      ∀ p ∈ getQualityPresets, p.settings.validate = Except.ok () := by
  refine ⟨rfl, rfl, ?_, ?_⟩
  · simp [getQualityPresets]
  · intro p hp
    simp only [getQualityPresets, List.mem_cons, List.mem_singleton, List.not_mem_nil,
      or_false] at hp
    rcases hp with h | h | h | h | h | h <;> rw [h] <;> rfl

/-- The settings of the lossless preset, which pairs FFV1 with the MKV container,
pass `validate()`. -/
theorem quality_presets_valid_witness :
    EncoderSettings.lossless.validate = Except.ok () :=
  quality_presets_valid.2.2.2 { name := "Lossless", description := "No quality loss, huge files"
                                settings := EncoderSettings.lossless } (by simp [getQualityPresets])

/-! ## The vertical flip -/

theorem length_writeAt (d src : List Nat) (off : Nat) (h : off + src.length ≤ d.length) :
    (writeAt d off src).length = d.length := by
  unfold writeAt
  simp only [List.length_take, List.length_append, List.length_drop]
  omega

theorem getElem?_writeAt (d src : List Nat) (off n : Nat) (h : off + src.length ≤ d.length) :
    (writeAt d off src)[n]? =
      if off ≤ n ∧ n < off + src.length then src[n - off]? else d[n]? := by
  unfold writeAt
  rw [List.getElem?_take]
  by_cases hn : n < d.length
  · rw [if_pos hn]
    by_cases h1 : n < off
    · rw [if_neg (by omega), List.append_assoc, List.getElem?_append_left (by simp; omega),
        List.getElem?_take, if_pos h1]
    · by_cases h2 : n < off + src.length
      · rw [if_pos ⟨by omega, h2⟩, List.append_assoc,
          List.getElem?_append_right (by simp; omega)]
        have e : (List.take off d).length = off := by simp; omega
        rw [e, List.getElem?_append_left (by omega)]
      · rw [if_neg (by omega), List.getElem?_append_right (by simp; omega)]
        have e : (List.take off d ++ src).length = off + src.length := by simp; omega
        rw [e, List.getElem?_drop]
        congr 1
        omega
  · rw [if_neg hn]
    have hnone : d[n]? = none := List.getElem?_eq_none (by omega)
    rw [hnone]
    split
    · rename_i hc; omega
    · rfl

theorem getElem?_imageRow (rs : Nat) (d : List Nat) (y n : Nat) :
    (imageRow rs d y)[n]? = if n < rs then d[y * rs + n]? else none := by
  unfold imageRow
  rw [List.getElem?_take, List.getElem?_drop]

theorem length_imageRow (rs : Nat) (d : List Nat) (y : Nat) (h : y * rs + rs ≤ d.length) :
    (imageRow rs d y).length = rs := by
  unfold imageRow
  simp only [List.length_take, List.length_drop]
  omega


/-- One iteration of the flip on a buffer of `h` rows of `rs` bytes, for `y` in the
upper half: rows `y` and `h - 1 - y` are exchanged and every other row is left
as it is. -/
theorem flipRows_step (rs h : Nat) (d : List Nat) (y : Nat) (hd : d.length = h * rs)
    (hy : 2 * y + 1 < h) :
    (writeAt (writeAt d (y * rs) (imageRow rs d (h - 1 - y))) ((h - 1 - y) * rs)
        (imageRow rs d y)).length = d.length ∧
      ∀ j, j < h →
        imageRow rs (writeAt (writeAt d (y * rs) (imageRow rs d (h - 1 - y))) ((h - 1 - y) * rs)
            (imageRow rs d y)) j =
          if j = y then imageRow rs d (h - 1 - y)
          else if j = h - 1 - y then imageRow rs d y
          else imageRow rs d j := by
  have hab : y * rs + rs ≤ (h - 1 - y) * rs := by
    have := Nat.mul_le_mul_right rs (show y + 1 ≤ h - 1 - y by omega)
    rw [Nat.add_mul, Nat.one_mul] at this
    exact this
  have hbL : (h - 1 - y) * rs + rs ≤ h * rs := by
    have := Nat.mul_le_mul_right rs (show (h - 1 - y) + 1 ≤ h by omega)
    rw [Nat.add_mul, Nat.one_mul] at this
    exact this
  have hlB : (imageRow rs d (h - 1 - y)).length = rs := length_imageRow rs d _ (by omega)
  have hlA : (imageRow rs d y).length = rs := length_imageRow rs d _ (by omega)
  have hl1 : (writeAt d (y * rs) (imageRow rs d (h - 1 - y))).length = d.length :=
    length_writeAt d _ _ (by omega)
  have hl2 : (writeAt (writeAt d (y * rs) (imageRow rs d (h - 1 - y))) ((h - 1 - y) * rs)
      (imageRow rs d y)).length = d.length := by
    rw [length_writeAt _ _ _ (by omega), hl1]
  refine ⟨hl2, ?_⟩
  intro j hj
  have hjL : j * rs + rs ≤ h * rs := by
    have := Nat.mul_le_mul_right rs (show j + 1 ≤ h by omega)
    rw [Nat.add_mul, Nat.one_mul] at this
    exact this
  have hja : j < y → j * rs + rs ≤ y * rs := by
    intro hlt
    have := Nat.mul_le_mul_right rs (show j + 1 ≤ y by omega)
    rw [Nat.add_mul, Nat.one_mul] at this
    exact this
  have haj : y < j → y * rs + rs ≤ j * rs := by
    intro hlt
    have := Nat.mul_le_mul_right rs (show y + 1 ≤ j by omega)
    rw [Nat.add_mul, Nat.one_mul] at this
    exact this
  have hjb : j < h - 1 - y → j * rs + rs ≤ (h - 1 - y) * rs := by
    intro hlt
    have := Nat.mul_le_mul_right rs (show j + 1 ≤ h - 1 - y by omega)
    rw [Nat.add_mul, Nat.one_mul] at this
    exact this
  have hbj : h - 1 - y < j → (h - 1 - y) * rs + rs ≤ j * rs := by
    intro hlt
    have := Nat.mul_le_mul_right rs (show (h - 1 - y) + 1 ≤ j by omega)
    rw [Nat.add_mul, Nat.one_mul] at this
    exact this
  generalize hA : y * rs = a at *
  generalize hB : (h - 1 - y) * rs = b at *
  apply List.ext_getElem?
  intro n
  rw [getElem?_imageRow, getElem?_writeAt _ _ _ _ (by omega),
    getElem?_writeAt _ _ _ _ (by omega), hlA, hlB]
  by_cases hn : n < rs
  · rw [if_pos hn]
    by_cases h1 : j = y
    · subst h1
      rw [if_pos rfl, hA, if_neg (by omega), if_pos (by omega), getElem?_imageRow, hB,
        getElem?_imageRow, hB, if_pos hn, if_pos (by omega)]
      congr 1
      omega
    · rw [if_neg h1]
      by_cases h2 : j = h - 1 - y
      · subst h2
        rw [if_pos rfl, hB, if_pos (by omega), getElem?_imageRow, hA, getElem?_imageRow, hA,
          if_pos hn, if_pos (by omega)]
        congr 1
        omega
      · have hc1 : j * rs + rs ≤ a ∨ a + rs ≤ j * rs := by
          rcases Nat.lt_or_gt_of_ne h1 with h | h
          · exact Or.inl (hja h)
          · exact Or.inr (haj h)
        have hc2 : j * rs + rs ≤ b ∨ b + rs ≤ j * rs := by
          rcases Nat.lt_or_gt_of_ne h2 with h | h
          · exact Or.inl (hjb h)
          · exact Or.inr (hbj h)
        rw [if_neg h2, if_neg (by omega), if_neg (by omega), getElem?_imageRow, if_pos hn]
  · rw [if_neg hn]
    split
    · rw [getElem?_imageRow, if_neg hn]
    · split
      · rw [getElem?_imageRow, if_neg hn]
      · rw [getElem?_imageRow, if_neg hn]

/-- Within the `u32` range the offsets of an iteration of the flip do not wrap. -/
theorem flipStep_eq (w h : Nat) (d : List Nat) (y : Nat) (hb : 4 * w * h < 2 ^ 32)
    (hy : 2 * y + 1 < h) :
    flipStep w h d y =
      writeAt (writeAt d (y * (w * 4)) (imageRow (w * 4) d (h - 1 - y)))
        ((h - 1 - y) * (w * 4)) (imageRow (w * 4) d y) := by
  have h1 : (h - 1 - y) * (w * 4) + w * 4 ≤ h * (w * 4) := by
    have := Nat.mul_le_mul_right (w * 4) (show (h - 1 - y) + 1 ≤ h by omega)
    rw [Nat.add_mul, Nat.one_mul] at this
    exact this
  have h2 : y * (w * 4) ≤ (h - 1 - y) * (w * 4) :=
    Nat.mul_le_mul_right (w * 4) (by omega)
  have h3 : h * (w * 4) = 4 * w * h := by ring
  have h4 : w * 4 ≤ h * (w * 4) := Nat.le_mul_of_pos_left _ (by omega)
  have e1 : (w * 4) % 2 ^ 32 = w * 4 := Nat.mod_eq_of_lt (by omega)
  have e2 : (y * (w * 4)) % 2 ^ 32 = y * (w * 4) := Nat.mod_eq_of_lt (by omega)
  have e3 : ((h - 1 - y) * (w * 4)) % 2 ^ 32 = (h - 1 - y) * (w * 4) :=
    Nat.mod_eq_of_lt (by omega)
  unfold flipStep imageRow
  simp only [e1, e2, e3]


/-- The flip after its first `k` iterations: the `k` uppermost and the `k` lowest
rows have changed places, the rows between them are as they were. -/
theorem flipRows_prefix (w h : Nat) (d : List Nat) (hd : d.length = 4 * w * h)
    (hb : 4 * w * h < 2 ^ 32) (k : Nat) (hk : k ≤ h / 2) :
    ((List.range k).foldl (flipStep w h) d).length = d.length ∧
      ∀ j, j < h →
        imageRow (w * 4) ((List.range k).foldl (flipStep w h) d) j =
          if j < k ∨ h - 1 - j < k then imageRow (w * 4) d (h - 1 - j)
          else imageRow (w * 4) d j := by
  induction k with
  | zero =>
    refine ⟨rfl, fun j _ => ?_⟩
    rw [if_neg (by omega)]
    rfl
  | succ k ih =>
    obtain ⟨ihl, ihr⟩ := ih (by omega)
    have hy : 2 * k + 1 < h := by omega
    have hcur : ((List.range k).foldl (flipStep w h) d).length = h * (w * 4) := by
      rw [ihl, hd]; ring
    rw [List.range_succ, List.foldl_append, List.foldl_cons, List.foldl_nil,
      flipStep_eq w h _ k hb hy]
    obtain ⟨sl, sr⟩ := flipRows_step (w * 4) h _ k hcur hy
    refine ⟨sl.trans ihl, fun j hj => ?_⟩
    rw [sr j hj]
    by_cases h1 : j = k
    · subst h1
      rw [if_pos rfl, ihr (h - 1 - j) (by omega), if_neg (by omega), if_pos (by omega)]
    · rw [if_neg h1]
      by_cases h2 : j = h - 1 - k
      · subst h2
        rw [if_pos rfl, ihr k (by omega), if_neg (by omega), if_pos (by omega)]
        congr 1
        omega
      · rw [if_neg h2, ihr j hj]
        by_cases h3 : j < k ∨ h - 1 - j < k
        · rw [if_pos h3, if_pos (by omega)]
        · rw [if_neg h3, if_neg (by omega)]

theorem writeAt_whole (bytes : List Nat) :
    writeAt (List.replicate bytes.length 0) 0 (bytes.take bytes.length) = bytes := by
  unfold writeAt
  simp

/-- C23: for every width `w`, height `h` and pixel buffer of exactly `4*w*h` bytes
with `4*w*h < 2^32`, the vertical flip of `FrameGrabber::flipImage` yields a
buffer of the same length whose row `y`, for every `0 <= y < h`, is row
`h-1-y` of the input with its bytes in their order; for odd `h` the middle row
is unchanged.  The frame that `AsyncFrameGrabber::getCompletedFrame` builds from
a mapped buffer of `4*w*h` bytes, by the same loop, has the rows of that buffer
in the reverse order. -/
theorem flipImage_rows (w h : Nat) (data : List Nat) (hd : data.length = 4 * w * h)
    (hb : 4 * w * h < 2 ^ 32) :
    (flipImage data w h).length = data.length ∧
      (∀ y, y < h →
        imageRow (4 * w) (flipImage data w h) y = imageRow (4 * w) data (h - 1 - y)) ∧
      (h % 2 = 1 →
        imageRow (4 * w) (flipImage data w h) (h / 2) = imageRow (4 * w) data (h / 2)) ∧
      ∀ slot : PBOSlot,
        (completeSlot w h slot data).data.length = data.length ∧
          ∀ y, y < h →
            imageRow (4 * w) (completeSlot w h slot data).data y =
              imageRow (4 * w) data (h - 1 - y) := by
  obtain ⟨hl, hr⟩ := flipRows_prefix w h data hd hb (h / 2) (Nat.le_refl _)
  have hrows : ∀ y, y < h →
      imageRow (4 * w) (flipImage data w h) y = imageRow (4 * w) data (h - 1 - y) := by
    intro y hy
    rw [Nat.mul_comm 4 w]
    unfold flipImage
    rw [hr y hy]
    by_cases hc : y < h / 2 ∨ h - 1 - y < h / 2
    · rw [if_pos hc]
    · rw [if_neg hc]
      congr 1
      omega
  have hsize : (w * h * 4) % 2 ^ 32 = data.length := by
    rw [hd]
    have e : w * h * 4 = 4 * w * h := by ring
    rw [e]
    exact Nat.mod_eq_of_lt hb
  have hcopy : ∀ slot : PBOSlot, (completeSlot w h slot data).data = flipImage data w h := by
    intro slot
    show flipImage (writeAt (List.replicate ((w * h * 4) % 2 ^ 32) 0) 0
      (data.take ((w * h * 4) % 2 ^ 32))) w h = _
    rw [hsize, writeAt_whole]
  have hl2 : (flipImage data w h).length = data.length := hl
  refine ⟨hl2, hrows, fun hodd => ?_, fun slot => ?_⟩
  · rw [hrows (h / 2) (by omega)]
    congr 1
    omega
  · rw [hcopy slot]
    exact ⟨hl2, hrows⟩

/-- An image of 1 by 3 pixels: the first and the last row change places and the
middle row stays. -/
theorem flipImage_rows_witness :
    flipImage [1, 1, 1, 1, 2, 2, 2, 2, 3, 3, 3, 3] 1 3 = [3, 3, 3, 3, 2, 2, 2, 2, 1, 1, 1, 1] ∧
      imageRow (4 * 1) (flipImage [1, 1, 1, 1, 2, 2, 2, 2, 3, 3, 3, 3] 1 3) 0 =
        imageRow (4 * 1) [1, 1, 1, 1, 2, 2, 2, 2, 3, 3, 3, 3] (3 - 1 - 0) :=
  ⟨by decide,
    (flipImage_rows 1 3 [1, 1, 1, 1, 2, 2, 2, 2, 3, 3, 3, 3] rfl (by norm_num)).2.1 0
      (by decide)⟩

/-! ## The sequence numbers of the queued frames -/

theorem grabScreen_eq_grab (g : FrameGrabber) (width height : Nat) (timestamp : Int)
    (screen : List Nat) :
    g.grabScreen width height timestamp screen = g.grab ⟨width, height, screen⟩ timestamp := rfl

theorem getNextFrame_frameNumber (g : FrameGrabber) :
    g.getNextFrame.2.frameNumber = g.frameNumber := by
  cases h : g.frameQueue with
  | nil => rw [getNextFrame_of_nil g h]
  | cons f q => rw [getNextFrame_of_cons g f q h]

theorem increasingNumbers_of_sublist {l1 l2 : List GrabbedFrame} (h : List.Sublist l1 l2)
    (h2 : increasingNumbers l2) : increasingNumbers l1 := by
  unfold increasingNumbers at *
  exact List.Pairwise.sublist (List.Sublist.map _ h) h2

theorem increasingNumbers_snoc (l : List GrabbedFrame) (f : GrabbedFrame)
    (h1 : increasingNumbers l) (h2 : ∀ x ∈ l, x.frameNumber < f.frameNumber) :
    increasingNumbers (l ++ [f]) := by
  unfold increasingNumbers at *
  rw [List.map_append, List.pairwise_append]
  refine ⟨h1, by simp, ?_⟩
  intro a ha b hb
  simp only [List.map_cons, List.map_nil, List.mem_singleton] at hb
  obtain ⟨x, hx, rfl⟩ := List.mem_map.mp ha
  rw [hb]
  exact h2 x hx

theorem numbered_grab (d : List GrabbedFrame) (g : FrameGrabber) (t : RenderTarget) (ts : Int)
    (hn : FrameGrabber.numbered (d, g)) (ha : g.frameNumber + 1 < 2 ^ 32) :
    FrameGrabber.numbered (d, g.grab t ts) := by
  cases hr : g.running with
  | false =>
    have : g.grab t ts = g := by unfold FrameGrabber.grab; simp [hr]
    rw [this]
    exact hn
  | true =>
    obtain ⟨h1, h2, h3⟩ := grab_running g hr t ts
    have hsub := grab_queue_sublist g t ts
    rw [hr, if_pos rfl] at hsub
    have hsub2 : List.Sublist (d ++ (g.grab t ts).frameQueue)
        ((d ++ g.frameQueue) ++ [captureFrame g.flipVertical g.frameNumber t ts]) := by
      rw [List.append_assoc]
      exact List.Sublist.append (List.Sublist.refl d) hsub
    have hbig : increasingNumbers
        ((d ++ g.frameQueue) ++ [captureFrame g.flipVertical g.frameNumber t ts]) :=
      increasingNumbers_snoc _ _ hn.1 (fun x hx => hn.2 x hx)
    refine ⟨increasingNumbers_of_sublist hsub2 hbig, ?_⟩
    intro f hf
    have hf2 := hsub2.subset hf
    have hcnt : (g.grab t ts).frameNumber = g.frameNumber + 1 := by
      rw [h3]; exact Nat.mod_eq_of_lt ha
    show f.frameNumber < (g.grab t ts).frameNumber
    rw [hcnt]
    rcases List.mem_append.mp hf2 with h | h
    · exact Nat.lt_succ_of_lt (hn.2 f h)
    · rw [List.mem_singleton.mp h]
      exact Nat.lt_succ_self _


theorem numbered_step (s : List GrabbedFrame × FrameGrabber) (op : GrabberOp)
    (hn : FrameGrabber.numbered s) (ha : op.admissibleAt s.2) :
    FrameGrabber.numbered (FrameGrabber.stepTrace s op) := by
  obtain ⟨d, g⟩ := s
  cases op with
  | start =>
    have hq : g.frameQueue = [] := ha
    unfold FrameGrabber.numbered
    simp [FrameGrabber.stepTrace, GrabberOp.resets, FrameGrabber.stepOp, FrameGrabber.start,
      FrameGrabber.resetStats, hq, increasingNumbers]
  | resetStats =>
    have hq : g.frameQueue = [] := ha
    unfold FrameGrabber.numbered
    simp [FrameGrabber.stepTrace, GrabberOp.resets, FrameGrabber.stepOp,
      FrameGrabber.resetStats, hq, increasingNumbers]
  | stop =>
    have e : FrameGrabber.stepTrace (d, g) GrabberOp.stop = (d, g.stop) := by
      simp [FrameGrabber.stepTrace, GrabberOp.resets, FrameGrabber.stepOp]
    rw [e]
    exact hn
  | clear =>
    have e : FrameGrabber.stepTrace (d, g) GrabberOp.clear = (d, g.clear) := by
      simp [FrameGrabber.stepTrace, GrabberOp.resets, FrameGrabber.stepOp]
    rw [e]
    have hsub : List.Sublist (d ++ g.clear.frameQueue) (d ++ g.frameQueue) :=
      List.Sublist.append (List.Sublist.refl d) (List.nil_sublist _)
    exact ⟨increasingNumbers_of_sublist hsub hn.1, fun f hf => hn.2 f (hsub.subset hf)⟩
  | getNextFrame =>
    have e : FrameGrabber.stepTrace (d, g) GrabberOp.getNextFrame =
        (d ++ g.getNextFrame.1.toList, g.getNextFrame.2) := by
      simp [FrameGrabber.stepTrace, GrabberOp.resets, FrameGrabber.stepOp]
    rw [e]
    unfold FrameGrabber.numbered
    simp only
    rw [List.append_assoc, getNextFrame_queue, getNextFrame_frameNumber]
    exact hn
  | grab t ts =>
    have e : FrameGrabber.stepTrace (d, g) (GrabberOp.grab t ts) = (d, g.grab t ts) := by
      simp [FrameGrabber.stepTrace, GrabberOp.resets, FrameGrabber.stepOp]
    rw [e]
    exact numbered_grab d g t ts hn ha
  | grabScreen w h ts screen =>
    have e : FrameGrabber.stepTrace (d, g) (GrabberOp.grabScreen w h ts screen) =
        (d, g.grab ⟨w, h, screen⟩ ts) := by
      simp [FrameGrabber.stepTrace, GrabberOp.resets, FrameGrabber.stepOp, grabScreen_eq_grab]
    rw [e]
    exact numbered_grab d g ⟨w, h, screen⟩ ts hn ha

theorem numbered_run (ops : List GrabberOp) (s : List GrabbedFrame × FrameGrabber)
    (hn : FrameGrabber.numbered s) (ha : s.2.admissible ops) :
    FrameGrabber.numbered (ops.foldl FrameGrabber.stepTrace s) := by
  induction ops generalizing s with
  | nil => exact hn
  | cons op rest ih =>
    rw [List.foldl_cons]
    exact ih _ (numbered_step s op hn ha.1) ha.2

/-- C21, as stated, fails: a grabber is started, grabs a frame, has its statistics
reset and grabs another frame; the two queued frames both carry the sequence
number 0. -/
theorem resetStats_repeats_frame_number :
    ((({} : FrameGrabber).runOps
        [GrabberOp.start, GrabberOp.grab ⟨1, 1, [1, 2, 3, 4]⟩ 10, GrabberOp.resetStats,
          GrabberOp.grab ⟨1, 1, [5, 6, 7, 8]⟩ 20]).2.frameQueue.map fun f => f.frameNumber) =
        [0, 0] ∧
      ¬ increasingNumbers (({} : FrameGrabber).runOps
        [GrabberOp.start, GrabberOp.grab ⟨1, 1, [1, 2, 3, 4]⟩ 10, GrabberOp.resetStats,
          GrabberOp.grab ⟨1, 1, [5, 6, 7, 8]⟩ 20]).2.frameQueue := by
  refine ⟨by decide, ?_⟩
  unfold increasingNumbers
  decide

/-- C21, amended: in every state of a `FrameGrabber` reached from a freshly
constructed one through start, stop, grab, grabScreen, getNextFrame, clear and
resetStats, in which start and resetStats (which reset the sequence counter) are
only called while the queue is empty and a capture is only made while the `u32`
sequence counter is below `2^32 - 1`, the frames in the queue have strictly
increasing `frameNumber` from oldest to newest, all below the counter; and the
frames that `getNextFrame` has returned since the last reset, followed by the
queued ones, are numbered increasingly, so successive frames returned between two
resets have strictly increasing sequence numbers. -/
theorem queue_numbers_increase (ops : List GrabberOp)
    (ha : ({} : FrameGrabber).admissible ops) :
    increasingNumbers (({} : FrameGrabber).runOps ops).2.frameQueue ∧
      increasingNumbers (({} : FrameGrabber).runOps ops).1 ∧
      increasingNumbers ((({} : FrameGrabber).runOps ops).1 ++
        (({} : FrameGrabber).runOps ops).2.frameQueue) ∧
      ∀ f ∈ (({} : FrameGrabber).runOps ops).2.frameQueue,
        f.frameNumber < (({} : FrameGrabber).runOps ops).2.frameNumber := by
  have h0 : FrameGrabber.numbered (([] : List GrabbedFrame), ({} : FrameGrabber)) := by
    unfold FrameGrabber.numbered increasingNumbers
    simp
  have h := numbered_run ops ([], {}) h0 ha
  refine ⟨increasingNumbers_of_sublist (List.sublist_append_right _ _) h.1,
    increasingNumbers_of_sublist (List.sublist_append_left _ _) h.1, h.1, ?_⟩
  intro f hf
  exact h.2 f (List.mem_append_right _ hf)

/-- A grabber is started, captures two frames, has one dequeued and captures a
third: the frames left in the queue are numbered 1 and 2. -/
theorem queue_numbers_increase_witness :
    increasingNumbers (({} : FrameGrabber).runOps
        [GrabberOp.start, GrabberOp.grab ⟨1, 1, [1, 2, 3, 4]⟩ 10,
          GrabberOp.grabScreen 1 1 20 [5, 6, 7, 8], GrabberOp.getNextFrame,
          GrabberOp.grab ⟨1, 1, [1, 2, 3, 4]⟩ 30]).2.frameQueue ∧
      ((({} : FrameGrabber).runOps
        [GrabberOp.start, GrabberOp.grab ⟨1, 1, [1, 2, 3, 4]⟩ 10,
          GrabberOp.grabScreen 1 1 20 [5, 6, 7, 8], GrabberOp.getNextFrame,
          GrabberOp.grab ⟨1, 1, [1, 2, 3, 4]⟩ 30]).2.frameQueue.map fun f => f.frameNumber) =
        [1, 2] :=
  ⟨(queue_numbers_increase
      [GrabberOp.start, GrabberOp.grab ⟨1, 1, [1, 2, 3, 4]⟩ 10,
        GrabberOp.grabScreen 1 1 20 [5, 6, 7, 8], GrabberOp.getNextFrame,
        GrabberOp.grab ⟨1, 1, [1, 2, 3, 4]⟩ 30]
      ⟨rfl, (show (0 : Nat) + 1 < 2 ^ 32 by norm_num), (show (1 : Nat) + 1 < 2 ^ 32 by norm_num),
        trivial, (show (2 : Nat) + 1 < 2 ^ 32 by norm_num), trivial⟩).1,
    by decide⟩

/-! ## Failures of one frame or one packet -/

theorem writePacket_fail (r : VideoRecorder) (video : Bool) (p : PacketOutcome)
    (h : p.writeRet < 0) : (r.writePacket video p).1 = false := by
  unfold VideoRecorder.writePacket
  simp [h]

/-- A drain that meets a failing packet after packets that are received and written
reports failure. -/
theorem drainPackets_fails (video : Bool) (pre : List PacketOutcome) (p : PacketOutcome)
    (post : List PacketOutcome) (r : VideoRecorder)
    (hpre : ∀ q ∈ pre, 0 ≤ q.recvRet ∧ 0 ≤ q.writeRet) (hp : p.recvFails ∨ p.writeFails) :
    (r.drainPackets video (pre ++ p :: post)).1 = false := by
  induction pre generalizing r with
  | nil =>
    rw [List.nil_append]
    unfold VideoRecorder.drainPackets
    simp only
    rcases hp with hp | hp
    · rw [if_neg (by intro hc; rcases hc with hc | hc; exact hp.2.1 hc; exact hp.2.2 hc),
        if_pos hp.1]
    · have h1 : ¬ (p.recvRet = AVERROR_EAGAIN ∨ p.recvRet = AVERROR_EOF) := by
        have := hp.1
        unfold AVERROR_EAGAIN AVERROR_EOF
        omega
      have h2 : ¬ p.recvRet < 0 := by have := hp.1; omega
      rw [if_neg h1, if_neg h2]
      have hw := writePacket_fail (r.call (Effect.receivePacket video)) video p hp.2
      have : (r.call (Effect.receivePacket video)).writePacket video p =
          (false, ((r.call (Effect.receivePacket video)).writePacket video p).2) := by
        rw [← hw]
      rw [this]
  | cons q rest ih =>
    have hq := hpre q (List.mem_cons_self _ _)
    rw [List.cons_append]
    unfold VideoRecorder.drainPackets
    simp only
    have h1 : ¬ (q.recvRet = AVERROR_EAGAIN ∨ q.recvRet = AVERROR_EOF) := by
      have := hq.1
      unfold AVERROR_EAGAIN AVERROR_EOF
      omega
    have h2 : ¬ q.recvRet < 0 := by have := hq.1; omega
    rw [if_neg h1, if_neg h2]
    have hw := writePacket_ok (r.call (Effect.receivePacket video)) video q hq.2
    have : (r.call (Effect.receivePacket video)).writePacket video q =
        (true, ((r.call (Effect.receivePacket video)).writePacket video q).2) := by
      rw [← hw]
    rw [this]
    simp only
    exact ih _ (fun x hx => hpre x (List.mem_cons_of_mem _ hx))

theorem encodeVideoFrame_fails (r : VideoRecorder) (o : EncodeOutcomes) (h : o.fails) :
    (r.encodeVideoFrame o).1 = false := by
  unfold VideoRecorder.encodeVideoFrame
  simp only
  by_cases hs : o.sendRet < 0
  · rw [if_pos hs]
  · rw [if_neg hs]
    rcases h with h | ⟨pre, p, post, he, hpre, hp⟩
    · exact absurd h hs
    · rw [he]
      exact drainPackets_fails true pre p post _ hpre hp

/-- A frame whose encoding fails is stamped and sent like any other, and leaves
`framesWritten` as it was. -/
theorem processVideoFrame_of_fails (r : VideoRecorder) (frame : GrabbedFrame)
    (o : EncodeOutcomes) (c : CodecCtx) (vf : AVFrame) (hc : r.videoCodecCtx = some c)
    (hf : r.videoFrame = some vf) (h : o.fails) :
    ∃ L b, r.processVideoFrame frame o =
        { r with
          log := r.log ++ Effect.swsScale :: Effect.sendFrame true false :: L
          videoFrame := some { vf with pts := r.videoFrameCount }
          videoFrameCount := r.videoFrameCount + 1
          stats := { r.stats with bytesWritten := b } } := by
  obtain ⟨L, b, hL, _⟩ := encodeVideoFrame_eq (r.stampVideoFrame vf) o
  have hfail := encodeVideoFrame_fails (r.stampVideoFrame vf) o h
  refine ⟨L, b, ?_⟩
  unfold VideoRecorder.processVideoFrame
  rw [hc, hf]
  simp only
  rw [if_neg (by rw [hfail]; simp), hL]
  simp [VideoRecorder.stampVideoFrame, VideoRecorder.call, hc]


theorem drainAudio_skip (F : Int) (n fuel : Nat) (o : AudioChunkOutcome)
    (outs : List AudioChunkOutcome) (r : VideoRecorder) (hn : n ≤ r.audioBuffer.length)
    (ho : o.swrRet < 0) :
    VideoRecorder.drainAudio F n (fuel + 1) (o :: outs) r =
      VideoRecorder.drainAudio F n fuel outs (r.takeChunk n) := by
  have e : VideoRecorder.drainAudio F n (fuel + 1) (o :: outs) r =
      if r.audioBuffer.length < n then some r
      else VideoRecorder.drainAudio F n fuel outs (r.drainChunk F n o) := rfl
  rw [e, if_neg (by omega)]
  unfold VideoRecorder.drainChunk
  rw [if_pos ho]

/-- C24: per-frame and per-packet failures are skipped without stopping the
recording.  When the send of a video frame, the drain of a packet or the write of
a packet fails for a frame submitted to a recorder that is recording, the recorder
stays in state Recording, `framesWritten` is not incremented for that frame, and
every frame submitted later is still stamped and sent to the encoder and counted
in `framesWritten` when its encoding succeeds.  When the conversion of an audio
chunk fails, the chunk is removed, no frame is sent for it, and the drain loop
goes on with the next chunk. -/
theorem failures_are_skipped (r : VideoRecorder) (data : List Nat) (width height : Nat)
    (timestamp : Int) (o : EncodeOutcomes)
    (hs : r.state = RecordingState.Recording) (hc : r.videoCodecCtx.isSome = true)
    (hf : r.videoFrame.isSome = true) (hw : r.stats.framesWritten < 2 ^ 64)
    (hfail : o.fails) :
    (r.submitVideoFrame data width height timestamp o).state = RecordingState.Recording ∧
      (r.submitVideoFrame data width height timestamp o).stats.framesWritten =
        r.stats.framesWritten ∧
      (∃ L, (r.submitVideoFrame data width height timestamp o).log =
        r.log ++ Effect.swsScale :: Effect.sendFrame true false :: L) ∧
      (∀ subs : List VideoSubmission,
        ((r.submitVideoFrame data width height timestamp o).submitAll subs).state =
            RecordingState.Recording ∧
          ((r.submitVideoFrame data width height timestamp o).submitAll subs).videoFrameCount =
            (r.submitVideoFrame data width height timestamp o).videoFrameCount + subs.length ∧
          ((∀ s ∈ subs, s.outcome.succeeds) →
            ((r.submitVideoFrame data width height timestamp o).submitAll
                subs).stats.framesWritten =
              (r.stats.framesWritten + subs.length) % 2 ^ 64)) ∧
      (∀ (F : Int) (n fuel : Nat) (oa : AudioChunkOutcome) (outs : List AudioChunkOutcome),
        oa.swrRet < 0 → n ≤ r.audioBuffer.length →
          VideoRecorder.drainAudio F n (fuel + 1) (oa :: outs) r =
              VideoRecorder.drainAudio F n fuel outs (r.takeChunk n) ∧
            (r.takeChunk n).audioBuffer = r.audioBuffer.drop n ∧
            audioFramesSent (r.takeChunk n).log = audioFramesSent r.log ∧
            (r.takeChunk n).state = r.state) := by
  obtain ⟨c, hc1⟩ := Option.isSome_iff_exists.mp hc
  obtain ⟨vf, hf1⟩ := Option.isSome_iff_exists.mp hf
  obtain ⟨L, b, he⟩ := processVideoFrame_of_fails r
    { width := width, height := height, timestamp := timestamp
      data := data.take ((width * height * 4) % 2 ^ 32) } o c vf hc1 hf1 hfail
  have hsub : r.submitVideoFrame data width height timestamp o =
      { r with
        log := r.log ++ Effect.swsScale :: Effect.sendFrame true false :: L
        videoFrame := some { vf with pts := r.videoFrameCount }
        videoFrameCount := r.videoFrameCount + 1
        stats := { r.stats with bytesWritten := b } } := by
    unfold VideoRecorder.submitVideoFrame
    rw [if_neg (not_not.mpr hs)]
    exact he
  obtain ⟨r1, hr1⟩ : ∃ r1 : VideoRecorder, r1 =
      { r with
        log := r.log ++ Effect.swsScale :: Effect.sendFrame true false :: L
        videoFrame := some { vf with pts := r.videoFrameCount }
        videoFrameCount := r.videoFrameCount + 1
        stats := { r.stats with bytesWritten := b } } := ⟨_, rfl⟩
  have g1 : r1.state = RecordingState.Recording := by rw [hr1]; exact hs
  have g2 : r1.videoCodecCtx.isSome = true := by rw [hr1]; exact hc
  have g3 : r1.videoFrame.isSome = true := by rw [hr1]; rfl
  have g4 : r1.stats.framesWritten = r.stats.framesWritten := by rw [hr1]
  have g5 : r1.log = r.log ++ Effect.swsScale :: Effect.sendFrame true false :: L := by
    rw [hr1]
  rw [hsub, ← hr1]
  refine ⟨g1, g4, ⟨L, g5⟩, fun subs => ?_, ?_⟩
  · rw [submitAll_eq_processAll subs r1 g1]
    obtain ⟨_, _, p3, p4, _, _, p7⟩ := processAll_counts
      (subs.map fun s =>
        ({ frame := { width := s.width, height := s.height, timestamp := s.timestamp
                      data := s.data.take ((s.width * s.height * 4) % 2 ^ 32) }
           outcome := s.outcome } : VideoInput)) r1 g2 g3 (by rw [g4]; exact hw)
    rw [List.length_map] at p3 p7
    rw [g4] at p7
    refine ⟨p4.trans g1, p3, fun hall => ?_⟩
    apply p7
    intro i hi
    obtain ⟨s, hsm, rfl⟩ := List.mem_map.mp hi
    exact hall s hsm
  · intro F n fuel oa outs ho hn
    refine ⟨drainAudio_skip F n fuel oa outs r hn ho, rfl, ?_, rfl⟩
    show audioFramesSent (r.log ++ [Effect.swrConvert (r.audioBuffer.take n)]) = _
    rw [audioFramesSent_append]
    rfl

/-- A recorder started with the default settings gets a frame whose packet cannot be
written and then a frame that encodes: the recorder is still recording, the first
frame is not counted and the second one is. -/
theorem failures_are_skipped_witness :
    ((({} : VideoRecorder).start {} {}).2.submitVideoFrame [] 0 0 0
        { packets := [{ writeRet := -1 }] }).state = RecordingState.Recording ∧
      ((({} : VideoRecorder).start {} {}).2.submitVideoFrame [] 0 0 0
        { packets := [{ writeRet := -1 }] }).stats.framesWritten = 0 ∧
      (((({} : VideoRecorder).start {} {}).2.submitVideoFrame [] 0 0 0
        { packets := [{ writeRet := -1 }] }).submitAll [{}]).stats.framesWritten = 1 :=
  have h := failures_are_skipped (({} : VideoRecorder).start {} {}).2 [] 0 0 0
    { packets := [{ writeRet := -1 }] } rfl rfl rfl (by decide)
    (Or.inr ⟨[], { writeRet := -1 }, [], rfl, fun q hq => absurd hq (List.not_mem_nil q),
      Or.inr ⟨by decide, by decide⟩⟩)
  ⟨h.1, h.2.1, (h.2.2.2.1 [{}]).2.2
    (fun s hs => by
      rw [List.mem_singleton.mp hs]
      exact ⟨by decide, fun p hp => absurd hp (List.not_mem_nil p)⟩)⟩

/-! ## The flush against the drain of normal operation -/

theorem flushDrain_log_prefix (video : Bool) (ps : List PacketOutcome) (r : VideoRecorder) :
    List.IsPrefix r.log (r.flushDrain video ps).log := by
  obtain ⟨L, b, h, _⟩ := flushDrain_eq video ps r
  rw [h]
  exact List.prefix_append _ _

/-- The calls of the drain of normal operation are the first calls of the drain of
the flush, whatever the codec and the writes return. -/
theorem drainPackets_prefix_flushDrain (video : Bool) (ps : List PacketOutcome)
    (r : VideoRecorder) :
    List.IsPrefix (r.drainPackets video ps).2.log (r.flushDrain video ps).log := by
  induction ps generalizing r with
  | nil => exact List.prefix_refl _
  | cons p rest ih =>
    unfold VideoRecorder.drainPackets VideoRecorder.flushDrain
    simp only
    by_cases h1 : p.recvRet = AVERROR_EAGAIN ∨ p.recvRet = AVERROR_EOF
    · have h2 : ¬ 0 ≤ p.recvRet := by
        unfold AVERROR_EAGAIN AVERROR_EOF at h1
        omega
      rw [if_pos h1, if_neg h2]
    · rw [if_neg h1]
      by_cases h3 : p.recvRet < 0
      · rw [if_pos h3, if_neg (by omega)]
      · rw [if_neg h3, if_pos (by omega)]
        cases hw : ((r.call (Effect.receivePacket video)).writePacket video p).1 with
        | false =>
          have : (r.call (Effect.receivePacket video)).writePacket video p =
              (false, ((r.call (Effect.receivePacket video)).writePacket video p).2) := by
            rw [← hw]
          rw [this]
          simp only
          exact flushDrain_log_prefix video rest _
        | true =>
          have : (r.call (Effect.receivePacket video)).writePacket video p =
              (true, ((r.call (Effect.receivePacket video)).writePacket video p).2) := by
            rw [← hw]
          rw [this]
          simp only
          exact ih _

/-- When no write fails the drain of the flush does what the drain of normal
operation does. -/
theorem flushDrain_eq_drainPackets (video : Bool) (ps : List PacketOutcome)
    (r : VideoRecorder) (hw : ∀ p ∈ ps, 0 ≤ p.writeRet) :
    r.flushDrain video ps = (r.drainPackets video ps).2 := by
  induction ps generalizing r with
  | nil => rfl
  | cons p rest ih =>
    unfold VideoRecorder.drainPackets VideoRecorder.flushDrain
    simp only
    by_cases h1 : p.recvRet = AVERROR_EAGAIN ∨ p.recvRet = AVERROR_EOF
    · have h2 : ¬ 0 ≤ p.recvRet := by
        unfold AVERROR_EAGAIN AVERROR_EOF at h1
        omega
      rw [if_pos h1, if_neg h2]
    · rw [if_neg h1]
      by_cases h3 : p.recvRet < 0
      · rw [if_pos h3, if_neg (by omega)]
      · rw [if_neg h3, if_pos (by omega)]
        have hok := writePacket_ok (r.call (Effect.receivePacket video)) video p
          (hw p (List.mem_cons_self _ _))
        have : (r.call (Effect.receivePacket video)).writePacket video p =
            (true, ((r.call (Effect.receivePacket video)).writePacket video p).2) := by
          rw [← hok]
        rw [this]
        simp only
        exact ih _ (fun q hq => hw q (List.mem_cons_of_mem _ hq))

theorem packetWrites_le_of_prefix (video : Bool) {l1 l2 : List Effect}
    (h : List.IsPrefix l1 l2) : packetWrites video l1 ≤ packetWrites video l2 := by
  unfold packetWrites
  exact List.Sublist.count_le h.sublist _

/-- C25, as stated, fails: the video codec of a recorder started with the default
settings holds two packets and the write of the first one fails.  The flush
attempts to write both packets; the normal encode-and-drain routine, given the
null frame, stops after the failed write. -/
theorem flush_continues_after_failed_write :
    ((({} : VideoRecorder).start {} {}).2.flushCodec true [{ writeRet := -1 }, {}]).log =
        (({} : VideoRecorder).start {} {}).2.log ++
          [Effect.sendFrame true true, Effect.receivePacket true, Effect.writeFrame true,
            Effect.receivePacket true, Effect.writeFrame true, Effect.receivePacket true] ∧
      ((({} : VideoRecorder).start {} {}).2.encodeEndOfStream true
          { packets := [{ writeRet := -1 }, {}] }).2.log =
        (({} : VideoRecorder).start {} {}).2.log ++
          [Effect.sendFrame true true, Effect.receivePacket true, Effect.writeFrame true] ∧
      packetWrites true
          ((({} : VideoRecorder).start {} {}).2.flushCodec true [{ writeRet := -1 }, {}]).log ≠
        packetWrites true
          ((({} : VideoRecorder).start {} {}).2.encodeEndOfStream true
            { packets := [{ writeRet := -1 }, {}] }).2.log :=
  ⟨rfl, rfl, by decide⟩

/-- C25, amended: `flushEncoders` sends the end-of-stream (null) frame to each
codec that exists and then drains it by a loop of its own, which ignores the
result of the send and of every packet write and goes on until the codec returns
a negative value.  The calls that the normal encode-and-drain routine
(`encodeVideoFrame` / `encodeAudioFrame`) would make when given the null frame
are the first calls of the flush, so the flush attempts at least the same writes;
and whenever the send succeeds and no packet write fails the two do exactly the
same: the same calls, the same packets written, the same recorder afterwards. -/
theorem flush_extends_normal_drain (r : VideoRecorder) (video : Bool) (o : EncodeOutcomes)
    (hc : r.hasCodec video = true) :
    List.IsPrefix (r.encodeEndOfStream video o).2.log (r.flushCodec video o.packets).log ∧
      packetWrites video (r.encodeEndOfStream video o).2.log ≤
        packetWrites video (r.flushCodec video o.packets).log ∧
      (0 ≤ o.sendRet → (∀ p ∈ o.packets, 0 ≤ p.writeRet) →
        r.flushCodec video o.packets = (r.encodeEndOfStream video o).2) ∧
      ∀ fo : FlushOutcomes,
        r.flushEncoders fo =
          (r.flushCodec true fo.video.packets).flushCodec false fo.audio.packets := by
  have hpre : List.IsPrefix (r.encodeEndOfStream video o).2.log
      (r.flushCodec video o.packets).log := by
    unfold VideoRecorder.encodeEndOfStream VideoRecorder.flushCodec
    rw [if_pos hc]
    simp only
    split
    · exact flushDrain_log_prefix video o.packets _
    · exact drainPackets_prefix_flushDrain video o.packets _
  refine ⟨hpre, packetWrites_le_of_prefix video hpre, fun hs hw => ?_, fun fo => rfl⟩
  unfold VideoRecorder.encodeEndOfStream VideoRecorder.flushCodec
  rw [if_pos hc]
  simp only
  rw [if_neg (by omega)]
  exact flushDrain_eq_drainPackets video o.packets _ hw

/-- The audio codec of a recorder started with the default settings holds two
packets that are received and written: the flush and the normal routine given the
null frame leave the same recorder. -/
theorem flush_extends_normal_drain_witness :
    (({} : VideoRecorder).start {} {}).2.flushCodec false [{ size := 3 }, { size := 4 }] =
      ((({} : VideoRecorder).start {} {}).2.encodeEndOfStream false
        { packets := [{ size := 3 }, { size := 4 }] }).2 :=
  (flush_extends_normal_drain (({} : VideoRecorder).start {} {}).2 false
    { packets := [{ size := 3 }, { size := 4 }] } rfl).2.2.1 (by decide)
    (fun p hp => by
      simp only [List.mem_cons, List.mem_singleton, List.not_mem_nil, or_false] at hp
      rcases hp with h | h <;> simp [h])

/-! ## An audio drain that does not end -/

theorem processAudioBuffer_zero_chunk (r : VideoRecorder) (ctx : CodecCtx) (af : AVFrame)
    (hc : r.audioCodecCtx = some ctx) (hf : r.audioFrame = some af)
    (hne : r.audioBuffer.isEmpty = false)
    (hz : audioChunkSize ctx.frameSize r.audioChannels = 0) (fuel : Nat)
    (outs : List AudioChunkOutcome) : r.processAudioBuffer fuel outs = none := by
  unfold VideoRecorder.processAudioBuffer
  rw [hc, hf]
  simp only
  rw [hne, hz]
  exact drainAudio_zero_chunk _ _ _ _

/-- C26 fails on the code.  A recorder is started with the Editing preset, whose
PCM audio codec reports a frame size of 0, and is handed one sample of two
channels: the drain loop removes nothing and does not end, whatever the number of
iterations allowed.  The same happens with a frame size of 1024 once a submission
has recorded 0 channels while the accumulator is not empty. -/
theorem audio_drain_does_not_end_on_zero_chunk :
    ((({} : VideoRecorder).start EncoderSettings.editing { audioFrameSize := 0 }).2.state =
        RecordingState.Recording) ∧
      (∀ (fuel : Nat) (outs : List AudioChunkOutcome),
        ((({} : VideoRecorder).start EncoderSettings.editing
          { audioFrameSize := 0 }).2.submitAudioSamples [1, 2] 1 2 48000).processAudioBuffer
            fuel outs = none) ∧
      (∀ (fuel : Nat) (outs : List AudioChunkOutcome),
        (((({} : VideoRecorder).start {} {}).2.submitAudioSamples
          [1, 2] 1 2 48000).submitAudioSamples [] 0 0 48000).processAudioBuffer
            fuel outs = none) :=
  ⟨rfl,
    fun fuel outs => processAudioBuffer_zero_chunk
      ((({} : VideoRecorder).start EncoderSettings.editing
        { audioFrameSize := 0 }).2.submitAudioSamples [1, 2] 1 2 48000)
      _ _ rfl rfl rfl rfl fuel outs,
    fun fuel outs => processAudioBuffer_zero_chunk
      (((({} : VideoRecorder).start {} {}).2.submitAudioSamples
        [1, 2] 1 2 48000).submitAudioSamples [] 0 0 48000)
      _ _ rfl rfl rfl rfl fuel outs⟩

/-! ## What one session leaves to the next -/

/-- C27 fails on the code.  A recorder is started, is handed three samples (less
than one encoder frame, so that no drain can remove them), is stopped and is
started again: the second session begins with the three samples of the first one
in its accumulator.  The frame queue is not emptied either: a frame grabber that
is started, captures a frame, is stopped and is started again, as `stop()` and
`start()` of the recorder do with theirs, still holds the frame. -/
theorem session_inherits_audio_samples :
    (({} : VideoRecorder).run
        [Op.start {} {}, Op.submitAudioSamples [1, 2, 3] 3 1 48000, Op.stop {},
          Op.start {} {}]).state = RecordingState.Recording ∧
      (({} : VideoRecorder).run
        [Op.start {} {}, Op.submitAudioSamples [1, 2, 3] 3 1 48000, Op.stop {},
          Op.start {} {}]).audioBuffer = [1, 2, 3] ∧
      (({} : VideoRecorder).run
        [Op.start {} {}, Op.submitAudioSamples [1, 2, 3] 3 1 48000,
          Op.stop {}]).audioBuffer = [1, 2, 3] ∧
      ((({} : FrameGrabber).start.grab ⟨1, 1, [1, 2, 3, 4]⟩ 10).stop.start.frameQueue.map
        fun f => f.frameNumber) = [0] :=
  ⟨rfl, rfl, rfl, by decide⟩

/-! ## The cursor of the asynchronous grabber -/

/-- C28 fails on the code.  A grabber is initialised with three slots, starts two
reads (the cursor is then 2) and is initialised again with two slots: it is
initialised, the cursor is 2 and there are two slots, so the next `startRead`
indexes outside the vector.  A grabber initialised with no slot, or resized
before it was ever initialised, is initialised with an empty vector. -/
theorem async_cursor_leaves_the_ring :
    (({} : AsyncFrameGrabber).runAsync
        [AsyncOp.init 1 1 3 [7, 8, 9], AsyncOp.startRead ⟨1, 1, [1, 2, 3, 4]⟩ 10,
          AsyncOp.startRead ⟨1, 1, [1, 2, 3, 4]⟩ 20, AsyncOp.init 1 1 2 [7, 8]]).map
          (fun x => (x.2.initialized, x.2.currentSlot, x.2.pboSlots.length,
            x.2.startRead ⟨1, 1, [1, 2, 3, 4]⟩ 30)) =
        some (true, 2, 2, none) ∧
      (({} : AsyncFrameGrabber).runAsync [AsyncOp.init 1 1 0 []]).map
          (fun x => (x.2.initialized, x.2.currentSlot, x.2.pboSlots.length,
            x.2.startRead ⟨1, 1, [1, 2, 3, 4]⟩ 30)) =
        some (true, 0, 0, none) ∧
      (({} : AsyncFrameGrabber).runAsync [AsyncOp.resize 4 4 []]).map
          (fun x => (x.2.initialized, x.2.currentSlot, x.2.pboSlots.length,
            x.2.startRead ⟨1, 1, [1, 2, 3, 4]⟩ 30)) =
        some (true, 0, 0, none) :=
  ⟨by decide, by decide, by decide⟩

/-! ## The order of the frames of the asynchronous grabber -/

/-- C29 fails on the code.  A grabber with two slots starts two reads, delivers a
frame, starts a third read and delivers two more frames, every mapping
succeeding: the frames delivered are numbered 0, 2 and 1, because
`getCompletedFrame` takes the first pending slot of the vector, not the oldest
pending read. -/
theorem async_frames_out_of_order :
    (({} : AsyncFrameGrabber).runAsync
        [AsyncOp.init 1 1 2 [7, 8], AsyncOp.startRead ⟨1, 1, [1, 2, 3, 4]⟩ 10,
          AsyncOp.startRead ⟨1, 1, [1, 2, 3, 4]⟩ 20,
          AsyncOp.getCompletedFrame [some [1, 2, 3, 4]],
          AsyncOp.startRead ⟨1, 1, [1, 2, 3, 4]⟩ 30,
          AsyncOp.getCompletedFrame [some [1, 2, 3, 4]],
          AsyncOp.getCompletedFrame [some [1, 2, 3, 4]]]).map
          (fun x => x.1.map fun f => (f.frameNumber, f.timestamp)) =
      some [(0, 10), (2, 30), (1, 20)] := by
  decide

/-! ## The calls made while the encode thread runs -/

theorem threadTraceStep_plain (s : Bool × List Effect) (e : Effect)
    (he : e.isThreadMark = false) :
    threadTraceStep s e = (s.1, if s.1 then s.2 ++ [e] else s.2) := by
  cases e <;> first | rfl | exact absurd he (by decide)

theorem foldl_threadTraceStep_plain (L : List Effect) (s : Bool × List Effect)
    (hL : ∀ e ∈ L, e.isThreadMark = false) :
    L.foldl threadTraceStep s = (s.1, if s.1 then s.2 ++ L else s.2) := by
  induction L generalizing s with
  | nil => cases s with | mk b acc => cases b <;> simp
  | cons e rest ih =>
    rw [List.foldl_cons, ih _ (fun x hx => hL x (List.mem_cons_of_mem _ hx)),
      threadTraceStep_plain s e (hL e (List.mem_cons_self _ _))]
    cases s with
    | mk b acc => cases b <;> simp

theorem threadTrace_append (l L : List Effect) :
    threadTrace (l ++ L) = L.foldl threadTraceStep (threadTrace l) := by
  unfold threadTrace
  rw [List.foldl_append]

theorem threadTrace_append_plain (l L : List Effect) (hL : ∀ e ∈ L, e.isThreadMark = false) :
    threadTrace (l ++ L) =
      ((threadTrace l).1, if (threadTrace l).1 then (threadTrace l).2 ++ L else (threadTrace l).2) := by
  rw [threadTrace_append, foldl_threadTraceStep_plain L _ hL]

theorem idleCalls_append_plain (l L : List Effect) (hL : ∀ e ∈ L, e.isThreadMark = false) :
    idleCalls (l ++ L) = idleCalls l := by
  unfold idleCalls
  rw [threadTrace_append_plain l L hL]
  cases h : (threadTrace l).1 <;> simp

theorem idleCalls_call (r : VideoRecorder) (e : Effect) (he : e.isThreadMark = false) :
    idleCalls (r.call e).log = idleCalls r.log :=
  idleCalls_append_plain r.log [e] (fun x hx => by rw [List.mem_singleton.mp hx]; exact he)

theorem idleCalls_eq_some (l acc : List Effect) :
    idleCalls l = some acc ↔ threadTrace l = (false, acc) := by
  unfold idleCalls
  cases h : threadTrace l with
  | mk b a => cases b <;> simp

theorem initFFmpeg_idleCalls (r : VideoRecorder) (o : InitOutcomes) :
    idleCalls (r.initFFmpeg o).2.log = idleCalls r.log := by
  unfold VideoRecorder.initFFmpeg VideoRecorder.initStreams VideoRecorder.initVideoStream
    VideoRecorder.initAudioStream VideoRecorder.openOutput
  repeat' first
    | apply andThen_keeps (fun r => idleCalls r.log)
    | apply libCall_keeps (fun r => idleCalls r.log)
    | intro r1
    | exact idleCalls_call _ _ rfl
    | (split <;> rfl)
    | rfl
    | split

theorem isRelease_plain (e : Effect) (h : e.isRelease = true) : e.isThreadMark = false := by
  cases e <;> first | rfl | exact absurd h (by decide)

theorem isFlush_plain (v : Bool) (e : Effect) (h : Effect.isFlush v e = true) :
    e.isThreadMark = false := by
  cases e <;> first | rfl | exact absurd h (by simp [Effect.isFlush])

theorem initFFmpeg_threadJoinable (r : VideoRecorder) (o : InitOutcomes) :
    (r.initFFmpeg o).2.threadJoinable = r.threadJoinable := by
  unfold VideoRecorder.initFFmpeg VideoRecorder.initStreams VideoRecorder.initVideoStream
    VideoRecorder.initAudioStream VideoRecorder.openOutput
  repeat' first
    | apply andThen_keeps (fun r => r.threadJoinable)
    | apply libCall_keeps (fun r => r.threadJoinable)
    | intro r1
    | (split <;> rfl)
    | rfl
    | split

theorem threadInv_idle (r : VideoRecorder) (hi : r.threadInv)
    (hs : r.state ≠ RecordingState.Recording) :
    r.threadJoinable = false ∧ idleCalls r.log = some (threadTrace r.log).2 := by
  obtain ⟨h1, h2, _⟩ := hi
  have hj : r.threadJoinable = false := by
    cases h : r.threadJoinable with
    | false => rfl
    | true => exact absurd (h2.mp h) hs
  refine ⟨hj, ?_⟩
  unfold idleCalls
  rw [h1, hj]
  rfl

theorem threadInv_of_idle (r r1 : VideoRecorder) (hi : r.threadInv)
    (hs : r.state ≠ RecordingState.Recording)
    (hl : idleCalls r1.log = idleCalls r.log) (hj : r1.threadJoinable = r.threadJoinable)
    (hs1 : r1.state ≠ RecordingState.Recording) : r1.threadInv := by
  obtain ⟨hj0, hc⟩ := threadInv_idle r hi hs
  rw [hc] at hl
  have ht := (idleCalls_eq_some _ _).mp hl
  refine ⟨?_, ?_, ?_⟩
  · rw [ht, hj, hj0]
  · rw [hj, hj0]
    exact ⟨fun h => absurd h (by decide), fun h => absurd h hs1⟩
  · rw [ht]
    exact hi.2.2

theorem threadInv_start (r : VideoRecorder) (settings : EncoderSettings) (o : InitOutcomes)
    (hi : r.threadInv) : (r.start settings o).2.threadInv := by
  by_cases hs : r.state = RecordingState.Stopped
  · have hne : r.state ≠ RecordingState.Recording := by rw [hs]; decide
    have hb : idleCalls (r.beginStart settings).log = idleCalls r.log :=
      idleCalls_call _ _ rfl
    cases hv : settings.validate with
    | error e =>
      rw [start_of_invalid r settings o e hs hv]
      exact hi
    | ok u =>
      cases hinit : ((r.beginStart settings).initFFmpeg o).1 with
      | error e =>
        rw [start_of_init_error r settings o e hs hv hinit]
        refine threadInv_of_idle r _ hi hne ?_ ?_ (by simp [VideoRecorder.setState])
        · have h1 : idleCalls
              (((r.beginStart settings).initFFmpeg o).2.cleanupFFmpeg.setState
                RecordingState.Error).log =
              idleCalls ((r.beginStart settings).initFFmpeg o).2.log :=
            idleCalls_append_plain _ _
              (fun e he => isRelease_plain e (cleanupCalls_isRelease _ e he))
          rw [h1, initFFmpeg_idleCalls, hb]
        · exact (initFFmpeg_threadJoinable (r.beginStart settings) o)
      | ok u =>
        rw [start_of_init_ok r settings o hs hv hinit]
        obtain ⟨hj0, hc⟩ := threadInv_idle r hi hne
        have h1 := initFFmpeg_idleCalls (r.beginStart settings) o
        rw [hb, hc] at h1
        have ht := (idleCalls_eq_some _ _).mp h1
        have hlog : (((r.beginStart settings).initFFmpeg o).2.finishStart o.now).log =
            ((r.beginStart settings).initFFmpeg o).2.log ++ [Effect.threadStart] := rfl
        have htt : threadTrace (((r.beginStart settings).initFFmpeg o).2.finishStart o.now).log =
            (true, (threadTrace r.log).2) := by
          rw [hlog, threadTrace_append, ht]
          rfl
        refine ⟨?_, ?_, ?_⟩
        · rw [htt]
          rfl
        · exact ⟨fun _ => rfl, fun _ => rfl⟩
        · rw [htt]
          exact hi.2.2
  · rw [start_of_ne_stopped r settings o hs]
    exact hi

theorem threadInv_stop (r : VideoRecorder) (o : FlushOutcomes) (hi : r.threadInv) :
    (r.stop o).2.threadInv := by
  by_cases hs : r.state = RecordingState.Recording
  · obtain ⟨V, A, b, heq, hV, hA, _⟩ := stop_recording_eq r o hs
    obtain ⟨h1, h2, h3⟩ := hi
    have hj : r.threadJoinable = true := h2.mpr hs
    rw [hj] at h1
    rw [heq]
    have hlog : threadTrace (r.log ++ ([Effect.haltSignal, Effect.grabberStop] ++
        (if r.threadJoinable then [Effect.threadJoin] else []) ++ V ++ A ++
        (if r.formatCtx.isSome then [Effect.writeTrailer] else []) ++ r.cleanupCalls)) =
        (false, (threadTrace r.log).2 ++ [Effect.haltSignal, Effect.grabberStop]) := by
      rw [hj, if_pos rfl]
      have e1 : r.log ++ ([Effect.haltSignal, Effect.grabberStop] ++ [Effect.threadJoin] ++ V ++ A ++
          (if r.formatCtx.isSome then [Effect.writeTrailer] else []) ++ r.cleanupCalls) =
          (r.log ++ [Effect.haltSignal, Effect.grabberStop, Effect.threadJoin]) ++
            (V ++ A ++ (if r.formatCtx.isSome then [Effect.writeTrailer] else []) ++
              r.cleanupCalls) := by
        simp
      have e2 : threadTrace (r.log ++ [Effect.haltSignal, Effect.grabberStop, Effect.threadJoin]) =
          (false, (threadTrace r.log).2 ++ [Effect.haltSignal, Effect.grabberStop]) := by
        rw [threadTrace_append]
        cases ht : threadTrace r.log with
        | mk b0 acc =>
          rw [ht] at h1
          simp only at h1
          subst h1
          simp [threadTraceStep]
      rw [e1, threadTrace_append_plain, e2]
      · rfl
      · intro e he
        simp only [List.mem_append] at he
        rcases he with ((he | he) | he) | he
        · exact isFlush_plain _ e (hV e he)
        · exact isFlush_plain _ e (hA e he)
        · split at he
          · rw [List.mem_singleton.mp he]; rfl
          · exact absurd he (List.not_mem_nil _)
        · exact isRelease_plain e (cleanupCalls_isRelease _ e he)
    refine ⟨?_, ?_, ?_⟩
    · show (threadTrace _).1 = false
      rw [hlog]
    · exact ⟨fun h => Bool.noConfusion h, fun h => RecordingState.noConfusion h⟩
    · show ∀ e ∈ (threadTrace _).2, _
      rw [hlog]
      intro e he
      simp only [List.mem_append, List.mem_cons, List.mem_singleton, List.not_mem_nil,
        or_false] at he
      rcases he with he | he | he
      · exact h3 e he
      · rw [he]; exact Or.inr rfl
      · rw [he]; exact Or.inr rfl
  · rw [stop_of_ne_recording r o hs]
    exact hi

theorem processVideoFrame_calls (r : VideoRecorder) (frame : GrabbedFrame) (o : EncodeOutcomes) :
    ∃ L b w,
      (r.processVideoFrame frame o).log = r.log ++ L ∧
      (∀ e ∈ L, e.isVideoEncode = true) ∧
      (r.processVideoFrame frame o).stats =
        { r.stats with bytesWritten := b, framesWritten := w } ∧
      (r.processVideoFrame frame o).state = r.state ∧
      (r.processVideoFrame frame o).threadJoinable = r.threadJoinable ∧
      (r.processVideoFrame frame o).formatCtx = r.formatCtx ∧
      (r.processVideoFrame frame o).videoCodecCtx = r.videoCodecCtx ∧
      (r.processVideoFrame frame o).audioCodecCtx = r.audioCodecCtx ∧
      (r.processVideoFrame frame o).audioFrame = r.audioFrame ∧
      (r.processVideoFrame frame o).packet = r.packet ∧
      (r.videoCodecCtx.isSome = true → r.videoFrame.isSome = true →
        ∃ L1, L = Effect.swsScale :: Effect.sendFrame true false :: L1) := by
  cases hc : r.videoCodecCtx with
  | none =>
    have h : r.processVideoFrame frame o = r := by
      unfold VideoRecorder.processVideoFrame
      rw [hc]
    rw [h]
    exact ⟨[], r.stats.bytesWritten, r.stats.framesWritten, by simp,
      fun e he => absurd he (List.not_mem_nil _), rfl, rfl, rfl, rfl, hc, rfl, rfl, rfl,
      fun h => absurd h (by simp)⟩
  | some c =>
    cases hf : r.videoFrame with
    | none =>
      have h : r.processVideoFrame frame o = r := by
        unfold VideoRecorder.processVideoFrame
        rw [hc, hf]
      rw [h]
      exact ⟨[], r.stats.bytesWritten, r.stats.framesWritten, by simp,
        fun e he => absurd he (List.not_mem_nil _), rfl, rfl, rfl, rfl, hc, rfl, rfl, rfl,
        fun _ h => absurd h (by simp)⟩
    | some vf =>
      obtain ⟨L, b, w, heq, hL, _, _⟩ := processVideoFrame_eq r frame o c vf hc hf
      rw [heq]
      refine ⟨Effect.swsScale :: Effect.sendFrame true false :: L, b, w, rfl, ?_, rfl, rfl, rfl,
        rfl, hc, rfl, rfl, rfl, fun _ _ => ⟨L, rfl⟩⟩
      intro e he
      simp only [List.mem_cons] at he
      rcases he with he | he | he
      · rw [he]; rfl
      · rw [he]; rfl
      · rcases hL e he with h | h <;> (rw [h]; rfl)

theorem isVideoEncode_plain (e : Effect) (h : e.isVideoEncode = true) :
    e.isThreadMark = false := by
  cases e <;> first | rfl | exact absurd h (by decide)

theorem threadInv_submitVideoFrame (r : VideoRecorder) (data : List Nat) (width height : Nat)
    (timestamp : Int) (o : EncodeOutcomes) (hi : r.threadInv) :
    (r.submitVideoFrame data width height timestamp o).threadInv := by
  unfold VideoRecorder.submitVideoFrame
  by_cases hs : r.state = RecordingState.Recording
  · rw [if_neg (not_not.mpr hs)]
    obtain ⟨L, b, w, hlog, hL, _, hst, hj, _⟩ := processVideoFrame_calls r
      { width := width, height := height, timestamp := timestamp,
        data := data.take ((width * height * 4) % 2 ^ 32) } o
    obtain ⟨h1, h2, h3⟩ := hi
    simp only
    have ht := threadTrace_append_plain r.log L (fun e he => isVideoEncode_plain e (hL e he))
    refine ⟨?_, ?_, ?_⟩
    · rw [hlog, ht, hj]
      exact h1
    · rw [hj, hst]
      exact h2
    · rw [hlog, ht]
      intro e he
      simp only at he
      split at he
      · rcases List.mem_append.mp he with he | he
        · exact h3 e he
        · exact Or.inl (hL e he)
      · exact h3 e he
  · rw [if_pos hs]
    exact hi

theorem submitAudioSamples_untouched (r : VideoRecorder) (data : List Nat) (n c rate : Nat) :
    (r.submitAudioSamples data n c rate).log = r.log ∧
      (r.submitAudioSamples data n c rate).stats = r.stats ∧
      (r.submitAudioSamples data n c rate).state = r.state ∧
      (r.submitAudioSamples data n c rate).threadJoinable = r.threadJoinable ∧
      (r.submitAudioSamples data n c rate).formatCtx = r.formatCtx ∧
      (r.submitAudioSamples data n c rate).videoCodecCtx = r.videoCodecCtx ∧
      (r.submitAudioSamples data n c rate).audioCodecCtx = r.audioCodecCtx ∧
      (r.submitAudioSamples data n c rate).videoFrame = r.videoFrame ∧
      (r.submitAudioSamples data n c rate).audioFrame = r.audioFrame ∧
      (r.submitAudioSamples data n c rate).packet = r.packet := by
  unfold VideoRecorder.submitAudioSamples
  split
  · exact ⟨rfl, rfl, rfl, rfl, rfl, rfl, rfl, rfl, rfl, rfl⟩
  · split
    · exact ⟨rfl, rfl, rfl, rfl, rfl, rfl, rfl, rfl, rfl, rfl⟩
    · exact ⟨rfl, rfl, rfl, rfl, rfl, rfl, rfl, rfl, rfl, rfl⟩

theorem threadInv_submitAudioSamples (r : VideoRecorder) (data : List Nat) (n c rate : Nat)
    (hi : r.threadInv) : (r.submitAudioSamples data n c rate).threadInv := by
  obtain ⟨hl, _, hs, hj, _⟩ := submitAudioSamples_untouched r data n c rate
  unfold VideoRecorder.threadInv
  rw [hl, hs, hj]
  exact hi

theorem threadInv_step (r : VideoRecorder) (op : Op) (hi : r.threadInv) :
    (r.step op).threadInv := by
  cases op with
  | start settings o => exact threadInv_start r settings o hi
  | stop o => exact threadInv_stop r o hi
  | submitVideoFrame data width height timestamp o =>
    exact threadInv_submitVideoFrame r data width height timestamp o hi
  | submitAudioSamples data samples channels sampleRate =>
    exact threadInv_submitAudioSamples r data samples channels sampleRate hi

theorem threadInv_run (ops : List Op) (r : VideoRecorder) (hi : r.threadInv) :
    (r.run ops).threadInv := by
  induction ops generalizing r with
  | nil => exact hi
  | cons op rest ih => exact ih (r.step op) (threadInv_step r op hi)

theorem threadInv_fresh : ({} : VideoRecorder).threadInv :=
  ⟨rfl, ⟨fun h => Bool.noConfusion h, fun h => RecordingState.noConfusion h⟩,
    fun _ he => absurd he (List.not_mem_nil _)⟩

/-! ## C22: who touches the encoder while the encode thread runs -/

/-- C22, as stated, fails: a freshly constructed recorder is started with the
default settings, so that its encode thread is running and no call has been made
beside it, and is then handed one video frame of one pixel by `submitVideoFrame`,
the codec answering with one packet.  While the encode thread is running, the
operation, on the thread of its caller, converts into the reusable video frame,
sends it to the video codec, drains the codec into the shared packet and writes
the packet through the format context; it also advances the video timestamp
counter and the statistic `framesWritten` from 0 to 1.  The thread is still
running afterwards. -/
theorem submitVideoFrame_encodes_on_caller_thread :
    (({} : VideoRecorder).run [Op.start {} {}]).state = RecordingState.Recording ∧
      threadTrace (({} : VideoRecorder).run [Op.start {} {}]).log = (true, []) ∧
      threadTrace (({} : VideoRecorder).run
          [Op.start {} {},
            Op.submitVideoFrame [1, 2, 3, 4] 1 1 0 { packets := [{ size := 10 }] }]).log =
        (true, [Effect.swsScale, Effect.sendFrame true false, Effect.receivePacket true,
          Effect.writeFrame true, Effect.receivePacket true]) ∧
      (({} : VideoRecorder).run [Op.start {} {}]).videoFrameCount = 0 ∧
      (({} : VideoRecorder).run
          [Op.start {} {},
            Op.submitVideoFrame [1, 2, 3, 4] 1 1 0 { packets := [{ size := 10 }] }]).videoFrameCount =
        1 ∧
      (({} : VideoRecorder).run [Op.start {} {}]).stats.framesWritten = 0 ∧
      (({} : VideoRecorder).run
          [Op.start {} {},
            Op.submitVideoFrame [1, 2, 3, 4] 1 1 0
              { packets := [{ size := 10 }] }]).stats.framesWritten = 1 :=
  ⟨rfl, rfl, rfl, rfl, rfl, rfl, rfl⟩

/-- C22, amended: the encoder and muxer resources and the recording statistics are
not reserved to the encode thread, because `submitVideoFrame` processes its frame
synchronously on the thread of its caller; apart from that operation nothing on
the caller's thread touches them while the encode thread is running.  In the
recorder reached from a freshly constructed one by any calls `ops` of the public
interface, the encode thread (started by the last call of a successful `start`,
ended by the join in `stop`) is running exactly when the state is Recording, which
is exactly when the thread is joinable, and every call made on the caller's
thread while it was running is a call of `processVideoFrame` (conversion into the
reusable video frame, send to the video codec, drain into the shared packet, write
through the format context) or one of the two requests by which `stop` asks the
thread to end.  For every recorder `r`: `submitAudioSamples` makes no call and
leaves the statistics, the format context, both codec contexts, both reusable
frames and the packet as they are; `submitVideoFrame` does nothing outside state
Recording, makes only calls of `processVideoFrame`, the conversion and the send
first when the video codec context and the reusable video frame are set, and
changes no statistic other than `bytesWritten` and `framesWritten`; `start` does
nothing unless the state is Stopped; and `stop`, up to and including the join,
leaves the statistics and the resources as they are. -/
theorem caller_thread_calls_while_encoding (ops : List Op) (r : VideoRecorder)
    (data : List Nat) (width height : Nat) (timestamp : Int) (eo : EncodeOutcomes)
    (n c rate : Nat) (settings : EncoderSettings) (io : InitOutcomes) :
    ((threadTrace (({} : VideoRecorder).run ops).log).1 = true ↔
        (({} : VideoRecorder).run ops).state = RecordingState.Recording) ∧
      (threadTrace (({} : VideoRecorder).run ops).log).1 =
        (({} : VideoRecorder).run ops).threadJoinable ∧
      (∀ e ∈ (threadTrace (({} : VideoRecorder).run ops).log).2,
        e.isVideoEncode = true ∨ e.isHaltRequest = true) ∧
      ((r.submitAudioSamples data n c rate).log = r.log ∧
        (r.submitAudioSamples data n c rate).stats = r.stats ∧
        (r.submitAudioSamples data n c rate).formatCtx = r.formatCtx ∧
        (r.submitAudioSamples data n c rate).videoCodecCtx = r.videoCodecCtx ∧
        (r.submitAudioSamples data n c rate).audioCodecCtx = r.audioCodecCtx ∧
        (r.submitAudioSamples data n c rate).videoFrame = r.videoFrame ∧
        (r.submitAudioSamples data n c rate).audioFrame = r.audioFrame ∧
        (r.submitAudioSamples data n c rate).packet = r.packet) ∧
      (r.state ≠ RecordingState.Recording →
        r.submitVideoFrame data width height timestamp eo = r) ∧
      (∃ L b w,
        (r.submitVideoFrame data width height timestamp eo).log = r.log ++ L ∧
        (∀ e ∈ L, e.isVideoEncode = true) ∧
        (r.submitVideoFrame data width height timestamp eo).stats =
          { r.stats with bytesWritten := b, framesWritten := w } ∧
        (r.state = RecordingState.Recording → r.videoCodecCtx.isSome = true →
          r.videoFrame.isSome = true →
          ∃ L1, L = Effect.swsScale :: Effect.sendFrame true false :: L1)) ∧
      (r.state ≠ RecordingState.Stopped → (r.start settings io).2 = r) ∧
      ((r.setState RecordingState.Stopping).haltAndJoin.threadJoinable = false ∧
        (r.setState RecordingState.Stopping).haltAndJoin.stats = r.stats ∧
        (r.setState RecordingState.Stopping).haltAndJoin.formatCtx = r.formatCtx ∧
        (r.setState RecordingState.Stopping).haltAndJoin.videoCodecCtx = r.videoCodecCtx ∧
        (r.setState RecordingState.Stopping).haltAndJoin.audioCodecCtx = r.audioCodecCtx ∧
        (r.setState RecordingState.Stopping).haltAndJoin.videoFrame = r.videoFrame ∧
        (r.setState RecordingState.Stopping).haltAndJoin.audioFrame = r.audioFrame ∧
        (r.setState RecordingState.Stopping).haltAndJoin.packet = r.packet) := by
  obtain ⟨h1, h2, h3⟩ := threadInv_run ops {} threadInv_fresh
  obtain ⟨a1, a2, _, _, a5, a6, a7, a8, a9, a10⟩ := submitAudioSamples_untouched r data n c rate
  refine ⟨?_, h1, h3, ⟨a1, a2, a5, a6, a7, a8, a9, a10⟩, ?_, ?_, ?_, ?_⟩
  · rw [h1]
    exact h2
  · intro hs
    unfold VideoRecorder.submitVideoFrame
    rw [if_pos hs]
  · by_cases hs : r.state = RecordingState.Recording
    · obtain ⟨L, b, w, hlog, hL, hst, _, _, _, _, _, _, _, hshape⟩ := processVideoFrame_calls r
        { width := width, height := height, timestamp := timestamp,
          data := data.take ((width * height * 4) % 2 ^ 32) } eo
      refine ⟨L, b, w, ?_, hL, ?_, fun _ => hshape⟩
      · unfold VideoRecorder.submitVideoFrame
        rw [if_neg (not_not.mpr hs)]
        exact hlog
      · unfold VideoRecorder.submitVideoFrame
        rw [if_neg (not_not.mpr hs)]
        exact hst
    · have he : r.submitVideoFrame data width height timestamp eo = r := by
        unfold VideoRecorder.submitVideoFrame
        rw [if_pos hs]
      rw [he]
      exact ⟨[], r.stats.bytesWritten, r.stats.framesWritten, by simp,
        fun _ h => absurd h (List.not_mem_nil _), rfl, fun h => absurd h hs⟩
  · intro hs
    rw [start_of_ne_stopped r settings io hs]
  · rw [haltAndJoin_eq]
    exact ⟨rfl, rfl, rfl, rfl, rfl, rfl, rfl, rfl⟩

/-- A freshly constructed recorder is started, handed a video frame and audio
samples, and stopped: the encode thread is not running at the end, and the calls
made while it was running are those of the one video frame followed by the two
requests of `stop`.  A recording recorder with the video codec context and the
reusable video frame set begins the work of `submitVideoFrame` with the conversion
and the send, and refuses a second `start`. -/
theorem caller_thread_calls_while_encoding_witness :
    threadTrace (({} : VideoRecorder).run
        [Op.start {} {}, Op.submitVideoFrame [1, 2, 3, 4] 1 1 0 { packets := [{ size := 10 }] },
          Op.submitAudioSamples [1, 2] 1 2 48000, Op.stop {}]).log =
      (false, [Effect.swsScale, Effect.sendFrame true false, Effect.receivePacket true,
        Effect.writeFrame true, Effect.receivePacket true, Effect.haltSignal,
        Effect.grabberStop]) ∧
      (∀ e ∈ (threadTrace (({} : VideoRecorder).run
        [Op.start {} {}, Op.submitVideoFrame [1, 2, 3, 4] 1 1 0 { packets := [{ size := 10 }] },
          Op.submitAudioSamples [1, 2] 1 2 48000, Op.stop {}]).log).2,
        e.isVideoEncode = true ∨ e.isHaltRequest = true) ∧
      (({} : VideoRecorder).start {} {}).2.state = RecordingState.Recording ∧
      (({} : VideoRecorder).start {} {}).2.videoCodecCtx.isSome = true ∧
      (({} : VideoRecorder).start {} {}).2.videoFrame.isSome = true ∧
      (∃ L1, ((({} : VideoRecorder).start {} {}).2.submitVideoFrame [1, 2, 3, 4] 1 1 0
          { packets := [{ size := 10 }] }).log =
        (({} : VideoRecorder).start {} {}).2.log ++
          Effect.swsScale :: Effect.sendFrame true false :: L1) ∧
      ((({} : VideoRecorder).start {} {}).2.start {} {}).2 = (({} : VideoRecorder).start {} {}).2 :=
  have h := caller_thread_calls_while_encoding
    [Op.start {} {}, Op.submitVideoFrame [1, 2, 3, 4] 1 1 0 { packets := [{ size := 10 }] },
      Op.submitAudioSamples [1, 2] 1 2 48000, Op.stop {}]
    (({} : VideoRecorder).start {} {}).2 [1, 2, 3, 4] 1 1 0 { packets := [{ size := 10 }] }
    1 2 48000 {} {}
  ⟨rfl, h.2.2.1, rfl, rfl, rfl,
    (by
      obtain ⟨L, b, w, hlog, _, _, hshape⟩ := h.2.2.2.2.2.1
      obtain ⟨L1, hL1⟩ := hshape rfl rfl rfl
      exact ⟨L1, by rw [hlog, hL1]⟩),
    h.2.2.2.2.2.2.1 (by decide)⟩

end vc
